import Mathlib

/-! # Verification development for the SeisComP database archive

Shallow embedding of `libs/seiscomp/datamodel/databasearchive.cpp`.

* The database driver (`IO::DatabaseInterface`) is an interface record of pure
  functions over an arbitrary driver state `σ`.
* The archive is a record of its member variables; member functions are state
  passing functions into `Except Fault`, where a `Fault` is an abnormal
  termination of the C++ code (null dereference, thrown exception).
* Every call that reaches the connection is appended to the record `log`,
  so that statements about "what the driver observes" are statements about
  that list.
* C++ strings are Lean strings; sizes and offsets count characters.
-/

namespace Seiscomp
namespace DataModel

/-! ## Basic types -/

/-- Abnormal termination of the embedded C++ code. -/
inductive Fault where
  /-- a null pointer (driver, reader, attribute map, row field) is dereferenced -/
  | nullPointer
  /-- the `OverflowException` thrown by `pushAttributePrefix` -/
  | overflow
  /-- an offset or iterator outside its container -/
  | outOfRange
  /-- a local variable is read that no statement has given a value -/
  | uninitialised
deriving DecidableEq, Repr

/-- Row identifier (`DatabaseArchive::OID`, an unsigned 64 bit integer). -/
abbrev OID := Nat

/-- Modelled from the spec: `IO::DatabaseInterface::INVALID_OID` is declared in
the driver header, which is not part of the sources at hand.  The glossary
calls 0 the invalid oid, and the archive compares cached ids against
`INVALID_OID`, against `0` and with `!id` interchangeably. -/
def INVALID_OID : OID := 0

/-- Modelled from the spec: `Core::Time` as far as the archive uses it, a
second count and the microseconds within that second (`microseconds()`). -/
structure Time where
  seconds : Int
  usecs : Nat
deriving DecidableEq, Repr

/-- Modelled from the spec: `Core::Version` (its header is not part of the
sources at hand), a `major.minor[.patch]` triple ordered lexicographically. -/
structure Version where
  majorTag : Nat
  minorTag : Nat
  patchTag : Nat
deriving DecidableEq, Repr

/-- The order `operator>` of `Core::Version`. -/
def Version.gt (v w : Version) : Bool :=
  decide (w.majorTag < v.majorTag) ||
  (decide (v.majorTag = w.majorTag) &&
    (decide (w.minorTag < v.minorTag) ||
      (decide (v.minorTag = w.minorTag) && decide (w.patchTag < v.patchTag))))

/-- Value of one decimal digit. -/
def digitValue (c : Char) : Option Nat :=
  if c.toNat < 48 then none else if 57 < c.toNat then none else some (c.toNat - 48)

/-- Decimal reading of a list of digits, most significant first, continuing
from the accumulator `acc`. -/
def readDigits : List Char → Nat → Option Nat
  | [], acc => some acc
  | c :: cs, acc =>
    match digitValue c with
    | none => none
    | some d => readDigits cs (acc * 10 + d)

/-- Decimal reading of a non-empty string of digits. -/
def readNat (s : String) : Option Nat :=
  match s.data with
  | [] => none
  | cs => readDigits cs 0

/-- Modelled from the spec: `Core::fromString` for an oid (the string helpers
of the core library are not part of the sources at hand): the decimal reading
of a row field as a 64-bit row identifier; a field that does not read as one
converts to nothing and leaves the target untouched. -/
def fromStringOID (s : String) : Option OID :=
  match readNat s with
  | some n => if n < 2 ^ 64 then some n else none
  | none => none

/-- Modelled from the spec: `Core::fromString` for an `int`, an optional sign
followed by decimal digits. -/
def fromStringInt (s : String) : Option Int :=
  match s.data with
  | '-' :: cs => (readNat (String.mk cs)).map (fun n => - (n : Int))
  | _ => (readNat s).map (fun n => (n : Int))

/-- Splits a list of characters at every `.`. -/
def splitDots : List Char → List (List Char)
  | [] => [[]]
  | c :: cs =>
    if c = '.' then [] :: splitDots cs
    else
      match splitDots cs with
      | [] => [[c]]
      | w :: ws => (c :: w) :: ws

/-- Modelled from the spec: `Core::Version::fromString`, which reads
`MAJOR.MINOR[.PATCH]` (section 6, Meta table). -/
def Version.fromString (s : String) : Option Version :=
  match (splitDots s.data).map (fun w => readNat (String.mk w)) with
  | [some ma, some mi] => some ⟨ma, mi, 0⟩
  | [some ma, some mi, some pa] => some ⟨ma, mi, pa⟩
  | _ => none

/-- Modelled from the spec: the hint bitset of the generic archive
(section 4.2, Hints).  The bit positions are declared outside the sources at
hand and the archive only ever tests membership (`hint() & FLAG`), so the
set is a record of membership flags. -/
structure Hint where
  IGNORE_CHILDS : Bool
  STATIC_TYPE : Bool
  DB_TABLE : Bool
  SPLIT_TIME : Bool
  INDEX_ATTRIBUTE : Bool
deriving DecidableEq, Repr

/-- The empty hint set. -/
def Hint.none : Hint := ⟨false, false, false, false, false⟩

/-- `const char *` argument that may be null. -/
abbrev CStr := Option String

/-- Modelled from the spec: `isEmpty(const char*)` of the core library, true
for a null pointer and for the empty string. -/
def isEmpty (s : CStr) : Bool :=
  match s with
  | none => true
  | some t => decide (t = "")

/-- `ATTRIBUTE_SEPERATOR` -/
def ATTRIBUTE_SEPERATOR : String := "_"

/-- `MICROSECONDS_POSTFIX` -/
def MICROSECONDS_POSTFIX : String := ATTRIBUTE_SEPERATOR ++ "ms"

/-- `OBJECT_USED_POSTFIX` -/
def OBJECT_USED_POSTFIX : String := "used"

/-- `CHILD_ID_POSTFIX` -/
def CHILD_ID_POSTFIX : String := "oid"

/-- `Object::ClassName()` -/
def Object_ClassName : String := "Object"

/-- `PublicObject::ClassName()` -/
def PublicObject_ClassName : String := "PublicObject"

/-- `std::string::erase(pos)`: keeps the first `pos` characters. -/
def strErase (s : String) (pos : Nat) : String := String.mk (s.data.take pos)

/-! ## Attribute maps -/

/-- Modelled from the spec: `DatabaseArchive::AttributeMap` is declared in the
archive header, which is not part of the sources at hand; section 2 describes
it as an insertion-ordered mapping from column name to optional value
(absent = SQL NULL). -/
abbrev AttributeMap := List (String × Option String)

/-- `map[key] = value`: overwrites the entry of `key` or adds one. -/
def AttributeMap.assign : AttributeMap → String → Option String → AttributeMap
  | [], k, v => [(k, v)]
  | (k0, v0) :: rest, k, v =>
    if k0 = k then (k, v) :: rest else (k0, v0) :: AttributeMap.assign rest k v

/-- `map.find(key)`: the value stored under `key`, if there is an entry. -/
def AttributeMap.find : AttributeMap → String → Option (Option String)
  | [], _ => none
  | (k0, v0) :: rest, k => if k0 = k then some v0 else AttributeMap.find rest k

/-- Writes the strings of a list separated by `sep`, the loop shared by the
stream operators of `AttributeMapper` and `ValueMapper`. -/
def joinWith (sep : String) : List String → String
  | [] => ""
  | [x] => x
  | x :: y :: rest => x ++ sep ++ joinWith sep (y :: rest)

/-- `os << AttributeMapper(map)`: the column names, comma separated. -/
def AttributeMapper (m : AttributeMap) : String :=
  joinWith "," (m.map (fun e => e.1))

/-- `os << ValueMapper(map)`: the values, comma separated, `NULL` for an
absent value. -/
def ValueMapper (m : AttributeMap) : String :=
  joinWith "," (m.map (fun e => e.2.getD "NULL"))

/-! ## The driver interface -/

/-- The part of `IO::DatabaseInterface` the archive calls.  `σ` is the state
of the driver object (connection, cursor, stored rows). -/
structure DatabaseInterface (σ : Type) where
  isConnected : σ → Bool
  connect : σ → String → Bool × σ
  disconnect : σ → σ
  start : σ → σ
  commit : σ → σ
  rollback : σ → σ
  execute : σ → String → Bool × σ
  beginQuery : σ → String → Bool × σ
  fetchRow : σ → Bool × σ
  endQuery : σ → σ
  findColumn : σ → String → Int
  getRowField : σ → Int → Option String
  getRowFieldSize : σ → Int → Nat
  lastInsertId : σ → String → OID
  escape : String → Option String
  timeToString : Time → String
  stringToTime : Option String → Time
  convertColumnName : String → String
  defaultValue : String

deriving instance DecidableEq for Except

/-- One entry of the call log: a call on the driver's connection with its
result, or the entry of the archive into `write` / `remove` for an object. -/
inductive Event where
  | connect (dataSource : String) (ok : Bool)
  | disconnect
  | start
  | commit
  | rollback
  | execute (sql : String) (ok : Bool)
  | beginQuery (sql : String) (ok : Bool)
  | fetchRow (ok : Bool)
  | endQuery
  | archiveWrite (object : Nat) (parentId : String)
  | archiveRemove (object : Nat) (parentId : String)
deriving DecidableEq, Repr

/-- `toSQL(db, str)`: the escaped string, or the empty string when the driver
fails to escape. -/
def toSQL {σ : Type} (D : DatabaseInterface σ) (str : String) : String :=
  (D.escape str).getD ""

/-! ## Objects and what they serialize -/

/-- A value handed to one of the typed `write` overloads of the archive.
Renderings done by the core library (`Core::toString` of floating point
numbers, complex numbers and vectors) are carried as the rendered string. -/
inductive Value where
  /-- `int8_t`, `int16_t`, `int32_t`, `int64_t` -/
  | int (v : Int)
  /-- `float`, `double`, carried as `toString(value)` -/
  | real (rendered : String)
  /-- complex numbers and vectors of numbers or times, carried as
  `toString(value)`; written between single quotes -/
  | quoted (rendered : String)
  /-- `bool` -/
  | bool (b : Bool)
  /-- `std::string`, and `toString(value)` of `vector<char>` and
  `vector<string>`; escaped by the driver and written between single quotes -/
  | text (s : String)
  /-- `Core::Time` -/
  | time (t : Time)
deriving DecidableEq, Repr

mutual
/-- One call an object's `serialize(Archive&)` makes on the archive.  The
`serialize` methods of the domain classes and the generic archive they talk to
are not part of the sources at hand; what reaches `DatabaseArchive` are calls of
the member functions it overrides, and those are the operations listed here.
The two `serialize` overloads run the serialization of a nested object in
their middle, which is the script they carry. -/
inductive SerOp where
  | setHint (h : Hint)
  | setValidity (v : Bool)
  | locateObjectByName (name targetClass : CStr) (nullable : Bool)
  | locateNullObjectByName (name targetClass : CStr) (first : Bool)
  | write (v : Value)
  | serializeRoot (object : SerScript)
  | serializeDispatcher (disp : SerScript)
/-- A sequence of `SerOp`. -/
inductive SerScript where
  | done
  | seq (op : SerOp) (rest : SerScript)
end

/-- What the archive uses of a `PublicObject*` that is the parent of an
object: its address and its publicID. -/
structure PublicObjectRef where
  id : Nat
  publicID : String
deriving DecidableEq, Repr

/-- An `Object*` as the archive sees it: the address `id` (the key of the
identity cache), `className()`, the publicID when `PublicObject::Cast`
succeeds, the linked in-memory `parent()`, and the calls its `serialize`
makes. -/
structure Object where
  id : Nat
  className : String
  publicID : Option String
  parent : Option PublicObjectRef
  serialize : SerScript

/-! ## The archive -/

/-- The map `_objectAttributes` points to. -/
inductive AttrTarget where
  /-- `nullptr`, the value the constructor gives it -/
  | null
  /-- `&_rootAttributes` -/
  | root
  /-- `&it->second` for the element `i` of `_childTables` -/
  | child (i : Nat)
deriving DecidableEq, Repr

/-- The member variables of `DatabaseArchive` (`hint`, `isReading` and
`validObject` are those of the generic archive it derives from), and the call
log. -/
structure DatabaseArchive (σ : Type) where
  db : Option σ
  allowDbClose : Bool
  errorMsg : String
  version : Version
  publicIDColumn : String
  objectIdCache : List (Nat × OID)
  hint : Hint
  isReading : Bool
  validObject : Bool
  rootAttributes : AttributeMap
  indexAttributes : AttributeMap
  childTables : List (String × AttributeMap)
  currentChildTable : Nat
  objectAttributes : AttrTarget
  childDepth : Int
  ignoreIndexAttributes : Bool
  currentAttributePrefix : String
  currentAttributeName : String
  prefixPos : Nat
  prefixOffset : Mathlib.Vector Nat 64
  fieldIndex : Int
  field : Option String
  fieldSize : Nat
  log : List Event
deriving DecidableEq

namespace DatabaseArchive

variable {σ : Type}

/-- `validInterface()` -/
def validInterface (a : DatabaseArchive σ) : Bool := a.db.isSome

/-- Modelled from the spec: `setValidity` of the generic archive; a false
argument flips the `validObject` flag to false (section 7), a true one leaves
it as it is. -/
def setValidity (a : DatabaseArchive σ) (v : Bool) : DatabaseArchive σ :=
  if v then a else { a with validObject := false }

/-- `success()`: the `validObject` flag. -/
def success (a : DatabaseArchive σ) : Bool := a.validObject

/-! ### Calls on the driver -/

/-- `_db->execute(sql)` -/
def dbExecute (D : DatabaseInterface σ) (a : DatabaseArchive σ) (sql : String) :
    Except Fault (Bool × DatabaseArchive σ) :=
  match a.db with
  | none => .error .nullPointer
  | some s =>
    .ok ((D.execute s sql).1,
      { a with db := some (D.execute s sql).2,
               log := a.log ++ [Event.execute sql (D.execute s sql).1] })

/-- `_db->beginQuery(sql)` -/
def dbBeginQuery (D : DatabaseInterface σ) (a : DatabaseArchive σ) (sql : String) :
    Except Fault (Bool × DatabaseArchive σ) :=
  match a.db with
  | none => .error .nullPointer
  | some s =>
    .ok ((D.beginQuery s sql).1,
      { a with db := some (D.beginQuery s sql).2,
               log := a.log ++ [Event.beginQuery sql (D.beginQuery s sql).1] })

/-- `_db->fetchRow()` -/
def dbFetchRow (D : DatabaseInterface σ) (a : DatabaseArchive σ) :
    Except Fault (Bool × DatabaseArchive σ) :=
  match a.db with
  | none => .error .nullPointer
  | some s =>
    .ok ((D.fetchRow s).1,
      { a with db := some (D.fetchRow s).2,
               log := a.log ++ [Event.fetchRow (D.fetchRow s).1] })

/-- `_db->endQuery()` -/
def dbEndQuery (D : DatabaseInterface σ) (a : DatabaseArchive σ) :
    Except Fault (DatabaseArchive σ) :=
  match a.db with
  | none => .error .nullPointer
  | some s => .ok { a with db := some (D.endQuery s), log := a.log ++ [Event.endQuery] }

/-- `(const char*)_db->getRowField(index)` used as a string: a null field
cannot be read. -/
def dbRowField (D : DatabaseInterface σ) (a : DatabaseArchive σ) (index : Int) :
    Except Fault String :=
  match a.db with
  | none => .error .nullPointer
  | some s =>
    match D.getRowField s index with
    | none => .error .nullPointer
    | some f => .ok f

/-- `_db->lastInsertId(table)` -/
def dbLastInsertId (D : DatabaseInterface σ) (a : DatabaseArchive σ) (table : String) :
    Except Fault OID :=
  match a.db with
  | none => .error .nullPointer
  | some s => .ok (D.lastInsertId s table)

/-- `_db->start()` -/
def dbStart (D : DatabaseInterface σ) (a : DatabaseArchive σ) :
    Except Fault (DatabaseArchive σ) :=
  match a.db with
  | none => .error .nullPointer
  | some s => .ok { a with db := some (D.start s), log := a.log ++ [Event.start] }

/-- `_db->commit()` -/
def dbCommit (D : DatabaseInterface σ) (a : DatabaseArchive σ) :
    Except Fault (DatabaseArchive σ) :=
  match a.db with
  | none => .error .nullPointer
  | some s => .ok { a with db := some (D.commit s), log := a.log ++ [Event.commit] }

/-- `_db->rollback()` -/
def dbRollback (D : DatabaseInterface σ) (a : DatabaseArchive σ) :
    Except Fault (DatabaseArchive σ) :=
  match a.db with
  | none => .error .nullPointer
  | some s => .ok { a with db := some (D.rollback s), log := a.log ++ [Event.rollback] }

/-! ### The identity cache -/

/-- `getCachedId(o)` -/
def getCachedId (a : DatabaseArchive σ) (o : Nat) : OID :=
  match a.objectIdCache.lookup o with
  | none => INVALID_OID
  | some oid => oid

/-- `registerId(o, id)`: `_objectIdCache[o] = id` -/
def registerId (a : DatabaseArchive σ) (o : Nat) (id : OID) : DatabaseArchive σ :=
  { a with objectIdCache := (o, id) :: a.objectIdCache.filter (fun e => e.1 != o) }

/-- `removeId(o)` -/
def removeId (a : DatabaseArchive σ) (o : Nat) : DatabaseArchive σ :=
  { a with objectIdCache := a.objectIdCache.filter (fun e => e.1 != o) }

/-- `onObjectDestroyed(object)` -/
def onObjectDestroyed (a : DatabaseArchive σ) (object : Nat) : DatabaseArchive σ :=
  a.removeId object

/-- `getCacheSize()` -/
def getCacheSize (a : DatabaseArchive σ) : Nat := a.objectIdCache.length

/-! ### The attribute prefix stack -/

/-- `resetAttributePrefix()` -/
def resetAttributePrefix (a : DatabaseArchive σ) : DatabaseArchive σ :=
  { a with prefixPos := 0, currentAttributePrefix := "" }

/-- `pushAttributePrefix(name)` -/
def pushAttributePrefix (a : DatabaseArchive σ) (name : CStr) :
    Except Fault (DatabaseArchive σ) :=
  if h : 64 ≤ a.prefixPos then .error .overflow
  else
    match name with
    | none =>
      .ok { a with
        prefixOffset :=
          a.prefixOffset.set ⟨a.prefixPos, by omega⟩ a.currentAttributePrefix.length,
        prefixPos := a.prefixPos + 1 }
    | some n =>
      .ok { a with
        prefixOffset :=
          a.prefixOffset.set ⟨a.prefixPos, by omega⟩ a.currentAttributePrefix.length,
        prefixPos := a.prefixPos + 1,
        currentAttributePrefix :=
          if a.currentAttributePrefix = "" then n
          else a.currentAttributePrefix ++ ATTRIBUTE_SEPERATOR ++ n }

/-- `popAttribPrefix()`.  Reading a slot behind the 64 of the array, and an
`erase` at an offset behind the end of the string, end the call abnormally. -/
def popAttribPrefix (a : DatabaseArchive σ) : Except Fault (DatabaseArchive σ) :=
  if a.prefixPos = 0 then .ok { a with prefixPos := 0 }
  else if h : a.prefixPos - 1 < 64 then
    if a.currentAttributePrefix.length < a.prefixOffset.get ⟨a.prefixPos - 1, h⟩ then
      .error .outOfRange
    else
      .ok { a with
        prefixPos := a.prefixPos - 1,
        currentAttributePrefix :=
          strErase a.currentAttributePrefix (a.prefixOffset.get ⟨a.prefixPos - 1, h⟩) }
  else .error .outOfRange

/-! ### Writing attributes -/

/-- `*_objectAttributes`: the map the archive currently collects into. -/
def currentAttributes (a : DatabaseArchive σ) : Except Fault AttributeMap :=
  match a.objectAttributes with
  | .null => .error .nullPointer
  | .root => .ok a.rootAttributes
  | .child i =>
    match a.childTables.get? i with
    | none => .error .outOfRange
    | some t => .ok t.2

/-- The name `writeAttrib` builds from the prefix and the attribute name
(before the driver converts it). -/
def attribIndexName (a : DatabaseArchive σ) : String :=
  if a.currentAttributePrefix = "" then a.currentAttributeName
  else if a.currentAttributeName = "" then a.currentAttributePrefix
  else a.currentAttributePrefix ++ ATTRIBUTE_SEPERATOR ++ a.currentAttributeName

/-- `writeAttrib(value)` -/
def writeAttrib (D : DatabaseInterface σ) (a : DatabaseArchive σ) (value : Option String) :
    Except Fault (DatabaseArchive σ) :=
  if a.currentAttributePrefix = "" ∧ a.currentAttributeName = "publicID" then .ok a
  else
    match a.db with
    | none => .error .nullPointer
    | some _ =>
      if a.hint.INDEX_ATTRIBUTE && a.ignoreIndexAttributes then
        .ok { a with indexAttributes :=
                (AttributeMap.assign a.indexAttributes
                  (D.convertColumnName a.attribIndexName) value) }
      else
        match a.objectAttributes with
        | .null => .error .nullPointer
        | .root =>
          .ok { a with rootAttributes :=
                  (AttributeMap.assign a.rootAttributes
                    (D.convertColumnName a.attribIndexName) value) }
        | .child i =>
          match a.childTables.get? i with
          | none => .error .outOfRange
          | some t =>
            .ok { a with childTables :=
                    (a.childTables.set i
                      (t.1, AttributeMap.assign t.2
                        (D.convertColumnName a.attribIndexName) value)) }

/-- The typed overloads `write(T)` of the archive. -/
def writeValue (D : DatabaseInterface σ) (a : DatabaseArchive σ) :
    Value → Except Fault (DatabaseArchive σ)
  | .int v => a.writeAttrib D (some (toString v))
  | .real rendered => a.writeAttrib D (some rendered)
  | .quoted rendered => a.writeAttrib D (some ("'" ++ rendered ++ "'"))
  | .bool b => a.writeAttrib D (some (if b then "'1'" else "'0'"))
  | .text str =>
    match a.db with
    | none => .error .nullPointer
    | some _ => a.writeAttrib D (some ("'" ++ toSQL D str ++ "'"))
  | .time t =>
    match a.db with
    | none => .error .nullPointer
    | some _ =>
      match a.writeAttrib D (some ("'" ++ D.timeToString t ++ "'")) with
      | .error e => .error e
      | .ok a1 =>
        if a1.hint.SPLIT_TIME then
          match writeAttrib D
              { a1 with currentAttributeName := a1.currentAttributeName ++ MICROSECONDS_POSTFIX }
              (some (toString (t.usecs : Int))) with
          | .error e => .error e
          | .ok a2 => .ok { a2 with currentAttributeName := a1.currentAttributeName }
        else .ok a1

/-! ### Reading attributes -/

/-- The column `readAttrib` looks up. -/
def readColumn (D : DatabaseInterface σ) (a : DatabaseArchive σ) : String :=
  if a.currentAttributePrefix = "" then D.convertColumnName a.currentAttributeName
  else D.convertColumnName
    (a.currentAttributePrefix ++ ATTRIBUTE_SEPERATOR ++ a.currentAttributeName)

/-- `readAttrib()` -/
def readAttrib (D : DatabaseInterface σ) (a : DatabaseArchive σ) :
    Except Fault (DatabaseArchive σ) :=
  match a.db with
  | none => .error .nullPointer
  | some s =>
    if D.findColumn s (a.readColumn D) ≠ -1 then
      .ok { a with
        fieldIndex := D.findColumn s (a.readColumn D),
        field := D.getRowField s (D.findColumn s (a.readColumn D)),
        fieldSize := D.getRowFieldSize s (D.findColumn s (a.readColumn D)) }
    else
      .ok { a with
        fieldIndex := D.findColumn s (a.readColumn D), field := none, fieldSize := 0 }

end DatabaseArchive

/-- `strcasecmp(str, word) == 0` -/
def strcaseEq (str word : String) : Bool :=
  decide (str.data.map Char.toLower = word.data.map Char.toLower)

/-- `strtobool(val, str)`: the converted value, or nothing when the string is
no boolean (`val` keeps its value then). -/
def strtobool (str : String) : Option Bool :=
  match fromStringInt str with
  | some v => some (decide (v ≠ 0))
  | none =>
    if strcaseEq str "t" || strcaseEq str "true" || strcaseEq str "y" || strcaseEq str "yes"
    then some true
    else if strcaseEq str "f" || strcaseEq str "false" || strcaseEq str "n"
        || strcaseEq str "no"
    then some false
    else none

namespace DatabaseArchive

variable {σ : Type}

/-! ### Statements -/

/-- The statement `insertRow` builds. -/
def insertRowSql (D : DatabaseInterface σ) (a : DatabaseArchive σ) (table : String)
    (attribs : AttributeMap) (parentId : String) : String :=
  "insert into " ++ table ++ "(" ++ AttributeMapper attribs ++ ") " ++
  (if parentId = "" then "values (" else "select ") ++ ValueMapper attribs ++
  (if parentId = "" then ")"
   else " from " ++ PublicObject_ClassName ++ " where " ++ PublicObject_ClassName ++
        "." ++ a.publicIDColumn ++ "='" ++ toSQL D parentId ++ "'")

/-- `insertRow(table, attribs, parentId)` -/
def insertRow (D : DatabaseInterface σ) (a : DatabaseArchive σ) (table : String)
    (attribs : AttributeMap) (parentId : String) : Except Fault (Bool × DatabaseArchive σ) :=
  a.dbExecute D (a.insertRowSql D table attribs parentId)

/-- The statement `deleteObject` builds. -/
def deleteObjectSql (id : OID) : String :=
  "delete from " ++ Object_ClassName ++ " where _oid=" ++ toString id

/-- `deleteObject(id)` -/
def deleteObject (D : DatabaseInterface σ) (a : DatabaseArchive σ) (id : OID) :
    Except Fault (Bool × DatabaseArchive σ) :=
  a.dbExecute D (deleteObjectSql id)

/-- The statement `insertObject` builds. -/
def insertObjectSql (D : DatabaseInterface σ) : String :=
  "insert into " ++ Object_ClassName ++ "(_oid) values(" ++ D.defaultValue ++ ")"

/-- `insertObject()` -/
def insertObject (D : DatabaseInterface σ) (a : DatabaseArchive σ) :
    Except Fault (OID × DatabaseArchive σ) :=
  match a.dbExecute D (insertObjectSql D) with
  | .error e => .error e
  | .ok (ok, a1) =>
    if !ok then .ok (0, a1)
    else
      match a1.dbLastInsertId D Object_ClassName with
      | .error e => .error e
      | .ok id => .ok (id, a1)

/-- The statement `insertPublicObject` builds for the `PublicObject` row. -/
def insertPublicObjectSql (D : DatabaseInterface σ) (a : DatabaseArchive σ)
    (objectId : OID) (publicId : String) : String :=
  "insert into " ++ PublicObject_ClassName ++ "(_oid," ++ a.publicIDColumn ++
  ") values(" ++ toString objectId ++ ",'" ++ toSQL D publicId ++ "')"

/-- `insertPublicObject(publicId)` -/
def insertPublicObject (D : DatabaseInterface σ) (a : DatabaseArchive σ)
    (publicId : String) : Except Fault (OID × DatabaseArchive σ) :=
  if publicId = "" then .ok (0, a)
  else
    match a.insertObject D with
    | .error e => .error e
    | .ok (objectId, a1) =>
      if objectId = 0 then .ok (0, a1)
      else
        match a1.dbExecute D (a1.insertPublicObjectSql D objectId publicId) with
        | .error e => .error e
        | .ok (ok, a2) =>
          if !ok then
            match a2.deleteObject D objectId with
            | .error e => .error e
            | .ok (_, a3) => .ok (0, a3)
          else .ok (objectId, a2)

/-- The query `publicObjectId` builds. -/
def publicObjectIdSql (D : DatabaseInterface σ) (a : DatabaseArchive σ)
    (publicId : String) : String :=
  "select _oid from " ++ PublicObject_ClassName ++ " where " ++ a.publicIDColumn ++
  "='" ++ toSQL D publicId ++ "'"

/-- `publicObjectId(publicId)` -/
def publicObjectId (D : DatabaseInterface σ) (a : DatabaseArchive σ)
    (publicId : String) : Except Fault (OID × DatabaseArchive σ) :=
  match a.dbBeginQuery D (a.publicObjectIdSql D publicId) with
  | .error e => .error e
  | .ok (began, a1) =>
    if !began then .ok (INVALID_OID, a1)
    else
      match a1.dbFetchRow D with
      | .error e => .error e
      | .ok (row, a2) =>
        if row then
          match a2.dbRowField D 0 with
          | .error e => .error e
          | .ok f =>
            match a2.dbEndQuery D with
            | .error e => .error e
            | .ok a3 => .ok ((fromStringOID f).getD INVALID_OID, a3)
        else
          match a2.dbEndQuery D with
          | .error e => .error e
          | .ok a3 => .ok (INVALID_OID, a3)

/-! ### Locating attributes -/

/-- `locateObjectByName(name, targetClass, nullable)` -/
def locateObjectByName (D : DatabaseInterface σ) (a : DatabaseArchive σ)
    (name targetClass : CStr) (nullable : Bool) : Except Fault (Bool × DatabaseArchive σ) :=
  if !a.isReading then
    if !isEmpty targetClass then
      match (if !isEmpty name then a.pushAttributePrefix name else .ok a) with
      | .error e => .error e
      | .ok a1 =>
        if a1.hint.DB_TABLE then
          .ok (true,
            { a1 with
              currentAttributeName := "",
              childTables := a1.childTables ++ [(targetClass.getD "", [])],
              currentChildTable := a1.childTables.length,
              objectAttributes := AttrTarget.child a1.childTables.length,
              childDepth := a1.childDepth + 1 })
        else if nullable then
          match writeValue D { a1 with currentAttributeName := OBJECT_USED_POSTFIX }
              (Value.bool true) with
          | .error e => .error e
          | .ok a2 => .ok (true, a2)
        else .ok (true, a1)
    else
      .ok (true,
        { a with currentAttributeName := if !isEmpty name then name.getD "" else "" })
  else if !isEmpty targetClass && a.hint.STATIC_TYPE then
    match (if !isEmpty name then
            (a.pushAttributePrefix name).map
              (fun a1 => { a1 with currentAttributeName := name.getD "" })
           else .ok a) with
    | .error e => .error e
    | .ok a1 =>
      if !a1.hint.DB_TABLE then
        if nullable then
          match readAttrib D { a1 with currentAttributeName := OBJECT_USED_POSTFIX } with
          | .error e => .error e
          | .ok a2 =>
            if (a2.field.bind strtobool).getD false then .ok (true, a2)
            else (popAttribPrefix a2).map (fun a3 => (false, a3))
        else .ok (true, a1)
      else
        match readAttrib D { a1 with currentAttributeName := CHILD_ID_POSTFIX } with
        | .error e => .error e
        | .ok a2 =>
          if a2.field.isNone then (popAttribPrefix a2).map (fun a3 => (false, a3))
          else .ok (true, a2)
  else
    match name with
    | none => .error .nullPointer
    | some n =>
      match readAttrib D { a with currentAttributeName := n } with
      | .error e => .error e
      | .ok a2 =>
        if a2.hint.DB_TABLE then
          if a2.field.isNone then (popAttribPrefix a2).map (fun a3 => (false, a3))
          else .ok (true, a2)
        else .ok (a2.field.isSome, a2)

/-- `locateNextObjectByName(name, targetClass)` -/
def locateNextObjectByName (_a : DatabaseArchive σ) (_name _targetClass : CStr) : Bool :=
  false

/-- `locateNullObjectByName(name, targetClass, first)` -/
def locateNullObjectByName (D : DatabaseInterface σ) (a : DatabaseArchive σ)
    (name targetClass : CStr) (_first : Bool) : Except Fault (DatabaseArchive σ) :=
  if !isEmpty name then
    if !isEmpty targetClass then
      if !a.hint.DB_TABLE then
        writeValue D
          { a with currentAttributeName :=
              name.getD "" ++ (ATTRIBUTE_SEPERATOR ++ "" ++ OBJECT_USED_POSTFIX) }
          (Value.bool false)
      else .ok a
    else writeAttrib D { a with currentAttributeName := name.getD "" } none
  else if isEmpty targetClass then writeAttrib D { a with currentAttributeName := "" } none
  else writeAttrib D { a with currentAttributeName := targetClass.getD "" } none

/-! ### Running an object's serialization -/

mutual
/-- One call of the object's `serialize` on the archive.  `serialize(RootType*)`
and `serialize(SerializeDispatcher&)` are the two overloads of the archive;
the nested script is what `BaseObject::Archive::serialize` runs. -/
def serializeOp (D : DatabaseInterface σ) : SerOp → DatabaseArchive σ →
    Except Fault (DatabaseArchive σ)
  | .setHint h, a => .ok { a with hint := h }
  | .setValidity v, a => .ok (a.setValidity v)
  | .locateObjectByName name targetClass nullable, a =>
    (locateObjectByName D a name targetClass nullable).map (fun r => r.2)
  | .locateNullObjectByName name targetClass first, a =>
    locateNullObjectByName D a name targetClass first
  | .write v, a => writeValue D a v
  | .serializeRoot object, a =>
    match serialize D object a with
    | .error e => .error e
    | .ok a1 => popAttribPrefix a1
  | .serializeDispatcher disp, a =>
    if a.hint.DB_TABLE then
      if !a.isReading then
        match serialize D disp { a with currentAttributePrefix := "" } with
        | .error e => .error e
        | .ok a1 =>
          match (if a1.childDepth - 1 = 0 then
                   Except.ok
                     { a1 with
                       currentAttributePrefix := a.currentAttributePrefix,
                       currentAttributeName := CHILD_ID_POSTFIX,
                       childDepth := a1.childDepth - 1,
                       objectAttributes := AttrTarget.root }
                 else if a1.currentChildTable = 0 then Except.error Fault.outOfRange
                 else
                   Except.ok
                     { a1 with
                       currentAttributePrefix := a.currentAttributePrefix,
                       currentAttributeName := CHILD_ID_POSTFIX,
                       childDepth := a1.childDepth - 1,
                       currentChildTable := a1.currentChildTable - 1,
                       objectAttributes := AttrTarget.child (a1.currentChildTable - 1) }) with
          | .error e => .error e
          | .ok a2 =>
            match a2.childTables.get? a2.currentChildTable with
            | none => .error .outOfRange
            | some t =>
              match insertRow D a2 t.1 t.2 "" with
              | .error e => .error e
              | .ok (ok, a3) =>
                if !ok then .ok a3
                else
                  match a3.dbLastInsertId D Object_ClassName with
                  | .error e => .error e
                  | .ok id =>
                    match writeAttrib D a3 (some (toString id)) with
                    | .error e => .error e
                    | .ok a4 => if a4.hint.STATIC_TYPE then popAttribPrefix a4 else .ok a4
      else if a.hint.STATIC_TYPE then popAttribPrefix a else .ok a
    else
      match serialize D disp a with
      | .error e => .error e
      | .ok a1 => if a1.hint.STATIC_TYPE then popAttribPrefix a1 else .ok a1
/-- `object->serialize(*this)`: the calls of the script, in their order. -/
def serialize (D : DatabaseInterface σ) : SerScript → DatabaseArchive σ →
    Except Fault (DatabaseArchive σ)
  | .done, a => .ok a
  | .seq op rest, a =>
    match serializeOp D op a with
    | .error e => .error e
    | .ok a1 => serialize D rest a1
end

/-! ### Writing and removing objects -/

/-- The first lines of `write` after the interface check: the object is
taken as valid, the root attribute map becomes the current and empty map, the
child tables and the prefix stack are reset. -/
def writeInit (a : DatabaseArchive σ) : DatabaseArchive σ :=
  resetAttributePrefix
    { a with
      validObject := true,
      objectAttributes := AttrTarget.root,
      rootAttributes := [],
      childTables := [],
      childDepth := 0,
      ignoreIndexAttributes := false }

/-- The parent oid `write` resolves for an object with a linked in-memory
parent: the cached oid of the parent or, when there is none, the oid looked up
by the parent's publicID, which is then cached. -/
def resolveLinkedParent (D : DatabaseInterface σ) (a : DatabaseArchive σ)
    (parentObject : PublicObjectRef) : Except Fault (OID × DatabaseArchive σ) :=
  if a.getCachedId parentObject.id = 0 then
    match a.publicObjectId D parentObject.publicID with
    | .error e => .error e
    | .ok (iParentId, a1) =>
      if iParentId ≠ 0 then .ok (iParentId, a1.registerId parentObject.id iParentId)
      else .ok (iParentId, a1)
  else .ok (a.getCachedId parentObject.id, a)

/-- The class-table insert of `write`: `_parent_oid` is set to the resolved
parent and the current attribute map is inserted into the table of the class. -/
def insertWithParent (D : DatabaseInterface σ) (a : DatabaseArchive σ)
    (className : String) (iParentId : OID) : Except Fault (Bool × DatabaseArchive σ) :=
  match currentAttributes
      { a with rootAttributes :=
          (AttributeMap.assign a.rootAttributes "_parent_oid" (some (toString iParentId))) } with
  | .error e => .error e
  | .ok attribs =>
    insertRow D
      { a with rootAttributes :=
          (AttributeMap.assign a.rootAttributes "_parent_oid" (some (toString iParentId))) }
      className attribs ""

/-- The three ways of `write` to insert the class-table row: with the oid of
the linked parent, with the oid looked up for `parentId`, or without parent. -/
def writeClassRow (D : DatabaseInterface σ) (a : DatabaseArchive σ) (object : Object)
    (parentId : String) : Except Fault (Bool × DatabaseArchive σ) :=
  match object.parent with
  | some parentObject =>
    match resolveLinkedParent D a parentObject with
    | .error e => .error e
    | .ok (iParentId, a1) =>
      if iParentId ≠ 0 then insertWithParent D a1 object.className iParentId
      else .ok (false, a1)
  | none =>
    if parentId ≠ "" then
      match a.publicObjectId D parentId with
      | .error e => .error e
      | .ok (iParentId, a1) =>
        if iParentId ≠ 0 then insertWithParent D a1 object.className iParentId
        else .ok (false, a1)
    else
      match currentAttributes a with
      | .error e => .error e
      | .ok attribs => insertRow D a object.className attribs ""

/-- The part of `write` that follows the insert of the `Object` (and
`PublicObject`) row with oid `objectId`: the object is serialized, `_oid` and
`_parent_oid` are set, the class-table row is inserted, and the oid is cached
on success or the `Object` row deleted on failure. -/
def writeObjectRow (D : DatabaseInterface σ) (a : DatabaseArchive σ) (object : Object)
    (parentId : String) (objectId : OID) : Except Fault (Bool × DatabaseArchive σ) :=
  match serialize D object.serialize { a with isReading := false } with
  | .error e => .error e
  | .ok a1 =>
    if !a1.validObject then
      match a1.deleteObject D objectId with
      | .error e => .error e
      | .ok (_, a2) => .ok (false, a2)
    else
      match writeClassRow D
          { a1 with rootAttributes :=
              (AttributeMap.assign a1.rootAttributes "_oid" (some (toString objectId))) }
          object parentId with
      | .error e => .error e
      | .ok (success, a2) =>
        if success then
          .ok (success,
            { a2.registerId object.id objectId with isReading := true, validObject := success })
        else
          match a2.deleteObject D objectId with
          | .error e => .error e
          | .ok (_, a3) => .ok (success, { a3 with isReading := true, validObject := success })

/-- The archive when `write(object, parentId)` has passed the interface check
and reset its state. -/
def writeEntered (a : DatabaseArchive σ) (object : Object) (parentId : String) :
    DatabaseArchive σ :=
  writeInit { a with log := a.log ++ [Event.archiveWrite object.id parentId] }

/-- `write(object, parentId)` for a non-null object.  The entry is recorded in
the call log. -/
def write (D : DatabaseInterface σ) (a : DatabaseArchive σ) (object : Object)
    (parentId : String) : Except Fault (Bool × DatabaseArchive σ) :=
  if !validInterface a then
    .ok (false,
      setValidity { a with log := a.log ++ [Event.archiveWrite object.id parentId] } false)
  else
    match object.publicID with
    | some publicID =>
      match publicObjectId D (a.writeEntered object parentId) publicID with
      | .error e => .error e
      | .ok (existing, a1) =>
        if existing > 0 then .ok (false, { a1 with isReading := true })
        else
          match a1.insertPublicObject D publicID with
          | .error e => .error e
          | .ok (objectId, a2) =>
            if objectId = 0 then .ok (false, { a2 with isReading := true })
            else writeObjectRow D a2 object parentId objectId
    | none =>
      match insertObject D (a.writeEntered object parentId) with
      | .error e => .error e
      | .ok (objectId, a1) =>
        if objectId = 0 then .ok (false, a1.setValidity false)
        else writeObjectRow D a1 object parentId objectId

/-- The first lines of `objectId` for a non-public object. -/
def objectIdInit (a : DatabaseArchive σ) : DatabaseArchive σ :=
  resetAttributePrefix
    { a with
      objectAttributes := AttrTarget.root,
      rootAttributes := [],
      indexAttributes := [],
      childTables := [],
      childDepth := 0,
      ignoreIndexAttributes := true }

/-- One condition of a `where` clause: `col=v`, or `col is null` for an
absent value. -/
def whereCondition (e : String × Option String) : String :=
  match e.2 with
  | some v => e.1 ++ "=" ++ v
  | none => e.1 ++ " is null"

/-- The query `objectId` builds from the index attributes. -/
def objectIdSql (className : String) (index : AttributeMap) : String :=
  "select _oid from " ++ className ++ " where " ++ joinWith " and " (index.map whereCondition)

/-- The part of `objectId` that follows the resolution of the parent oid. -/
def objectIdQuery (D : DatabaseInterface σ) (a : DatabaseArchive σ) (object : Object)
    (iParentID : OID) : Except Fault (OID × DatabaseArchive σ) :=
  match serialize D object.serialize { a with isReading := false, validObject := true } with
  | .error e => .error e
  | .ok a1 =>
    if !a1.validObject then .ok (INVALID_OID, a1)
    else
      match (if a1.indexAttributes = [] then currentAttributes a1
             else Except.ok a1.indexAttributes) with
      | .error e => .error e
      | .ok index =>
        match dbBeginQuery D
            { a1 with
              indexAttributes :=
                (AttributeMap.assign index "_parent_oid" (some (toString iParentID))),
              isReading := true }
            (objectIdSql object.className
              (AttributeMap.assign index "_parent_oid" (some (toString iParentID)))) with
        | .error e => .error e
        | .ok (began, a2) =>
          if !began then .ok (INVALID_OID, a2)
          else
            match a2.dbFetchRow D with
            | .error e => .error e
            | .ok (row, a3) =>
              if row then
                match a3.dbRowField D 0 with
                | .error e => .error e
                | .ok f =>
                  match a3.dbEndQuery D with
                  | .error e => .error e
                  | .ok a4 => .ok ((fromStringOID f).getD INVALID_OID, a4)
              else
                match a3.dbEndQuery D with
                | .error e => .error e
                | .ok a4 => .ok (INVALID_OID, a4)

/-- `objectId(object, parentID)` -/
def objectId (D : DatabaseInterface σ) (a : DatabaseArchive σ) (object : Object)
    (parentID : String) : Except Fault (OID × DatabaseArchive σ) :=
  match object.publicID with
  | some publicID => a.publicObjectId D publicID
  | none =>
    match object.parent with
    | some parentObject =>
      if (objectIdInit a).getCachedId parentObject.id = 0 then
        match publicObjectId D (objectIdInit a) parentObject.publicID with
        | .error e => .error e
        | .ok (iParentID, a1) =>
          if iParentID ≠ 0 then
            objectIdQuery D (a1.registerId parentObject.id iParentID) object iParentID
          else .ok (INVALID_OID, a1)
      else objectIdQuery D (objectIdInit a) object ((objectIdInit a).getCachedId parentObject.id)
    | none =>
      if parentID ≠ "" then
        match publicObjectId D (objectIdInit a) parentID with
        | .error e => .error e
        | .ok (iParentID, a1) =>
          if iParentID ≠ 0 then objectIdQuery D a1 object iParentID
          else .ok (INVALID_OID, a1)
      else .ok (INVALID_OID, objectIdInit a)

/-- The statement `remove` builds for the table `table`. -/
def deleteFromSql (table : String) (id : OID) : String :=
  "delete from " ++ table ++ " where _oid=" ++ toString id

/-- The deletes of `remove` for the resolved oid: class table, `PublicObject`
when the object is public, `Object`; the cache entry goes last. -/
def removeRows (D : DatabaseInterface σ) (a : DatabaseArchive σ) (object : Object)
    (objectID : OID) : Except Fault (Bool × DatabaseArchive σ) :=
  match a.dbExecute D (deleteFromSql object.className objectID) with
  | .error e => .error e
  | .ok (_, a1) =>
    match (if object.publicID.isSome then
             a1.dbExecute D (deleteFromSql PublicObject_ClassName objectID)
           else .ok (true, a1)) with
    | .error e => .error e
    | .ok (_, a2) =>
      match a2.deleteObject D objectID with
      | .error e => .error e
      | .ok (_, a3) => .ok (true, a3.removeId object.id)

/-- `remove(object, parentID)` for a non-null object.  The entry is recorded
in the call log. -/
def remove (D : DatabaseInterface σ) (a : DatabaseArchive σ) (object : Object)
    (parentID : String) : Except Fault (Bool × DatabaseArchive σ) :=
  if !validInterface a then
    .ok (false,
      setValidity { a with log := a.log ++ [Event.archiveRemove object.id parentID] } false)
  else if getCachedId a object.id = INVALID_OID then
    match objectId D { a with log := a.log ++ [Event.archiveRemove object.id parentID] }
        object parentID with
    | .error e => .error e
    | .ok (objectID, a1) =>
      if objectID = INVALID_OID then .ok (true, a1)
      else removeRows D a1 object objectID
  else
    removeRows D { a with log := a.log ++ [Event.archiveRemove object.id parentID] }
      object (getCachedId a object.id)

/-! ### Updating objects -/

/-- `close()` -/
def close (a : DatabaseArchive σ) : DatabaseArchive σ :=
  if a.db.isSome && a.allowDbClose then
    { a with db := none, log := a.log ++ [Event.disconnect] }
  else { a with db := none }

/-- The query `fetchVersion` sends. -/
def schemaVersionSql : String := "select value from Meta where name='Schema-Version'"

/-- The message `fetchVersion` leaves for a schema version `v` that is newer
than the supported one. -/
def notSupportedMsg (v : Version) : String :=
  "Database version v" ++ (toString v.majorTag ++ "." ++ toString v.minorTag) ++
  " not supported by client"

/-- `fetchVersion()`.  `Major` and `Minor` are the constants `Version::Major`
and `Version::Minor` of the data model the client is compiled for; they are
declared outside the sources at hand. -/
def fetchVersion (D : DatabaseInterface σ) (Major Minor : Nat) (a : DatabaseArchive σ) :
    Except Fault (Bool × DatabaseArchive σ) :=
  match a.db with
  | none => .ok (false, { a with version := ⟨0, 0, 0⟩ })
  | some _ =>
    match dbBeginQuery D { a with version := ⟨0, 0, 0⟩ } schemaVersionSql with
    | .error e => .error e
    | .ok (began, a1) =>
      if !began then (a1.dbEndQuery D).map (fun a2 => (true, a2))
      else
        match a1.dbFetchRow D with
        | .error e => .error e
        | .ok (row, a2) =>
          if !row then
            (dbEndQuery D
              { a2 with errorMsg :=
                  "Unable to read schema version from database (empty result set)" }).map
              (fun a3 => (false, a3))
          else
            match a2.dbRowField D 0 with
            | .error e => .error e
            | .ok f =>
              match Version.fromString f with
              | none =>
                (dbEndQuery D
                  { a2 with errorMsg := "Invalid schema version in database: " ++ f }).map
                  (fun a3 => (false, a3))
              | some v =>
                match a2.dbEndQuery D with
                | .error e => .error e
                | .ok a3 =>
                  if Version.gt ⟨v.majorTag, v.minorTag, 0⟩ ⟨Major, Minor, 0⟩ then
                    (dbEndQuery D
                      { a3 with
                        version := ⟨v.majorTag, v.minorTag, 0⟩,
                        errorMsg := notSupportedMsg ⟨v.majorTag, v.minorTag, 0⟩ }).map
                      (fun a4 => (false, a4))
                  else .ok (true, { a3 with version := ⟨v.majorTag, v.minorTag, 0⟩ })

/-- The end shared by `setDriver` and the constructor: the archive is closed
when the version could not be fetched, and the publicID column name is taken
from the driver when there still is one. -/
def afterFetchVersion (D : DatabaseInterface σ) (r : Bool × DatabaseArchive σ) :
    DatabaseArchive σ :=
  if (if r.1 then r.2 else close r.2).db.isSome then
    { (if r.1 then r.2 else close r.2) with publicIDColumn := D.convertColumnName "publicID" }
  else (if r.1 then r.2 else close r.2)

/-- `setDriver(db)` -/
def setDriver (D : DatabaseInterface σ) (Major Minor : Nat) (a : DatabaseArchive σ)
    (db : Option σ) : Except Fault (DatabaseArchive σ) :=
  (fetchVersion D Major Minor { a with objectIdCache := [], db := db, errorMsg := "" }).map
    (afterFetchVersion D)

/-- The archive as the member initialisers of the constructor leave it, before
its body fetches the version.  Members the constructor does not initialise
are empty; `log` is the call log so far. -/
def initial (i : Option σ) (log : List Event) : DatabaseArchive σ :=
  { db := i,
    allowDbClose := false,
    errorMsg := "",
    version := ⟨0, 0, 0⟩,
    publicIDColumn := "",
    objectIdCache := [],
    hint := ⟨true, false, false, false, false⟩,
    isReading := true,
    validObject := true,
    rootAttributes := [],
    indexAttributes := [],
    childTables := [],
    currentChildTable := 0,
    objectAttributes := AttrTarget.null,
    childDepth := 0,
    ignoreIndexAttributes := false,
    currentAttributePrefix := "",
    currentAttributeName := "",
    prefixPos := 0,
    prefixOffset := Mathlib.Vector.replicate 64 0,
    fieldIndex := -1,
    field := none,
    fieldSize := 0,
    log := log }

/-- `DatabaseArchive(i)`, the constructor. -/
def construct (D : DatabaseInterface σ) (Major Minor : Nat) (i : Option σ)
    (log : List Event) : Except Fault (DatabaseArchive σ) :=
  (fetchVersion D Major Minor (initial i log)).map (afterFetchVersion D)

/-- `open(dataSource)` -/
def «open» (D : DatabaseInterface σ) (Major Minor : Nat) (a : DatabaseArchive σ)
    (dataSource : String) : Except Fault (Bool × DatabaseArchive σ) :=
  match a.db with
  | none => .ok (false, { a with errorMsg := "" })
  | some s =>
    if D.isConnected s then .ok (false, { a with errorMsg := "" })
    else if (D.connect s dataSource).1 then
      match fetchVersion D Major Minor
          { a with
            errorMsg := "",
            db := some (D.connect s dataSource).2,
            log := a.log ++ [Event.connect dataSource true] } with
      | .error e => .error e
      | .ok (ok, a1) =>
        if !ok then .ok (false, close a1)
        else .ok (true, { a1 with allowDbClose := true })
    else
      (fetchVersion D Major Minor
        { a with
          errorMsg := "",
          db := some (D.connect s dataSource).2,
          log := a.log ++ [Event.connect dataSource false] }).map
        (fun r => (false, r.2))

/-- `hasError()` -/
def hasError (a : DatabaseArchive σ) : Bool := decide (a.errorMsg ≠ "")

end DatabaseArchive

/-! ## The bulk writer -/

/-- The traversal `object->accept(this)` as the visitor sees it.  The `accept`
methods of the domain classes are not part of the sources at hand; what a
visitor observes of any of them is a finite succession of `visit` calls in
which the node visited next may depend on what the earlier calls returned
(a visit returning false may cut the nodes under it).  `visit object
thenNext elseNext` visits `object` and goes on with `thenNext` when the visit
returned true and with `elseNext` when it returned false. -/
inductive Traversal where
  | done
  | visit (object : Object) (thenNext elseNext : Traversal)

/-- The member variables of `DatabaseObjectWriter`, the archive it refers to
included. -/
structure DatabaseObjectWriter (σ : Type) where
  archive : DatabaseArchive σ
  addObjects : Bool
  errors : Nat
  count : Nat
  batchSize : Int
  parentID : String
deriving DecidableEq

namespace DatabaseObjectWriter

variable {σ : Type}

/-- `DatabaseObjectWriter(archive, addToDatabase, batchSize)` -/
def construct (archive : DatabaseArchive σ) (addToDatabase : Bool) (batchSize : Int) :
    DatabaseObjectWriter σ :=
  { archive := archive, addObjects := addToDatabase, errors := 0, count := 0,
    batchSize := batchSize, parentID := "" }

/-- `write(object)` -/
def write (D : DatabaseInterface σ) (w : DatabaseObjectWriter σ) (object : Object) :
    Except Fault (Bool × DatabaseObjectWriter σ) :=
  match (if w.batchSize ≤ 1 then w.archive.dbStart D else .ok w.archive) with
  | .error e => .error e
  | .ok a1 =>
    match (if w.addObjects then a1.write D object w.parentID
           else a1.remove D object w.parentID) with
    | .error e => .error e
    | .ok (result, a2) =>
      if !result then
        match (if w.batchSize ≤ 1 then a2.dbRollback D else .ok a2) with
        | .error e => .error e
        | .ok a3 =>
          .ok (false, { w with archive := a3, count := w.count + 1, errors := w.errors + 1 })
      else
        match (if w.batchSize ≤ 1 then a2.dbCommit D
               else if ((w.count + 1 : Nat) : Int) % w.batchSize = 0 then
                 match a2.dbCommit D with
                 | .error e => .error e
                 | .ok a3 => a3.dbStart D
               else .ok a2) with
        | .error e => .error e
        | .ok a3 =>
          .ok (true, { w with archive := a3, count := w.count + 1, parentID := "" })

/-- `object->accept(this)`: the visits of the traversal, each of which calls
`write` (`visit(PublicObject*)` and `visit(Object*)` both do). -/
def accept (D : DatabaseInterface σ) : Traversal → DatabaseObjectWriter σ →
    Except Fault (DatabaseObjectWriter σ)
  | .done, w => .ok w
  | .visit object thenNext elseNext, w =>
    match write D w object with
    | .error e => .error e
    | .ok (result, w1) => if result then accept D thenNext w1 else accept D elseNext w1

/-- `operator()(object, parentID)`, where `traversal` is the traversal that
`object->accept` performs. -/
def call (D : DatabaseInterface σ) (w : DatabaseObjectWriter σ) (traversal : Traversal)
    (parentID : String) : Except Fault (Bool × DatabaseObjectWriter σ) :=
  if !w.archive.validInterface then .ok (false, w)
  else
    match (if w.batchSize > 1 then w.archive.dbStart D else .ok w.archive) with
    | .error e => .error e
    | .ok a1 =>
      match accept D traversal
          { w with archive := a1, parentID := parentID, errors := 0, count := 0 } with
      | .error e => .error e
      | .ok w1 =>
        match (if w1.batchSize > 1 then w1.archive.dbCommit D else .ok w1.archive) with
        | .error e => .error e
        | .ok a2 => .ok (decide (w1.errors = 0), { w1 with archive := a2 })

end DatabaseObjectWriter

/-! ## The iterator -/

/-- What the archive and its iterator use of the class a `RTTI` stands for.
`className()` and `isTypeOf(PublicObject::TypeInfo())` are the two members the
sources at hand call.  The class factory and the `serialize` method of the
created object are declared outside them and are taken as parameters:
`create s` is the address of the object that `ClassFactory::Create` followed
by `Object::Cast` yields while the driver is in state `s` (nothing when one of
the two fails), and `hydrate` is what `obj->serialize(*this)` of such an
object does to the archive. -/
structure RTTI (σ : Type) where
  className : String
  isPublicObject : Bool
  create : σ → Option Nat
  hydrate : DatabaseArchive σ → Except Fault (DatabaseArchive σ)

/-- An object the iterator has created and read: its address, its class and
the time `setLastModifiedInArchive` has been called with. -/
structure FetchedObject where
  id : Nat
  className : String
  lastModifiedInArchive : Option Time
deriving DecidableEq, Repr

/-- The value `-1` takes in the unsigned 64 bit type `OID` (`deleteObject`
prints an `OID` with `PRIu64`). -/
def OID_MINUS_ONE : OID := 2 ^ 64 - 1

namespace DatabaseArchive

variable {σ : Type}

/-- `serializeObject(obj)` for the non-null object at the address `obj` whose
`serialize` is `hydrate`. -/
def serializeObject (D : DatabaseInterface σ) (a : DatabaseArchive σ) (obj : Nat)
    (hydrate : DatabaseArchive σ → Except Fault (DatabaseArchive σ)) :
    Except Fault (DatabaseArchive σ) :=
  match hydrate { a.resetAttributePrefix with validObject := true } with
  | .error e => .error e
  | .ok a1 =>
    match a1.db with
    | none => .ok a1
    | some s =>
      if a1.isReading then
        if D.findColumn s "_oid" ≠ -1 then
          match D.getRowField s (D.findColumn s "_oid") with
          | none => .error .nullPointer
          | some f =>
            match fromStringOID f with
            | none => .error .uninitialised
            | some oid => .ok (a1.registerId obj oid)
        else .ok a1
      else .ok a1

/-- Modelled from the spec: `delete obj` for an object the iterator has
created.  The destructor of `Object` is not part of the sources at hand;
section 3 (Lifecycle) has a destroyed object evicted from the identity cache
through the observer hook `onObjectDestroyed`. -/
def destroyObject (a : DatabaseArchive σ) (obj : Nat) : DatabaseArchive σ :=
  a.onObjectDestroyed obj

end DatabaseArchive

/-- The member variables of `DatabaseIterator`.  `reader` tells whether
`_reader` is non-null; the archive it points to is handed to the member
functions next to the iterator. -/
structure DatabaseIterator (σ : Type) where
  rtti : Option (RTTI σ)
  reader : Bool
  count : Nat
  object : Option FetchedObject
  oid : OID
  parent_oid : OID
  cached : Bool
  lastModified : Option Time

namespace DatabaseIterator

variable {σ : Type}

/-- `DatabaseIterator()`, the iterator that refers to no archive. -/
def empty : DatabaseIterator σ :=
  { rtti := none, reader := false, count := 0, object := none, oid := INVALID_OID,
    parent_oid := INVALID_OID, cached := false, lastModified := none }

/-- The value `fetch` reads into `_oid` or `_parent_oid` from the column
`column` of the current row: `-1` when there is no such column or its text is
no number. -/
def fetchOid (D : DatabaseInterface σ) (s : σ) (column : String) : Except Fault OID :=
  if D.findColumn s column ≠ -1 then
    match D.getRowField s (D.findColumn s column) with
    | none => .error .nullPointer
    | some f => .ok ((fromStringOID f).getD OID_MINUS_ONE)
  else .ok OID_MINUS_ONE

/-- `fetch()`: the object read from the current row, or nothing.  The two
ways the creation of the object can fail (`ClassFactory::Create` or
`Object::Cast` yields null) are the one case in which `create` gives
nothing. -/
def fetch (D : DatabaseInterface σ) (it : DatabaseIterator σ) (a : DatabaseArchive σ) :
    Except Fault (Option FetchedObject × DatabaseIterator σ × DatabaseArchive σ) :=
  match it.rtti with
  | none => .ok (none, it, a)
  | some rtti =>
    if !it.reader then .ok (none, it, a)
    else
      match a.db with
      | none => .error .nullPointer
      | some s =>
        match fetchOid D s "_oid" with
        | .error e => .error e
        | .ok oid =>
          match fetchOid D s "_parent_oid" with
          | .error e => .error e
          | .ok parent_oid =>
            match rtti.create s with
            | none =>
              match a.dbEndQuery D with
              | .error e => .error e
              | .ok a1 =>
                .ok (none,
                  { it with
                    cached := false, oid := oid, parent_oid := parent_oid,
                    lastModified :=
                      if D.findColumn s "_last_modified" ≠ -1 then
                        some (D.stringToTime
                          (D.getRowField s (D.findColumn s "_last_modified")))
                      else none },
                  a1)
            | some obj =>
              match a.serializeObject D obj rtti.hydrate with
              | .error e => .error e
              | .ok a1 =>
                if !a1.success then
                  .ok (none,
                    { it with
                      cached := false, oid := oid, parent_oid := parent_oid,
                      lastModified :=
                        if D.findColumn s "_last_modified" ≠ -1 then
                          some (D.stringToTime
                            (D.getRowField s (D.findColumn s "_last_modified")))
                        else none },
                    a1.destroyObject obj)
                else
                  .ok (some
                      { id := obj, className := rtti.className,
                        lastModifiedInArchive :=
                          if D.findColumn s "_last_modified" ≠ -1 then
                            some (D.stringToTime
                              (D.getRowField s (D.findColumn s "_last_modified")))
                          else none },
                    { it with
                      cached := false, oid := oid, parent_oid := parent_oid,
                      lastModified :=
                        if D.findColumn s "_last_modified" ≠ -1 then
                          some (D.stringToTime
                            (D.getRowField s (D.findColumn s "_last_modified")))
                        else none },
                    a1)

/-- `valid()` -/
def valid (it : DatabaseIterator σ) : Bool := it.reader

/-- `get()` and `operator*()` -/
def get (it : DatabaseIterator σ) : Option FetchedObject := it.object

/-- `close()` -/
def close (D : DatabaseInterface σ) (it : DatabaseIterator σ) (a : DatabaseArchive σ) :
    Except Fault (DatabaseIterator σ × DatabaseArchive σ) :=
  if it.reader then
    match a.dbEndQuery D with
    | .error e => .error e
    | .ok a1 => .ok ({ it with reader := false, rtti := none, object := none }, a1)
  else .ok ({ it with object := none }, a)

/-- `operator++()`.  The loop runs once for every row it fetches; `fuel`
bounds the number of its rounds, and nothing is returned when the bound is
reached. -/
def operatorInc (D : DatabaseInterface σ) :
    Nat → DatabaseIterator σ → DatabaseArchive σ →
      Option (Except Fault (DatabaseIterator σ × DatabaseArchive σ))
  | 0, _, _ => none
  | fuel + 1, it, a =>
    if !it.reader then some (.error .nullPointer)
    else
      match a.dbFetchRow D with
      | .error e => some (.error e)
      | .ok (row, a1) =>
        if row then
          match fetch D it a1 with
          | .error e => some (.error e)
          | .ok (none, it1, a2) => operatorInc D fuel { it1 with object := none } a2
          | .ok (some obj, it1, a2) =>
            some (.ok ({ it1 with object := some obj, count := it1.count + 1 }, a2))
        else some (close D it a1)

/-- `next()` -/
def next (D : DatabaseInterface σ) (fuel : Nat) (it : DatabaseIterator σ)
    (a : DatabaseArchive σ) :
    Option (Except Fault (Bool × DatabaseIterator σ × DatabaseArchive σ)) :=
  match operatorInc D fuel it a with
  | none => none
  | some (.error e) => some (.error e)
  | some (.ok (it1, a1)) => some (.ok (it1.valid, it1, a1))

/-- `DatabaseIterator(database, rtti)`, the constructor; `database` tells
whether the archive pointer is non-null. -/
def construct (D : DatabaseInterface σ) (fuel : Nat) (a : DatabaseArchive σ)
    (database : Bool) (rtti : Option (RTTI σ)) :
    Option (Except Fault (DatabaseIterator σ × DatabaseArchive σ)) :=
  match fetch D
      { rtti := rtti, reader := database, count := 0, object := none, oid := INVALID_OID,
        parent_oid := INVALID_OID, cached := false, lastModified := none } a with
  | .error e => some (.error e)
  | .ok (none, it1, a1) =>
    if it1.reader then operatorInc D fuel { it1 with object := none } a1
    else some (.ok ({ it1 with object := none }, a1))
  | .ok (some obj, it1, a1) => some (.ok ({ it1 with object := some obj }, a1))

end DatabaseIterator

namespace DatabaseArchive

variable {σ : Type}

/-- `getObjectIterator(query, classType)` -/
def getObjectIteratorQuery (D : DatabaseInterface σ) (fuel : Nat) (a : DatabaseArchive σ)
    (query : String) (classType : RTTI σ) :
    Option (Except Fault (DatabaseIterator σ × DatabaseArchive σ)) :=
  match a.dbBeginQuery D query with
  | .error e => some (.error e)
  | .ok (began, a1) =>
    if !began then some (.ok (DatabaseIterator.empty, a1))
    else
      match a1.dbFetchRow D with
      | .error e => some (.error e)
      | .ok (row, a2) =>
        if !row then
          match a2.dbEndQuery D with
          | .error e => some (.error e)
          | .ok a3 => some (.ok (DatabaseIterator.empty, a3))
        else DatabaseIterator.construct D fuel a2 true (some classType)

/-- The query `getObjectIterator(parentID, classType, ignorePublicObject)`
builds. -/
def getObjectIteratorSql (a : DatabaseArchive σ) (parentID : OID) (classType : RTTI σ)
    (ignorePublicObject : Bool) : String :=
  (if ignorePublicObject || !classType.isPublicObject then
     "select * from " ++ classType.className
   else
     "select " ++ PublicObject_ClassName ++ "." ++ a.publicIDColumn ++ "," ++
       classType.className ++ ".* from " ++ PublicObject_ClassName ++ "," ++
       classType.className ++ " where " ++ PublicObject_ClassName ++ "._oid=" ++
       classType.className ++ "._oid") ++
  (if parentID > 0 then
     (if classType.isPublicObject && !ignorePublicObject then " and " else " where ") ++
       classType.className ++ ("._parent_oid='" ++ toString parentID ++ "'")
   else "")

/-- `getObjectIterator(parentID, classType, ignorePublicObject)` -/
def getObjectIterator (D : DatabaseInterface σ) (fuel : Nat) (a : DatabaseArchive σ)
    (parentID : OID) (classType : RTTI σ) (ignorePublicObject : Bool) :
    Option (Except Fault (DatabaseIterator σ × DatabaseArchive σ)) :=
  if !validInterface a then some (.ok (DatabaseIterator.empty, a))
  else
    getObjectIteratorQuery D fuel a
      (a.getObjectIteratorSql parentID classType ignorePublicObject) classType

/-- `getObjects(parentID, classType, ignorePublicObject)` for the publicID
`parentID` of the parent. -/
def getObjects (D : DatabaseInterface σ) (fuel : Nat) (a : DatabaseArchive σ)
    (parentID : String) (classType : RTTI σ) (ignorePublicObject : Bool) :
    Option (Except Fault (DatabaseIterator σ × DatabaseArchive σ)) :=
  if !validInterface a then some (.ok (DatabaseIterator.empty, a))
  else if parentID ≠ "" then
    match a.publicObjectId D parentID with
    | .error e => some (.error e)
    | .ok (parentID_, a1) =>
      if parentID_ = 0 then some (.ok (DatabaseIterator.empty, a1))
      else getObjectIterator D fuel a1 parentID_ classType ignorePublicObject
  else getObjectIterator D fuel a 0 classType ignorePublicObject

/-- `getObjects(parent, classType, ignorePublicObject)` for the in-memory
parent object `parent`, which may be null. -/
def getObjectsOf (D : DatabaseInterface σ) (fuel : Nat) (a : DatabaseArchive σ)
    (parent : Option PublicObjectRef) (classType : RTTI σ) (ignorePublicObject : Bool) :
    Option (Except Fault (DatabaseIterator σ × DatabaseArchive σ)) :=
  if !validInterface a then some (.ok (DatabaseIterator.empty, a))
  else
    match parent with
    | none => getObjectIterator D fuel a INVALID_OID classType ignorePublicObject
    | some p =>
      if a.getCachedId p.id = 0 then
        match a.publicObjectId D p.publicID with
        | .error e => some (.error e)
        | .ok (parentID, a1) =>
          if parentID = 0 then some (.ok (DatabaseIterator.empty, a1))
          else
            getObjectIterator D fuel (a1.registerId p.id parentID) parentID classType
              ignorePublicObject
      else getObjectIterator D fuel a (a.getCachedId p.id) classType ignorePublicObject

end DatabaseArchive

/-! ## Single objects and counts -/

/-- The number `strtol` reads in base 10, before it is held to a range: white
space is skipped, a sign is read, and the decimal digits that follow give the
value; 0 when there is none. -/
def readLong (s : String) : Int :=
  match s.data.dropWhile (fun c => c.toNat = 32 || (9 ≤ c.toNat && c.toNat ≤ 13)) with
  | [] => 0
  | c :: rest =>
    if c.toNat = 45 then
      -(((rest.takeWhile (fun d => (digitValue d).isSome)).foldl
        (fun acc d => acc * 10 + (digitValue d).getD 0) 0 : Nat) : Int)
    else if c.toNat = 43 then
      (((rest.takeWhile (fun d => (digitValue d).isSome)).foldl
        (fun acc d => acc * 10 + (digitValue d).getD 0) 0 : Nat) : Int)
    else
      ((((c :: rest).takeWhile (fun d => (digitValue d).isSome)).foldl
        (fun acc d => acc * 10 + (digitValue d).getD 0) 0 : Nat) : Int)

/-- `atoi` of the C library, which is `(int) strtol(str, nullptr, 10)`: the
number read is held to the range of the 64 bit `long` and cut to the 32 bits
of `int`. -/
def atoi (s : String) : Int :=
  ((max (-(2 ^ 63)) (min (readLong s) (2 ^ 63 - 1)) + 2 ^ 31) % 2 ^ 32) - 2 ^ 31

namespace DatabaseArchive

variable {σ : Type}

/-- `queryObject(classType, query)`: the object read from the first row of
the query, or nothing. -/
def queryObject (D : DatabaseInterface σ) (a : DatabaseArchive σ) (classType : RTTI σ)
    (query : String) : Except Fault (Option FetchedObject × DatabaseArchive σ) :=
  if !a.validInterface then .ok (none, a)
  else
    match a.dbBeginQuery D query with
    | .error e => .error e
    | .ok (began, a1) =>
      if !began then .ok (none, a1)
      else
        match a1.dbFetchRow D with
        | .error e => .error e
        | .ok (row, a2) =>
          if !row then (a2.dbEndQuery D).map (fun a3 => (none, a3))
          else
            match a2.db with
            | none => .error .nullPointer
            | some s =>
              match classType.create s with
              | none => (a2.dbEndQuery D).map (fun a3 => (none, a3))
              | some obj =>
                match a2.serializeObject D obj classType.hydrate with
                | .error e => .error e
                | .ok a3 =>
                  match a3.dbEndQuery D with
                  | .error e => .error e
                  | .ok a4 =>
                    if !a4.success then .ok (none, a4.destroyObject obj)
                    else
                      .ok (some { id := obj, className := classType.className,
                                  lastModifiedInArchive := none }, a4)

/-- The query `getObject(classType, publicID)` builds. -/
def getObjectSql (a : DatabaseArchive σ) (className publicID : String) : String :=
  "select " ++ PublicObject_ClassName ++ "." ++ a.publicIDColumn ++ "," ++
  className ++ ".*" ++
  " from " ++ PublicObject_ClassName ++ "," ++ className ++
  " where " ++ PublicObject_ClassName ++ "._oid=" ++
  className ++ "._oid" ++
  " and " ++ PublicObject_ClassName ++ "." ++ a.publicIDColumn ++ "='" ++ publicID ++ "'"

/-- `getObject(classType, publicID)`.  The object `queryObject` returns is of
the class `classType`, so that its `PublicObject::Cast` gives the object. -/
def getObject (D : DatabaseInterface σ) (a : DatabaseArchive σ) (classType : RTTI σ)
    (publicID : String) : Except Fault (Option FetchedObject × DatabaseArchive σ) :=
  if !classType.isPublicObject then .ok (none, a)
  else a.queryObject D classType (a.getObjectSql classType.className publicID)

/-- The query of the two `getObjectCount` overloads; `parentID` is the
publicID they restrict the count to, when they do. -/
def getObjectCountSql (a : DatabaseArchive σ) (className : String)
    (parentID : Option String) : String :=
  "select count(*) from " ++ className ++
  (match parentID with
   | some p =>
     ",PublicObject where PublicObject._oid=" ++ className ++ "._parent_oid " ++
     "and PublicObject." ++ a.publicIDColumn ++ "='" ++ p ++ "'"
   | none => "")

/-- What the two `getObjectCount` overloads do with their query; the `int` of
`atoi` is converted to the 64 bit `size_t`. -/
def countQuery (D : DatabaseInterface σ) (a : DatabaseArchive σ) (sql : String) :
    Except Fault (Nat × DatabaseArchive σ) :=
  match a.dbBeginQuery D sql with
  | .error e => .error e
  | .ok (began, a1) =>
    if !began then .ok (0, a1)
    else
      match a1.dbFetchRow D with
      | .error e => .error e
      | .ok (row, a2) =>
        if row then
          match a2.dbRowField D 0 with
          | .error e => .error e
          | .ok f => (a2.dbEndQuery D).map (fun a3 => (((atoi f) % 2 ^ 64).toNat, a3))
        else (a2.dbEndQuery D).map (fun a3 => (0, a3))

/-- `getObjectCount(parentID, classType)` with the publicID of the parent. -/
def getObjectCount (D : DatabaseInterface σ) (a : DatabaseArchive σ) (parentID : String)
    (classType : RTTI σ) : Except Fault (Nat × DatabaseArchive σ) :=
  if !a.validInterface then .ok (0, a)
  else
    a.countQuery D
      (a.getObjectCountSql classType.className (if parentID ≠ "" then some parentID else none))

/-- `getObjectCount(parent, classType)` with the parent object, which may be
null. -/
def getObjectCountOf (D : DatabaseInterface σ) (a : DatabaseArchive σ)
    (parent : Option PublicObjectRef) (classType : RTTI σ) :
    Except Fault (Nat × DatabaseArchive σ) :=
  if !a.validInterface then .ok (0, a)
  else
    a.countQuery D
      (a.getObjectCountSql classType.className (parent.map (fun p => p.publicID)))

/-- The query `parentPublicID(object)` builds. -/
def parentPublicIDSql (D : DatabaseInterface σ) (a : DatabaseArchive σ)
    (className publicID : String) : String :=
  "select Parent." ++ a.publicIDColumn ++
  " from PublicObject as Parent, PublicObject as Child, " ++
  className ++
  " where Child._oid=" ++
  className ++ "._oid and Parent._oid=" ++
  className ++ "._parent_oid and Child." ++ a.publicIDColumn ++ "='" ++
  toSQL D publicID ++ "'"

/-- `parentPublicID(object)` for the non-null object with the given
`className()` and `publicID()`. -/
def parentPublicID (D : DatabaseInterface σ) (a : DatabaseArchive σ)
    (className publicID : String) : Except Fault (String × DatabaseArchive σ) :=
  match a.dbBeginQuery D (a.parentPublicIDSql D className publicID) with
  | .error e => .error e
  | .ok (began, a1) =>
    if !began then .ok ("", a1)
    else
      match a1.dbFetchRow D with
      | .error e => .error e
      | .ok (row, a2) =>
        if row then
          match a2.dbRowField D 0 with
          | .error e => .error e
          | .ok f => (a2.dbEndQuery D).map (fun a3 => (f, a3))
        else (a2.dbEndQuery D).map (fun a3 => ("", a3))

end DatabaseArchive

/-! ## Notions the properties are stated with -/

/-- A statement sent with `execute`. -/
def Event.isExecute : Event → Bool
  | .execute _ _ => true
  | _ => false

/-- A call of the cursor protocol. -/
def Event.isQuery : Event → Bool
  | .beginQuery _ _ => true
  | .fetchRow _ => true
  | .endQuery => true
  | _ => false

/-- A transaction call: `start`, `commit` or `rollback`. -/
def Event.isTransaction : Event → Bool
  | .start => true
  | .commit => true
  | .rollback => true
  | _ => false

/-- An entry of the archive into `write` or `remove`. -/
def Event.isArchiveCall : Event → Bool
  | .archiveWrite _ _ => true
  | .archiveRemove _ _ => true
  | _ => false

/-- What the bulk writer does on a log: the transaction calls and the calls of
the archive's `write` and `remove`, in their order. -/
def bulkTrace (log : List Event) : List Event :=
  log.filter (fun e => e.isTransaction || e.isArchiveCall)

/-- The transaction calls of a log, in their order. -/
def txTrace (log : List Event) : List Event :=
  log.filter Event.isTransaction

/-- The objects for which the archive's `write` was entered, in their order. -/
def writtenObjects (log : List Event) : List Nat :=
  log.filterMap (fun e => match e with
    | .archiveWrite o _ => some o
    | _ => none)

/-- The cursor protocol of an oid lookup on the driver state `s`
(`beginQuery`, `fetchRow`, field 0, `endQuery`): the oid found (or
`INVALID_OID`), the driver state afterwards, and the calls made. -/
def selectOid {σ : Type} (D : DatabaseInterface σ) (s : σ) (sql : String) :
    Except Fault (OID × σ × List Event) :=
  if !(D.beginQuery s sql).1 then
    .ok (INVALID_OID, (D.beginQuery s sql).2, [Event.beginQuery sql false])
  else if (D.fetchRow (D.beginQuery s sql).2).1 then
    match D.getRowField (D.fetchRow (D.beginQuery s sql).2).2 0 with
    | none => .error .nullPointer
    | some f =>
      .ok ((fromStringOID f).getD INVALID_OID,
        D.endQuery (D.fetchRow (D.beginQuery s sql).2).2,
        [Event.beginQuery sql true, Event.fetchRow true, Event.endQuery])
  else
    .ok (INVALID_OID, D.endQuery (D.fetchRow (D.beginQuery s sql).2).2,
      [Event.beginQuery sql true, Event.fetchRow false, Event.endQuery])

namespace DatabaseArchive

variable {σ : Type}

/-- The inserts `write` makes for the object itself before it serializes it:
the `Object` row and, for a public object whose publicID is not stored yet,
the `PublicObject` row.  The result is the oid obtained for the object, 0
when there is none. -/
def writeInserts (D : DatabaseInterface σ) (a : DatabaseArchive σ) (object : Object)
    (parentId : String) : Except Fault (OID × DatabaseArchive σ) :=
  match object.publicID with
  | some publicID =>
    match publicObjectId D (a.writeEntered object parentId) publicID with
    | .error e => .error e
    | .ok (existing, a1) =>
      if existing > 0 then .ok (0, a1) else a1.insertPublicObject D publicID
  | none => insertObject D (a.writeEntered object parentId)

/-- Between `a` and `b` the identity cache is the same and the log has
gained neither a transaction call nor an entry of `write` or `remove`. -/
def Quiet (a b : DatabaseArchive σ) : Prop :=
  b.objectIdCache = a.objectIdCache ∧ bulkTrace b.log = bulkTrace a.log

/-- An archive `a` that has a driver still has one as `b`. -/
def KeepsDriver (a b : DatabaseArchive σ) : Prop :=
  a.db.isSome = true → b.db.isSome = true

/-- The archive in which `write(object, parentId)` sends the insert of the
`Object` row: as it is on entry for an object without publicID, after the
lookup of the publicID for a public object. -/
def objectInsertState (D : DatabaseInterface σ) (a : DatabaseArchive σ) (object : Object)
    (parentId : String) : Except Fault (DatabaseArchive σ) :=
  match object.publicID with
  | some publicID =>
    (publicObjectId D (a.writeEntered object parentId) publicID).map (fun r => r.2)
  | none => .ok (a.writeEntered object parentId)

/-- Pushes the names of a list onto the prefix stack, first name first. -/
def pushAll (a : DatabaseArchive σ) : List String → Except Fault (DatabaseArchive σ)
  | [] => .ok a
  | n :: rest =>
    match a.pushAttributePrefix (some n) with
    | .error e => .error e
    | .ok a1 => pushAll a1 rest

/-- An archive `a` that tells index attributes apart still does so as `b`. -/
def KeepsIndexMode (a b : DatabaseArchive σ) : Prop :=
  a.ignoreIndexAttributes = true → b.ignoreIndexAttributes = true

/-- The map a `writeAttrib` stores into: the index map for an attribute
tagged `INDEX_ATTRIBUTE` while index attributes are told apart, the current
attribute map otherwise. -/
def storeTarget (a : DatabaseArchive σ) : Except Fault AttributeMap :=
  if a.hint.INDEX_ATTRIBUTE && a.ignoreIndexAttributes then .ok a.indexAttributes
  else a.currentAttributes

/-- The oid `remove(object, parentID)` resolves once it has passed the
interface check: the cached one or, when the cache has none, the one
`objectId` looks up.  The entry of `remove` is recorded in the call log. -/
def removeResolve (D : DatabaseInterface σ) (a : DatabaseArchive σ) (object : Object)
    (parentID : String) : Except Fault (OID × DatabaseArchive σ) :=
  if getCachedId a object.id = INVALID_OID then
    objectId D { a with log := a.log ++ [Event.archiveRemove object.id parentID] }
      object parentID
  else
    .ok (getCachedId a object.id,
      { a with log := a.log ++ [Event.archiveRemove object.id parentID] })

/-- The member variables as `pushAttributePrefix(name)` leaves them when it
ends, by return or by the throw: the overflow check is the first statement, so
nothing has been assigned when the exception is thrown. -/
def pushAttributePrefixState (a : DatabaseArchive σ) (name : CStr) : DatabaseArchive σ :=
  if h : 64 ≤ a.prefixPos then a
  else
    match name with
    | none =>
      { a with
        prefixOffset :=
          a.prefixOffset.set ⟨a.prefixPos, by omega⟩ a.currentAttributePrefix.length,
        prefixPos := a.prefixPos + 1 }
    | some n =>
      { a with
        prefixOffset :=
          a.prefixOffset.set ⟨a.prefixPos, by omega⟩ a.currentAttributePrefix.length,
        prefixPos := a.prefixPos + 1,
        currentAttributePrefix :=
          if a.currentAttributePrefix = "" then n
          else a.currentAttributePrefix ++ ATTRIBUTE_SEPERATOR ++ n }

end DatabaseArchive

namespace DatabaseIterator

variable {σ : Type}

/-- The states the driver is in on the rows its next `fetchRow` calls deliver,
for at most `n` rows. -/
def pendingRows (D : DatabaseInterface σ) : Nat → σ → List σ
  | 0, _ => []
  | n + 1, s =>
    if (D.fetchRow s).1 then (D.fetchRow s).2 :: pendingRows D n (D.fetchRow s).2 else []

/-- The state the `fetchRow` call that finds no further row leaves the driver
in, when at most `n` rows are pending. -/
def rowsEnd (D : DatabaseInterface σ) : Nat → σ → Option σ
  | 0, s => if (D.fetchRow s).1 then none else some (D.fetchRow s).2
  | n + 1, s =>
    if (D.fetchRow s).1 then rowsEnd D n (D.fetchRow s).2 else some (D.fetchRow s).2

/-- The row the driver is on can be read by `fetch` and `serializeObject`:
where the columns exist, `_oid` holds a number and `_parent_oid` is not
null. -/
def cleanRow (D : DatabaseInterface σ) (r : σ) : Bool :=
  (decide (D.findColumn r "_oid" = -1) ||
    ((D.getRowField r (D.findColumn r "_oid")).bind fromStringOID).isSome) &&
  (decide (D.findColumn r "_parent_oid" = -1) ||
    (D.getRowField r (D.findColumn r "_parent_oid")).isSome)

/-- The `serialize` of the objects of a class reads the current row without
moving the cursor or calling the driver, and `good` tells for which rows it
leaves the archive valid. -/
def Hydrates (rtti : RTTI σ) (good : σ → Bool) : Prop :=
  ∀ (b : DatabaseArchive σ) (r : σ), b.db = some r → b.validObject = true →
    ∃ b' : DatabaseArchive σ,
      rtti.hydrate b = .ok b' ∧ b'.db = some r ∧ b'.log = b.log ∧ b'.validObject = good r

/-- Advances the iterator with `next()` until that returns false, at most `n`
times: the objects the successful calls have positioned it on, and the
iterator and the archive at the end.  Nothing when `n` calls do not get to the
end. -/
def drain (D : DatabaseInterface σ) (fuel : Nat) :
    Nat → DatabaseIterator σ → DatabaseArchive σ →
      Option (Except Fault (List FetchedObject × DatabaseIterator σ × DatabaseArchive σ))
  | 0, _, _ => none
  | n + 1, it, a =>
    match next D fuel it a with
    | none => none
    | some (.error e) => some (.error e)
    | some (.ok (false, it1, a1)) => some (.ok ([], it1, a1))
    | some (.ok (true, it1, a1)) =>
      match drain D fuel n it1 a1 with
      | none => none
      | some (.error e) => some (.error e)
      | some (.ok (objs, it2, a2)) => some (.ok (it1.object.toList ++ objs, it2, a2))

end DatabaseIterator

namespace DatabaseArchive

variable {σ : Type}

/-- An iteration over the children of `parentID`: the iterator is obtained
from `getObjects` and advanced with `next()` until that returns false.  The
addresses of the objects it has yielded, the first one it is positioned on at
creation included, and `count()` at the end. -/
def iterate (D : DatabaseInterface σ) (fuel n : Nat) (a : DatabaseArchive σ)
    (parentID : String) (classType : RTTI σ) : Option (Except Fault (List Nat × Nat)) :=
  match a.getObjects D fuel parentID classType false with
  | none => none
  | some (.error e) => some (.error e)
  | some (.ok (it, a1)) =>
    match DatabaseIterator.drain D fuel n it a1 with
    | none => none
    | some (.error e) => some (.error e)
    | some (.ok (objs, it1, _)) =>
      some (.ok ((it.object.toList ++ objs).map (fun o => o.id), it1.count))

end DatabaseArchive

/-- The nodes a traversal delivers when every visit returns true. -/
def Traversal.delivered : Traversal → List Object
  | .done => []
  | .visit object thenNext _ => object :: thenNext.delivered

namespace DatabaseObjectWriter

variable {σ : Type}

/-- The entry of the archive call the writer makes for an object. -/
def archiveCall (w : DatabaseObjectWriter σ) (object : Object) : Event :=
  if w.addObjects then Event.archiveWrite object.id w.parentID
  else Event.archiveRemove object.id w.parentID

/-- The bracket of one node for a batch size of at most 1, as section 4.2
words it ("each row is its own transaction"): `start`, the archive call, and
`commit` when the call returned true or `rollback` when it returned false. -/
def nodeBracket (w : DatabaseObjectWriter σ) (object : Object) (result : Bool) :
    List Event :=
  [Event.start, w.archiveCall object, if result then Event.commit else Event.rollback]

/-- The brackets of all nodes of a traversal, where the result of each archive
call is the one the writer gets. -/
def brackets (D : DatabaseInterface σ) : Traversal → DatabaseObjectWriter σ → List Event
  | .done, _ => []
  | .visit object thenNext elseNext, w =>
    match write D w object with
    | .error _ => []
    | .ok (result, w1) =>
      nodeBracket w object result ++
        (if result then brackets D thenNext w1 else brackets D elseNext w1)

end DatabaseObjectWriter

/-- `k` pairs of `start` and `commit`, one after the other. -/
def startCommitPairs : Nat → List Event
  | 0 => []
  | k + 1 => Event.start :: Event.commit :: startCommitPairs k

/-- `j` intermediate commits, each followed by the `start` of the next batch. -/
def commitStarts : Nat → List Event
  | 0 => []
  | j + 1 => Event.commit :: Event.start :: commitStarts j

/-- The states an archive gets into by its constructor followed by calls of
`setDriver`, `open` and `close` that return. -/
inductive Reachable {σ : Type} (D : DatabaseInterface σ) (Major Minor : Nat) :
    DatabaseArchive σ → Prop
  | byConstruct (i : Option σ) (log : List Event) (a : DatabaseArchive σ) :
      DatabaseArchive.construct D Major Minor i log = .ok a → Reachable D Major Minor a
  | bySetDriver (a : DatabaseArchive σ) (db : Option σ) (b : DatabaseArchive σ) :
      Reachable D Major Minor a → a.setDriver D Major Minor db = .ok b →
      Reachable D Major Minor b
  | byOpen (a : DatabaseArchive σ) (dataSource : String) (r : Bool) (b : DatabaseArchive σ) :
      Reachable D Major Minor a → a.open D Major Minor dataSource = .ok (r, b) →
      Reachable D Major Minor b
  | byClose (a : DatabaseArchive σ) :
      Reachable D Major Minor a → Reachable D Major Minor a.close

/-! ## A small driver to run the archive on -/

/-- State of the test driver: a connection flag, canned query results, the
statements the database rejects, the rows of the open cursor, the current
row with its column names, and the last id the database handed out. -/
structure TestDb where
  connected : Bool
  results : List (String × List (List (Option String)))
  rejected : List String
  cursor : List (List (Option String))
  current : List (Option String)
  columns : List String
  lastId : Nat
deriving DecidableEq, Repr

/-- Position of a column name in a list of column names, or -1. -/
def columnIndex : List String → String → Int
  | [], _ => -1
  | c :: cs, n => if c = n then 0 else if columnIndex cs n = -1 then -1 else columnIndex cs n + 1

/-- The test driver: a query returns the rows canned for its text and fails
when there are none; a statement succeeds unless it is listed as rejected, and
a successful statement makes the database hand out the next id. -/
def testDriver : DatabaseInterface TestDb where
  isConnected := fun s => s.connected
  connect := fun s _ => (true, { s with connected := true })
  disconnect := fun s => { s with connected := false }
  start := fun s => s
  commit := fun s => s
  rollback := fun s => s
  execute := fun s sql =>
    if sql ∈ s.rejected then (false, s) else (true, { s with lastId := s.lastId + 1 })
  beginQuery := fun s sql =>
    match s.results.lookup sql with
    | none => (false, s)
    | some rows => (true, { s with cursor := rows })
  fetchRow := fun s =>
    match s.cursor with
    | [] => (false, s)
    | r :: rest => (true, { s with current := r, cursor := rest })
  endQuery := fun s => { s with cursor := [], current := [] }
  findColumn := fun s n => columnIndex s.columns n
  getRowField := fun s i => (s.current.get? i.toNat).join
  getRowFieldSize := fun s i => (((s.current.get? i.toNat).join).map String.length).getD 0
  lastInsertId := fun s _ => s.lastId
  escape := fun str => some str
  timeToString := fun t => toString t.seconds
  stringToTime := fun f => ⟨(f.bind fromStringInt).getD 0, 0⟩
  convertColumnName := fun n => n
  defaultValue := "DEFAULT"

/-- A test database: the publicID `evt` is stored with oid 7, the publicID
`new` is not stored, the schema version is `version`, and the database has
handed out the ids up to 7. -/
def testDb (connected : Bool) (version : String) : TestDb :=
  { connected := connected,
    results :=
      [("select _oid from PublicObject where publicID='evt'", [[some "7"]]),
       ("select _oid from PublicObject where publicID='new'", []),
       ("select value from Meta where name='Schema-Version'", [[some version]])],
    rejected := [],
    cursor := [],
    current := [],
    columns := [],
    lastId := 7 }

/-- An archive on the connected test database with nothing cached and an
empty call log, as the constructor leaves it for a client of schema version
0.12. -/
def testArchive : DatabaseArchive TestDb :=
  { DatabaseArchive.initial (some (testDb true "0.12.0")) [] with
    version := ⟨0, 12, 0⟩, publicIDColumn := "publicID" }

/-- A pick-like object without publicID: two attributes, the second a time
split into seconds and microseconds. -/
def testPick : Object :=
  { id := 100,
    className := "Pick",
    publicID := none,
    parent := none,
    serialize :=
      .seq (.locateObjectByName (some "phase") none false) <|
      .seq (.write (.text "P")) <|
      .seq (.setHint ⟨true, false, false, true, false⟩) <|
      .seq (.locateObjectByName (some "time") none false) <|
      .seq (.write (.time ⟨1704164645, 123456⟩)) .done }

/-- A public object with the publicID `new` and one attribute. -/
def testEvent : Object :=
  { id := 200,
    className := "Event",
    publicID := some "new",
    parent := none,
    serialize :=
      .seq (.locateObjectByName (some "type") none false) <|
      .seq (.write (.text "quake")) .done }

/-- A public object whose publicID `evt` is stored already. -/
def testStored : Object :=
  { id := 300,
    className := "Event",
    publicID := some "evt",
    parent := none,
    serialize := .done }

/-- A public object with the fresh publicID `new` whose serialization is
invalid. -/
def testInvalid : Object :=
  { id := 400,
    className := "Event",
    publicID := some "new",
    parent := none,
    serialize := .seq (.setValidity false) .done }

/-! ### The archive along a `write` of `testPick` -/

/-- The test archive after the inserts `write(testPick, parentId)` makes for
the pick itself: the `Object` row got the oid 8. -/
def testPickInserted (parentId : String) : DatabaseArchive TestDb :=
  { testArchive with
    db := some { testDb true "0.12.0" with lastId := 8 },
    objectAttributes := AttrTarget.root,
    log := [Event.archiveWrite 100 parentId,
      Event.execute "insert into Object(_oid) values(DEFAULT)" true] }

/-- The test archive after the serialization of `testPick`. -/
def testPickSerialized (parentId : String) : DatabaseArchive TestDb :=
  { testPickInserted parentId with
    isReading := false,
    hint := ⟨true, false, false, true, false⟩,
    currentAttributeName := "time",
    rootAttributes := [("phase", some "'P'"), ("time", some "'1704164645'"),
      ("time_ms", some "123456")] }

/-- The test archive after the lookup of the parent `evt` of `testPick`. -/
def testPickParentFound : DatabaseArchive TestDb :=
  { testPickSerialized "evt" with
    log := [Event.archiveWrite 100 "evt",
      Event.execute "insert into Object(_oid) values(DEFAULT)" true,
      Event.beginQuery "select _oid from PublicObject where publicID='evt'" true,
      Event.fetchRow true, Event.endQuery] }

/-- The test archive after the lookup of the parent `new` of `testPick`. -/
def testPickParentMissing : DatabaseArchive TestDb :=
  { testPickSerialized "new" with
    log := [Event.archiveWrite 100 "new",
      Event.execute "insert into Object(_oid) values(DEFAULT)" true,
      Event.beginQuery "select _oid from PublicObject where publicID='new'" true,
      Event.fetchRow false, Event.endQuery] }

/-- The test archive after `write(testPick, "evt")`. -/
def testPickWritten : DatabaseArchive TestDb :=
  { testPickParentFound with
    db := some { testDb true "0.12.0" with lastId := 9 },
    isReading := true,
    objectIdCache := [(100, 8)],
    rootAttributes := [("phase", some "'P'"), ("time", some "'1704164645'"),
      ("time_ms", some "123456"), ("_oid", some "8"), ("_parent_oid", some "7")],
    log := [Event.archiveWrite 100 "evt",
      Event.execute "insert into Object(_oid) values(DEFAULT)" true,
      Event.beginQuery "select _oid from PublicObject where publicID='evt'" true,
      Event.fetchRow true, Event.endQuery,
      Event.execute
        "insert into Pick(phase,time,time_ms,_oid,_parent_oid) values ('P','1704164645',123456,8,7)"
        true] }

/-! ### Writing attributes on the test archive -/

/-- Two decimal digits. -/
def pad2 (n : Nat) : String := (if n < 10 then "0" else "") ++ toString n

/-- Year, month and day of the day `days` after 1970-01-01 (proleptic
Gregorian calendar). -/
def civilFromDays (days : Nat) : Nat × Nat × Nat :=
  let z := days + 719468
  let era := z / 146097
  let doe := z % 146097
  let yoe := (doe - doe / 1460 + doe / 36524 - doe / 146096) / 365
  let doy := doe - (365 * yoe + yoe / 4 - yoe / 100)
  let mp := (5 * doy + 2) / 153
  let d := doy - (153 * mp + 2) / 5 + 1
  let m := if mp < 10 then mp + 3 else mp - 9
  (if m ≤ 2 then yoe + era * 400 + 1 else yoe + era * 400, m, d)

/-- A driver's rendering of a time from 1970 on as `YYYY-MM-DD hh:mm:ss`. -/
def isoTime (t : Time) : String :=
  toString (civilFromDays (t.seconds.toNat / 86400)).1 ++ "-" ++
  pad2 (civilFromDays (t.seconds.toNat / 86400)).2.1 ++ "-" ++
  pad2 (civilFromDays (t.seconds.toNat / 86400)).2.2 ++ " " ++
  pad2 (t.seconds.toNat % 86400 / 3600) ++ ":" ++
  pad2 (t.seconds.toNat % 3600 / 60) ++ ":" ++
  pad2 (t.seconds.toNat % 60)

/-- The test driver with the calendar rendering of times. -/
def testCalendarDriver : DatabaseInterface TestDb :=
  { testDriver with timeToString := isoTime }

/-- The test archive in writer mode, as `write` has prepared it for
`testPick`: the root attribute map is current and empty, the prefix stack is
empty. -/
def testWriter : DatabaseArchive TestDb :=
  { testArchive.writeEntered testPick "evt" with isReading := false }

/-- The writer about to write the attribute `time` with the `SPLIT_TIME`
hint. -/
def testTimeWriter : DatabaseArchive TestDb :=
  { testWriter with hint := ⟨true, false, false, true, false⟩, currentAttributeName := "time" }

/-- The test archive after `remove(testStored, "")` has resolved the oid of
`testStored`. -/
def testStoredResolved : DatabaseArchive TestDb :=
  match testArchive.removeResolve testDriver testStored "" with
  | .ok r => r.2
  | .error _ => testArchive

/-! ### An update on the test archive -/

/-- The class `Pick` for the test driver: the factory creates an object for
every row, at an address of its own, and the object reads the column `phase`,
which must not be null. -/
def testPickClass : RTTI TestDb :=
  { className := "Pick",
    isPublicObject := false,
    create := fun s => some (1000 + s.cursor.length),
    hydrate := fun a =>
      match a.db with
      | none => .error .nullPointer
      | some s =>
        .ok (a.setValidity (testDriver.getRowField s (testDriver.findColumn s "phase")).isSome) }

/-- The rows for which the `serialize` of `testPickClass` succeeds. -/
def testPickGood (s : TestDb) : Bool :=
  (testDriver.getRowField s (testDriver.findColumn s "phase")).isSome

/-- The test archive on a database in which the parent `evt` has the given
rows of the table `Pick` as children. -/
def testPicksArchive (rows : List (List (Option String))) : DatabaseArchive TestDb :=
  { testArchive with
    db := some
      { testDb true "0.12.0" with
        results := (testDb true "0.12.0").results ++
          [("select * from Pick where Pick._parent_oid='7'", rows)],
        columns := ["_oid", "_parent_oid", "phase"] } }

/-- Five picks of the parent `evt`. -/
def testFivePicks : List (List (Option String)) :=
  [[some "11", some "7", some "P"], [some "12", some "7", some "S"],
   [some "13", some "7", some "P"], [some "14", some "7", some "S"],
   [some "15", some "7", some "P"]]

/-- A valid iterator of `testPickClass` that is positioned on an object and
has counted no advance yet. -/
def testPickIterator : DatabaseIterator TestDb :=
  { rtti := some testPickClass, reader := true, count := 0,
    object := some { id := 1004, className := "Pick", lastModifiedInArchive := none },
    oid := 11, parent_oid := 7, cached := false, lastModified := none }

/-- The driver with an open cursor that has the given rows left. -/
def testCursorDb (rows : List (List (Option String))) : TestDb :=
  { testDb true "0.12.0" with
    cursor := rows, current := [some "11", some "7", some "P"],
    columns := ["_oid", "_parent_oid", "phase"] }

/-- The rows of a cursor in which the first two have no phase, the third has
one and the last has none. -/
def testSparsePicks : List (List (Option String)) :=
  [[some "12", some "7", none], [some "13", some "7", none],
   [some "14", some "7", some "S"], [some "15", some "7", none]]

/-- The test archive with an open cursor that has the rows `testSparsePicks`
left. -/
def testSparseArchive : DatabaseArchive TestDb :=
  { testArchive with db := some (testCursorDb testSparsePicks) }

/-- The driver of `testSparseArchive` on the third of the rows left, the first
with a phase. -/
def testSparseThird : TestDb :=
  (testDriver.fetchRow
    (testDriver.fetchRow (testDriver.fetchRow (testCursorDb testSparsePicks)).2).2).2

/-- The archive `testPickWritten` after `setDriver` with the test database. -/
def testPickRedriven : DatabaseArchive TestDb :=
  match testPickWritten.setDriver testDriver 0 12 (some (testDb true "0.12.0")) with
  | .ok a => a
  | .error _ => testPickWritten

/-! ### Bulk operations on the test archive -/

/-- The writer a bulk operation returns, or `w` itself when the operation
ends abnormally. -/
def bulkResult {σ : Type} (D : DatabaseInterface σ) (w : DatabaseObjectWriter σ)
    (t : Traversal) (parentID : String) : DatabaseObjectWriter σ :=
  match w.call D t parentID with
  | .ok r => r.2
  | .error _ => w

/-- The traversal that delivers `testPick` only. -/
def testOneNode : Traversal := .visit testPick .done .done

/-- The traversal that delivers `testPick` and then `testEvent`. -/
def testTwoNodes : Traversal :=
  .visit testPick (.visit testEvent .done .done) (.visit testEvent .done .done)

/-- The traversal that delivers `testStored`, whose write fails, and then
`testPick`. -/
def testFailingNode : Traversal :=
  .visit testStored (.visit testPick .done .done) (.visit testPick .done .done)

/-! ### Opening and closing on the test database -/

/-- A test database from before schema versioning: it answers no query. -/
def testOldDb : TestDb :=
  { connected := false, results := [], rejected := [], cursor := [], current := [],
    columns := [], lastId := 0 }

/-- The archive the constructor makes of the driver `db`, or the bare initial
archive when the constructor ends abnormally. -/
def testConstructed (db : TestDb) : DatabaseArchive TestDb :=
  match DatabaseArchive.construct testDriver 0 12 (some db) [] with
  | .ok a => a
  | .error _ => DatabaseArchive.initial (some db) []

/-- The archive after `open("dsn")`, or `a` itself when the call ends
abnormally. -/
def testOpenedFrom (a : DatabaseArchive TestDb) : DatabaseArchive TestDb :=
  match a.open testDriver 0 12 "dsn" with
  | .ok r => r.2
  | .error _ => a

/-- The archive after `setDriver(db)`, or `a` itself when the call ends
abnormally. -/
def testDrivenFrom (a : DatabaseArchive TestDb) (db : TestDb) : DatabaseArchive TestDb :=
  match a.setDriver testDriver 0 12 (some db) with
  | .ok b => b
  | .error _ => a

/-- The test driver with an `escape` that doubles every single quote. -/
def testEscapingDriver : DatabaseInterface TestDb :=
  { testDriver with
    escape := fun str =>
      some (String.join (str.data.map (fun c => if c.toNat = 39 then "''" else c.toString))) }

/-- The class `Event` for the test driver, a PublicObject whose `serialize`
reads nothing. -/
def testEventClass : RTTI TestDb :=
  { className := "Event",
    isPublicObject := true,
    create := fun s => some (2000 + s.cursor.length),
    hydrate := fun a => .ok a }

end DataModel

/-! ## The record stream `File` -/

/-- Modelled from the spec: the order of `Core::Time`, by the second count
and then by the microseconds within the second. -/
def DataModel.Time.lt (a b : DataModel.Time) : Bool :=
  decide (a.seconds < b.seconds) || (decide (a.seconds = b.seconds) && decide (a.usecs < b.usecs))

/-- Modelled from the spec: `operator>=` of `Core::Time`, the negation of
`operator<`. -/
def DataModel.Time.ge (a b : DataModel.Time) : Bool := !a.lt b

namespace RecordStream

open DataModel (Time Fault)

/-- What `File::next` uses of a `Record`: `streamID()`, `startTime()` and
`endTime()`. -/
structure Record where
  streamID : String
  startTime : Time
  endTime : Time
deriving DecidableEq, Repr

/-- `TimeWindowFilter`, the time window registered for one stream. -/
structure TimeWindowFilter where
  start : Time
  «end» : Time
deriving DecidableEq, Repr

/-- What one `rec->read(*_current)` finds in the source: a record, or data it
fails on with an exception other than the end of the stream.  The end of the
stream is the end of the list of reads. -/
inductive ReadResult where
  | record (rec : Record)
  | failure
deriving DecidableEq, Repr

/-- The member variables of `File`.  `factory` is nothing when `_factory` is
null and tells otherwise whether `create()` yields a record; `good` is the
state `*_current` converts to, and `input` is what the reads from `*_current`
find, one entry for each `rec->read`. -/
structure File where
  name : String
  closeRequested : Bool
  factory : Option Bool
  good : Bool
  input : List ReadResult
  filter : List (String × TimeWindowFilter)
  startTime : Time
  endTime : Time
deriving DecidableEq, Repr

namespace File

/-- `addStream(net, sta, loc, cha, stime, etime)`: the entry of the stream id
is set, replacing the one there is. -/
def addStream (f : File) (net sta loc cha : String) (stime etime : Time) : Bool × File :=
  (true,
    { f with
      filter :=
        if (f.filter.lookup (net ++ "." ++ sta ++ "." ++ loc ++ "." ++ cha)).isSome then
          f.filter.map (fun e =>
            if e.1 = net ++ "." ++ sta ++ "." ++ loc ++ "." ++ cha then (e.1, ⟨stime, etime⟩)
            else e)
        else f.filter ++ [(net ++ "." ++ sta ++ "." ++ loc ++ "." ++ cha, ⟨stime, etime⟩)] })

/-- `setStartTime(stime)` -/
def setStartTime (f : File) (stime : Time) : Bool × File := (true, { f with startTime := stime })

/-- `setEndTime(etime)` -/
def setEndTime (f : File) (etime : Time) : Bool × File := (true, { f with endTime := etime })

/-- `close()` -/
def close (f : File) : File := { f with closeRequested := true }

/-- The tests the loop of `next()` makes on a record it has read: true when
the record is deleted and the loop continues.  `valid` is `Core::Time::valid`,
which is declared outside the sources at hand. -/
def skips (valid : Time → Bool) (f : File) (rec : Record) : Bool :=
  if f.filter ≠ [] then
    match f.filter.lookup rec.streamID with
    | none => true
    | some w =>
      if (if valid w.start then rec.endTime.lt w.start
          else if valid f.startTime then rec.endTime.lt f.startTime
          else false) then true
      else if (if valid w.end then rec.startTime.ge w.end
               else if valid f.endTime then rec.startTime.ge f.endTime
               else false) then true
      else false
  else
    if valid f.startTime && rec.endTime.lt f.startTime then true
    else if valid f.endTime && rec.startTime.ge f.endTime then true
    else false

/-- The loop of `next()`, entered with `_closeRequested` false: one round for
every read, by recursion on the reads the source has left.  The result is the
record returned, if any, and the reads left. -/
def nextLoop (valid : Time → Bool) (f : File) :
    List ReadResult → Except Fault (Option Record × List ReadResult)
  | [] =>
    match f.factory with
    | none => .error .nullPointer
    | some _ => .ok (none, [])
  | r :: rest =>
    match f.factory with
    | none => .error .nullPointer
    | some false => .ok (none, r :: rest)
    | some true =>
      match r with
      | .failure => .ok (none, rest)
      | .record rec =>
        if skips valid f rec then nextLoop valid f rest else .ok (some rec, rest)

/-- `next()`.  After a requested close the stream that is current has nothing
left to read. -/
def next (valid : Time → Bool) (f : File) : Except Fault (Option Record × File) :=
  if f.closeRequested then
    .ok (none, { f with input := [], filter := [], closeRequested := false })
  else if !f.good then .ok (none, f)
  else (nextLoop valid f f.input).map (fun r => (r.1, { f with input := r.2 }))

/-- The start bound in force for a record, in the words of the
specification: the window start of the stream of the record if that time is
valid, otherwise the global start time if that is valid. -/
def startBound (valid : Time → Bool) (f : File) (rec : Record) : Option Time :=
  match f.filter.lookup rec.streamID with
  | some w =>
    if valid w.start then some w.start
    else if valid f.startTime then some f.startTime else none
  | none => if valid f.startTime then some f.startTime else none

/-- The end bound in force for a record, chosen like the start bound. -/
def endBound (valid : Time → Bool) (f : File) (rec : Record) : Option Time :=
  match f.filter.lookup rec.streamID with
  | some w =>
    if valid w.end then some w.end
    else if valid f.endTime then some f.endTime else none
  | none => if valid f.endTime then some f.endTime else none

/-- A record is dropped, in the words of the specification. -/
def dropped (valid : Time → Bool) (f : File) (rec : Record) : Prop :=
  (f.filter ≠ [] ∧ f.filter.lookup rec.streamID = none) ∨
  (∃ b, startBound valid f rec = some b ∧ rec.endTime.lt b = true) ∨
  (∃ b, endBound valid f rec = some b ∧ rec.startTime.ge b = true)

end File

/-- A `Core::Time` is taken for valid on the test files when it is not the
zero time. -/
def testValid (t : Time) : Bool := decide (t ≠ ⟨0, 0⟩)

/-- A test file on which the stream `GE.APE..BHZ` is registered without a
window of its own and the stream `GE.UGM..BHZ` with the window from 100 to
200; the global window is from 50 to 150.  The source holds four records. -/
def testFile : File :=
  { name := "data.mseed",
    closeRequested := false,
    factory := some true,
    good := true,
    input :=
      [.record ⟨"GE.XXX..BHZ", ⟨60, 0⟩, ⟨70, 0⟩⟩,
       .record ⟨"GE.APE..BHZ", ⟨30, 0⟩, ⟨49, 999999⟩⟩,
       .record ⟨"GE.UGM..BHZ", ⟨200, 0⟩, ⟨210, 0⟩⟩,
       .record ⟨"GE.UGM..BHZ", ⟨90, 0⟩, ⟨100, 0⟩⟩,
       .record ⟨"GE.APE..BHZ", ⟨60, 0⟩, ⟨70, 0⟩⟩],
    filter :=
      [("GE.APE..BHZ", ⟨⟨0, 0⟩, ⟨0, 0⟩⟩), ("GE.UGM..BHZ", ⟨⟨100, 0⟩, ⟨200, 0⟩⟩)],
    startTime := ⟨50, 0⟩,
    endTime := ⟨150, 0⟩ }

end RecordStream

/-! ## The Butterworth filter designer -/

namespace Math
namespace Filtering
namespace IIR

/-- `std::complex<double>`; the numbers are those of an ordered field `R`, so
that rounding and the special values of floating point are outside the
model. -/
structure Complex (R : Type) where
  re : R
  im : R
deriving DecidableEq, Repr

/-- The functions of the C and C++ libraries the designer calls, and the
constant `M_PI`. -/
structure Libm (R : Type) where
  pi : R
  cos : R → R
  sin : R → R
  tan : R → R
  sqrt : Complex R → Complex R

/-- Modelled from the spec: a second-order section with the coefficients
`(a0,a1,a2,b0,b1,b2)`, which is the order the designer hands them to the
constructor in. -/
structure BiquadCoefficients (R : Type) where
  a0 : R
  a1 : R
  a2 : R
  b0 : R
  b1 : R
  b2 : R
deriving DecidableEq, Repr

/-- Modelled from the spec: `Biquads`, a cascade of biquad sections. -/
abbrev Biquads (R : Type) : Type := List (BiquadCoefficients R)

/-- `BUTTERWORTH_HIGHPASS` -/
def BUTTERWORTH_HIGHPASS : Int := 0

/-- `BUTTERWORTH_LOWPASS` -/
def BUTTERWORTH_LOWPASS : Int := 1

/-- `BUTTERWORTH_BANDPASS` -/
def BUTTERWORTH_BANDPASS : Int := 2

/-- `BUTTERWORTH_BANDSTOP` -/
def BUTTERWORTH_BANDSTOP : Int := 3

/-- `BUTTERWORTH_HIGHLOWPASS`, by its comment the combination of
`BUTTERWORTH_LOWPASS` and `BUTTERWORTH_HIGHPASS`. -/
def BUTTERWORTH_HIGHLOWPASS : Int := 4

section

variable {R : Type} [LinearOrderedField R]

/-- Sum of two complex numbers. -/
def Complex.add (z w : Complex R) : Complex R := ⟨z.re + w.re, z.im + w.im⟩

/-- Difference of two complex numbers. -/
def Complex.sub (z w : Complex R) : Complex R := ⟨z.re - w.re, z.im - w.im⟩

/-- Product of two complex numbers. -/
def Complex.mul (z w : Complex R) : Complex R :=
  ⟨z.re * w.re - z.im * w.im, z.re * w.im + z.im * w.re⟩

/-- Product of a real and a complex number. -/
def Complex.scale (x : R) (z : Complex R) : Complex R := ⟨x * z.re, x * z.im⟩

/-- Quotient of a real by a complex number. -/
def Complex.under (x : R) (z : Complex R) : Complex R :=
  ⟨x * z.re / (z.re * z.re + z.im * z.im), -(x * z.im) / (z.re * z.re + z.im * z.im)⟩

/-- `conj(z)` -/
def Complex.conj (z : Complex R) : Complex R := ⟨z.re, -z.im⟩

/-- `makepoles(order)` -/
def makepoles (L : Libm R) (order : Int) : List (Complex R) :=
  ((List.range (Int.tdiv order 2).toNat).map (fun (k : Nat) =>
    (⟨L.cos (L.pi * (1 / 2 + ((k : R) + 1 / 2) / (order : R))),
      L.sin (L.pi * (1 / 2 + ((k : R) + 1 / 2) / (order : R)))⟩ : Complex R))) ++
  (if order % 2 = 1 then [⟨-1, 0⟩] else [])

/-- `poles2bp(poles, fmin, fmax)` -/
def poles2bp (L : Libm R) (poles : List (Complex R)) (fmin fmax : R) : Biquads R :=
  let a := 2 * L.pi * 2 * L.pi * fmin * fmax
  let b := 2 * L.pi * (fmax - fmin)
  poles.flatMap (fun pole =>
    if pole ≠ ⟨-1, 0⟩ then
      let pb := Complex.scale b pole
      let tmp := L.sqrt ((pb.mul pb).sub ⟨4 * a, 0⟩)
      let p1 := Complex.scale (1 / 2) (pb.add tmp)
      let p2 := Complex.scale (1 / 2) (pb.sub tmp)
      [⟨0, b, 0, (p1.mul p1.conj).re, -2 * p1.re, 1⟩,
       ⟨0, b, 0, (p2.mul p2.conj).re, -2 * p2.re, 1⟩]
    else [⟨0, b, 0, a, b, 1⟩])

/-- `poles2bs(poles, fmin, fmax)` -/
def poles2bs (L : Libm R) (poles : List (Complex R)) (fmin fmax : R) : Biquads R :=
  let a := 2 * L.pi * 2 * L.pi * fmin * fmax
  let b := 2 * L.pi * (fmax - fmin)
  poles.flatMap (fun pole =>
    if pole ≠ ⟨-1, 0⟩ then
      let bp := Complex.under b pole
      let tmp := L.sqrt ((bp.mul bp).sub ⟨4 * a, 0⟩)
      let p1 := Complex.scale (1 / 2) (bp.add tmp)
      let p2 := Complex.scale (1 / 2) (bp.sub tmp)
      [⟨a, 0, 1, (p1.mul p1.conj).re, -2 * p1.re, 1⟩,
       ⟨a, 0, 1, (p2.mul p2.conj).re, -2 * p2.re, 1⟩]
    else [⟨a, 0, 1, a, b, 1⟩])

/-- `poles2lp(poles, fmax)` -/
def poles2lp (L : Libm R) (poles : List (Complex R)) (fmax : R) : Biquads R :=
  let s := 1 / (2 * L.pi * fmax)
  poles.flatMap (fun pole =>
    if pole ≠ ⟨-1, 0⟩ then
      [⟨1, 0, 0, (pole.mul pole.conj).re, -2 * pole.re * s, 1 * (s * s)⟩]
    else [⟨1, 0, 0, 1, s, 0⟩])

/-- `poles2hp(poles, fmin)` -/
def poles2hp (L : Libm R) (poles : List (Complex R)) (fmin : R) : Biquads R :=
  let s := 1 / (2 * L.pi * fmin)
  poles.flatMap (fun pole =>
    if pole ≠ ⟨-1, 0⟩ then
      [⟨0, 0, s * s, 1, -2 * s * pole.re, s * s * (pole.mul pole.conj).re⟩]
    else [⟨0, s, 0, 1, s, 0⟩])

/-- `analog2digital(biquad)` for one section. -/
def analog2digitalBiquad (biquad : BiquadCoefficients R) : BiquadCoefficients R :=
  let scale := 1 / (biquad.b0 + biquad.b1 + biquad.b2)
  { b0 := 1,
    b1 := scale * (2 * (biquad.b0 - biquad.b2)),
    b2 := scale * (biquad.b2 - biquad.b1 + biquad.b0),
    a0 := scale * (biquad.a0 + biquad.a1 + biquad.a2),
    a1 := scale * (2 * (biquad.a0 - biquad.a2)),
    a2 := scale * (biquad.a2 - biquad.a1 + biquad.a0) }

/-- `analog2digital(biquads)` for a cascade. -/
def analog2digital (biquads : Biquads R) : Biquads R := biquads.map analog2digitalBiquad

/-- The checks of `init_bw_biquads_inplace` for a type other than
`BUTTERWORTH_HIGHLOWPASS`, in their order: the message of the error thrown, if
one is.  In the `switch` the band types fall through to the checks of the
lowpass. -/
def validate (order : Nat) (fmin fmax fsamp : R) (type : Int) : Option String :=
  if order > 20 then some "Filter order exceeded maximum of 20"
  else if fsamp ≤ 0 then some "Sample rate must be greater than zero"
  else if type = BUTTERWORTH_BANDPASS ∨ type = BUTTERWORTH_BANDSTOP then
    if fmax < fmin then some "High frequency cutoff must be greater than low freq"
    else if fmin ≤ 0 then some "Low frequency cutoff must be greater than zero"
    else if fmax ≤ 0 then some "High frequency cutoff must be greater than zero"
    else if fmin ≥ (1 / 2) * fsamp then
      some "High frequency cutoff must be lower than Nyquist frequency"
    else none
  else if type = BUTTERWORTH_LOWPASS then
    if fmax ≤ 0 then some "High frequency cutoff must be greater than zero"
    else if fmin ≥ (1 / 2) * fsamp then
      some "High frequency cutoff must be lower than Nyquist frequency"
    else none
  else if type = BUTTERWORTH_HIGHPASS then
    if fmin ≤ 0 then some "Low frequency cutoff must be greater than zero"
    else if fmin ≥ (1 / 2) * fsamp then
      some "High frequency cutoff must be lower than Nyquist frequency"
    else none
  else none

/-- The cascade generation of `init_bw_biquads_inplace`: the poles, the
warped frequencies, and the `switch` that assigns the cascade of the type to
`biquads` and converts it. -/
def generate (L : Libm R) (order : Nat) (fmin fmax fsamp : R) (type : Int) :
    Except String (Biquads R) :=
  let p := makepoles L (order : Int)
  let warped_fmin := L.tan (L.pi * fmin / fsamp) / (2 * L.pi)
  let warped_fmax := L.tan (L.pi * fmax / fsamp) / (2 * L.pi)
  if type = BUTTERWORTH_BANDPASS then .ok (analog2digital (poles2bp L p warped_fmin warped_fmax))
  else if type = BUTTERWORTH_BANDSTOP then
    .ok (analog2digital (poles2bs L p warped_fmin warped_fmax))
  else if type = BUTTERWORTH_LOWPASS then .ok (analog2digital (poles2lp L p warped_fmax))
  else if type = BUTTERWORTH_HIGHPASS then .ok (analog2digital (poles2hp L p warped_fmin))
  else .error "Invalid filter type"

/-- `init_bw_biquads_inplace` below its `BUTTERWORTH_HIGHLOWPASS` case.  The
cascade handed in as `biquads` is replaced by the assignment in the `switch`;
nothing of it is read. -/
def init_bw_biquads_single (L : Libm R) (_biquads : Biquads R) (order : Nat)
    (fmin fmax fsamp : R) (type : Int) : Except String (Biquads R) :=
  match validate order fmin fmax fsamp type with
  | some msg => .error msg
  | none => generate L order fmin fmax fsamp type

/-- `init_bw_biquads_inplace(biquads, order, fmin, fmax, fsamp, type)`: the
result is the cascade `biquads` holds afterwards, or the message of the error
thrown.  The two calls of the `BUTTERWORTH_HIGHLOWPASS` case have the types
`BUTTERWORTH_HIGHPASS` and `BUTTERWORTH_LOWPASS` and so go below that case. -/
def init_bw_biquads_inplace (L : Libm R) (biquads : Biquads R) (order : Nat)
    (fmin fmax fsamp : R) (type : Int) : Except String (Biquads R) :=
  if type = BUTTERWORTH_HIGHLOWPASS then
    match init_bw_biquads_single L biquads order fmin 0 fsamp BUTTERWORTH_HIGHPASS with
    | .error msg => .error msg
    | .ok biquads1 =>
      init_bw_biquads_single L biquads1 order 0 fmax fsamp BUTTERWORTH_LOWPASS
  else init_bw_biquads_single L biquads order fmin fmax fsamp type

/-- `init_bw_biquads(order, fmin, fmax, fsamp, type)` -/
def init_bw_biquads (L : Libm R) (order : Nat) (fmin fmax fsamp : R) (type : Int) :
    Except String (Biquads R) :=
  init_bw_biquads_inplace L [] order fmin fmax fsamp type

/-- The conditions under which the specification has `init_bw_biquads` raise
an error. -/
def specRaises (order : Nat) (fmin fmax fsamp : R) (type : Int) : Prop :=
  order > 20 ∨ fsamp ≤ 0 ∨ fmin ≥ fsamp / 2 ∨ fmax ≤ 0 ∨ fmin < 0 ∨
  ((type = BUTTERWORTH_BANDPASS ∨ type = BUTTERWORTH_BANDSTOP) ∧ fmax < fmin)

end

/-- A coarse arithmetic on the rationals to run the designer with: `M_PI` is
355/113, the trigonometric functions are the first terms of their series, and
the square root is one Newton step from 1. -/
def testLibm : Libm ℚ :=
  { pi := 355 / 113,
    cos := fun x => 1 - x * x / 2 + x * x * x * x / 24,
    sin := fun x => x - x * x * x / 6 + x * x * x * x * x / 120,
    tan := fun x => x + x * x * x / 3,
    sqrt := fun z => ⟨(1 + z.re) / 2, z.im / 2⟩ }

/-- The highpass cascade of order 3 for the corner 1 at the sample rate 10 in
the test arithmetic. -/
def testHighpass : Biquads ℚ :=
  match init_bw_biquads testLibm 3 1 0 10 BUTTERWORTH_HIGHPASS with
  | .ok c => c
  | .error _ => []

/-- The lowpass cascade of order 3 for the corner 2 at the sample rate 10 in
the test arithmetic. -/
def testLowpass : Biquads ℚ :=
  match init_bw_biquads testLibm 3 0 2 10 BUTTERWORTH_LOWPASS with
  | .ok c => c
  | .error _ => []

end IIR
end Filtering
end Math

end Seiscomp

namespace Seiscomp
namespace DataModel

theorem intercalate_go_append (sep : String) :
    ∀ (rest : List String) (p y : String),
      String.intercalate.go (p ++ y) sep rest = p ++ String.intercalate.go y sep rest
  | [], p, y => by simp [String.intercalate.go]
  | a :: rest, p, y => by
    simp only [String.intercalate.go]
    rw [String.append_assoc, String.append_assoc, intercalate_go_append sep rest p (y ++ (sep ++ a))]
    simp only [String.append_assoc]

/-- The loop of the stream operators of `AttributeMapper` and `ValueMapper`
writes the strings with the separator between them. -/
theorem joinWith_eq_intercalate (sep : String) :
    ∀ l : List String, joinWith sep l = String.intercalate sep l
  | [] => rfl
  | [x] => rfl
  | x :: y :: rest => by
    have ih := joinWith_eq_intercalate sep (y :: rest)
    simp only [joinWith, String.intercalate, String.intercalate.go] at ih ⊢
    rw [ih, String.append_assoc, intercalate_go_append]
    simp only [String.append_assoc]

theorem assign_of_find_none :
    ∀ (mp : AttributeMap) (k : String) (v : Option String), mp.find k = none →
      mp.assign k v = mp ++ [(k, v)]
  | [], _, _, _ => rfl
  | (k0, v0) :: rest, k, v, h => by
    unfold AttributeMap.find at h
    unfold AttributeMap.assign
    by_cases hk : k0 = k
    · rw [if_pos hk] at h
      cases h
    · rw [if_neg hk] at h
      rw [if_neg hk, assign_of_find_none rest k v h]
      rfl

theorem column_of_find_value :
    ∀ (m : AttributeMap) (k : String) (v : Option String), m.find k = some v →
      ∃ i, (m.map (fun e => e.1)).get? i = some k ∧
        (m.map (fun e => e.2.getD "NULL")).get? i = some (v.getD "NULL")
  | [], _, _, h => by simp [AttributeMap.find] at h
  | (k0, v0) :: rest, k, v, h => by
    unfold AttributeMap.find at h
    by_cases hk : k0 = k
    · rw [if_pos hk] at h
      cases h
      exact ⟨0, by simp [hk], by simp⟩
    · rw [if_neg hk] at h
      obtain ⟨i, h1, h2⟩ := column_of_find_value rest k v h
      exact ⟨i + 1, by simpa using h1, by simpa using h2⟩

end DataModel
end Seiscomp

namespace Seiscomp
namespace DataModel

/-! ## Lemmas on attribute maps -/

theorem AttributeMap.find_assign_self (m : AttributeMap) (k : String) (v : Option String) :
    AttributeMap.find (AttributeMap.assign m k v) k = some v := by
  induction m with
  | nil => simp [AttributeMap.assign, AttributeMap.find]
  | cons e rest ih =>
    obtain ⟨k0, v0⟩ := e
    by_cases hk : k0 = k
    · simp [AttributeMap.assign, AttributeMap.find, hk]
    · simp [AttributeMap.assign, AttributeMap.find, hk, ih]

theorem AttributeMap.find_assign_ne (m : AttributeMap) (k c : String) (v : Option String)
    (hc : c ≠ k) :
    AttributeMap.find (AttributeMap.assign m k v) c = AttributeMap.find m c := by
  have hkc : ¬ k = c := fun h => hc h.symm
  induction m with
  | nil => simp [AttributeMap.assign, AttributeMap.find, hkc]
  | cons e rest ih =>
    obtain ⟨k0, v0⟩ := e
    by_cases hk : k0 = k
    · subst hk
      simp [AttributeMap.assign, AttributeMap.find, hkc]
    · by_cases h0 : k0 = c
      · subst h0
        simp [AttributeMap.assign, AttributeMap.find, hk]
      · simp [AttributeMap.assign, AttributeMap.find, hk, h0, ih]

/-! ## Lemmas on the calls on the driver -/

namespace DatabaseArchive

variable {σ : Type}

theorem publicObjectId_eq (D : DatabaseInterface σ) (a : DatabaseArchive σ)
    (publicId : String) (s : σ) (h : a.db = some s) :
    publicObjectId D a publicId =
      (selectOid D s (a.publicObjectIdSql D publicId)).map
        (fun r => (r.1, { a with db := some r.2.1, log := a.log ++ r.2.2 })) := by
  simp only [publicObjectId, dbBeginQuery, dbFetchRow, dbEndQuery, dbRowField, selectOid, h]
  cases hb : (D.beginQuery s (a.publicObjectIdSql D publicId)).1
  · simp [Except.map]
  · cases hf : (D.fetchRow (D.beginQuery s (a.publicObjectIdSql D publicId)).2).1
    · simp [Except.map, hf]
    · cases hg : D.getRowField (D.fetchRow (D.beginQuery s (a.publicObjectIdSql D publicId)).2).2 0
      · simp [Except.map, hf, hg]
      · simp [Except.map, hf, hg]

theorem selectOid_log (D : DatabaseInterface σ) (s s' : σ) (sql : String) (p : OID)
    (evs : List Event) (h : selectOid D s sql = .ok (p, s', evs)) :
    ∀ e ∈ evs, e.isQuery = true := by
  unfold selectOid at h
  split at h
  · cases h; simp [Event.isQuery]
  · split at h
    · split at h
      · cases h
      · cases h; simp [Event.isQuery]
    · cases h; simp [Event.isQuery]

end DatabaseArchive
end DataModel
end Seiscomp

namespace Seiscomp
namespace DataModel
namespace DatabaseArchive

variable {σ : Type}

theorem db_of_publicObjectId (D : DatabaseInterface σ) (a a1 : DatabaseArchive σ)
    (publicId : String) (oid : OID) (h : a.publicObjectId D publicId = .ok (oid, a1)) :
    ∃ s, a.db = some s := by
  cases hs : a.db with
  | none => simp [publicObjectId, dbBeginQuery, hs] at h
  | some s => exact ⟨s, rfl⟩

theorem publicObjectId_ok (D : DatabaseInterface σ) (a a1 : DatabaseArchive σ)
    (publicId : String) (oid : OID) (h : a.publicObjectId D publicId = .ok (oid, a1)) :
    ∃ s s1 evs, a.db = some s ∧
      selectOid D s (a.publicObjectIdSql D publicId) = .ok (oid, s1, evs) ∧
      a1 = { a with db := some s1, log := a.log ++ evs } := by
  obtain ⟨s, hs⟩ := db_of_publicObjectId D a a1 publicId oid h
  rw [publicObjectId_eq D a publicId s hs] at h
  cases hsel : selectOid D s (a.publicObjectIdSql D publicId) with
  | error e => simp [hsel, Except.map] at h
  | ok r =>
    obtain ⟨p, s1, evs⟩ := r
    simp only [hsel, Except.map, Except.ok.injEq, Prod.mk.injEq] at h
    exact ⟨s, s1, evs, hs, by rw [hsel, h.1], h.2.symm⟩

theorem isExecute_of_isQuery (e : Event) (h : e.isQuery = true) : e.isExecute = false := by
  cases e <;> simp_all [Event.isQuery, Event.isExecute]

end DatabaseArchive

/-- C1: a `write` of a public object whose publicID the lookup finds stored
(an oid greater than 0) returns false; the calls it adds to the log contain no
`execute`, so that no INSERT, UPDATE or DELETE reaches the driver, and the
identity cache is what it was. -/
theorem C1_write_refuses_stored_publicID {σ : Type} (D : DatabaseInterface σ)
    (a a1 : DatabaseArchive σ) (x : Object) (publicID parentId : String) (oid : OID)
    (hpub : x.publicID = some publicID)
    (hlook : a.publicObjectId D publicID = .ok (oid, a1)) (hpos : oid > 0) :
    ∃ a' l, a.write D x parentId = .ok (false, a') ∧
      a'.log = a.log ++ l ∧ (∀ e ∈ l, e.isExecute = false) ∧
      a'.objectIdCache = a.objectIdCache := by
  obtain ⟨s, s1, evs, hs, hsel, -⟩ :=
    DatabaseArchive.publicObjectId_ok D a a1 publicID oid hlook
  have hs' : (a.writeEntered x parentId).db = some s := hs
  have hsql : (a.writeEntered x parentId).publicObjectIdSql D publicID
      = a.publicObjectIdSql D publicID := rfl
  have hw : a.write D x parentId = .ok (false,
      { ({ a.writeEntered x parentId with
            db := some s1, log := (a.writeEntered x parentId).log ++ evs } :
          DatabaseArchive σ) with isReading := true }) := by
    simp only [DatabaseArchive.write, DatabaseArchive.validInterface, hs, hpub,
      DatabaseArchive.publicObjectId_eq D _ publicID s hs', hsql, hsel, Except.map]
    simp [hpos]
  refine ⟨_, Event.archiveWrite x.id parentId :: evs, hw, ?_, ?_, rfl⟩
  · simp [DatabaseArchive.writeEntered, DatabaseArchive.writeInit,
      DatabaseArchive.resetAttributePrefix]
  · intro e he
    rcases List.mem_cons.mp he with h | h
    · subst h; rfl
    · exact DatabaseArchive.isExecute_of_isQuery e
        (DatabaseArchive.selectOid_log D s s1 _ oid evs hsel e h)

/-- C1 on the test database: the publicID `evt` is stored with oid 7. -/
theorem C1_write_refuses_stored_publicID_witness :
    ∃ a' l, testArchive.write testDriver testStored "" = .ok (false, a') ∧
      a'.log = testArchive.log ++ l ∧ (∀ e ∈ l, e.isExecute = false) ∧
      a'.objectIdCache = testArchive.objectIdCache :=
  C1_write_refuses_stored_publicID testDriver testArchive _ testStored "evt" "" 7 rfl rfl
    (by decide)

end DataModel
end Seiscomp

namespace Seiscomp
namespace DataModel
namespace DatabaseArchive

variable {σ : Type}

/-! ## What the archive leaves alone -/

theorem Quiet.refl (a : DatabaseArchive σ) : Quiet a a := ⟨rfl, rfl⟩

theorem Quiet.trans {a b c : DatabaseArchive σ} (h1 : Quiet a b) (h2 : Quiet b c) :
    Quiet a c := ⟨h2.1.trans h1.1, h2.2.trans h1.2⟩

theorem bulkTrace_append (l1 l2 : List Event) :
    bulkTrace (l1 ++ l2) = bulkTrace l1 ++ bulkTrace l2 := by
  simp [bulkTrace]

theorem dbExecute_quiet (D : DatabaseInterface σ) (a b : DatabaseArchive σ) (sql : String)
    (r : Bool) (h : a.dbExecute D sql = .ok (r, b)) : Quiet a b := by
  unfold dbExecute at h
  split at h
  · cases h
  · cases h
    exact ⟨rfl, by simp [bulkTrace, Event.isTransaction, Event.isArchiveCall]⟩

theorem dbBeginQuery_quiet (D : DatabaseInterface σ) (a b : DatabaseArchive σ) (sql : String)
    (r : Bool) (h : a.dbBeginQuery D sql = .ok (r, b)) : Quiet a b := by
  unfold dbBeginQuery at h
  split at h
  · cases h
  · cases h
    exact ⟨rfl, by simp [bulkTrace, Event.isTransaction, Event.isArchiveCall]⟩

theorem dbFetchRow_quiet (D : DatabaseInterface σ) (a b : DatabaseArchive σ)
    (r : Bool) (h : a.dbFetchRow D = .ok (r, b)) : Quiet a b := by
  unfold dbFetchRow at h
  split at h
  · cases h
  · cases h
    exact ⟨rfl, by simp [bulkTrace, Event.isTransaction, Event.isArchiveCall]⟩

theorem dbEndQuery_quiet (D : DatabaseInterface σ) (a b : DatabaseArchive σ)
    (h : a.dbEndQuery D = .ok b) : Quiet a b := by
  unfold dbEndQuery at h
  split at h
  · cases h
  · cases h
    exact ⟨rfl, by simp [bulkTrace, Event.isTransaction, Event.isArchiveCall]⟩

theorem publicObjectId_quiet (D : DatabaseInterface σ) (a b : DatabaseArchive σ)
    (publicId : String) (oid : OID) (h : a.publicObjectId D publicId = .ok (oid, b)) :
    Quiet a b := by
  obtain ⟨s, s1, evs, hs, hsel, rfl⟩ := publicObjectId_ok D a b publicId oid h
  refine ⟨rfl, ?_⟩
  have hq := selectOid_log D s s1 _ oid evs hsel
  simp only [bulkTrace_append]
  have : bulkTrace evs = [] := by
    simp only [bulkTrace, List.filter_eq_nil_iff]
    intro e he
    have := hq e he
    cases e <;> simp_all [Event.isQuery, Event.isTransaction, Event.isArchiveCall]
  simp [this]

theorem insertRow_quiet (D : DatabaseInterface σ) (a b : DatabaseArchive σ) (table : String)
    (attribs : AttributeMap) (parentId : String) (r : Bool)
    (h : a.insertRow D table attribs parentId = .ok (r, b)) : Quiet a b :=
  dbExecute_quiet D a b _ r h

theorem deleteObject_quiet (D : DatabaseInterface σ) (a b : DatabaseArchive σ) (id : OID)
    (r : Bool) (h : a.deleteObject D id = .ok (r, b)) : Quiet a b :=
  dbExecute_quiet D a b _ r h

theorem insertObject_quiet (D : DatabaseInterface σ) (a b : DatabaseArchive σ) (id : OID)
    (h : a.insertObject D = .ok (id, b)) : Quiet a b := by
  unfold insertObject at h
  split at h
  · cases h
  · rename_i ok a1 h1
    have q1 := dbExecute_quiet D a a1 _ ok h1
    split at h
    · cases h; exact q1
    · split at h
      · cases h
      · cases h; exact q1

theorem insertPublicObject_quiet (D : DatabaseInterface σ) (a b : DatabaseArchive σ)
    (publicId : String) (id : OID) (h : a.insertPublicObject D publicId = .ok (id, b)) :
    Quiet a b := by
  unfold insertPublicObject at h
  split at h
  · cases h; exact Quiet.refl _
  · split at h
    · cases h
    · rename_i objectId a1 h1
      have q1 := insertObject_quiet D a a1 objectId h1
      split at h
      · cases h; exact q1
      · split at h
        · cases h
        · rename_i ok a2 h2
          have q2 := q1.trans (dbExecute_quiet D a1 a2 _ ok h2)
          split at h
          · split at h
            · cases h
            · rename_i r3 a3 h3
              have q3 := q2.trans (deleteObject_quiet D a2 a3 objectId r3 h3)
              cases h
              exact q3
          · cases h; exact q2

theorem writeAttrib_quiet (D : DatabaseInterface σ) (a b : DatabaseArchive σ)
    (value : Option String) (h : a.writeAttrib D value = .ok b) : Quiet a b := by
  unfold writeAttrib at h
  split at h
  · cases h; exact Quiet.refl _
  · split at h
    · cases h
    · split at h
      · cases h; exact ⟨rfl, rfl⟩
      · split at h
        · cases h
        · cases h; exact ⟨rfl, rfl⟩
        · split at h
          · cases h
          · cases h; exact ⟨rfl, rfl⟩

theorem writeValue_quiet (D : DatabaseInterface σ) (a b : DatabaseArchive σ)
    (v : Value) (h : a.writeValue D v = .ok b) : Quiet a b := by
  cases v with
  | int v => exact writeAttrib_quiet D a b _ h
  | real r => exact writeAttrib_quiet D a b _ h
  | quoted r => exact writeAttrib_quiet D a b _ h
  | bool v => exact writeAttrib_quiet D a b _ h
  | text t =>
    simp only [writeValue] at h
    split at h
    · cases h
    · exact writeAttrib_quiet D a b _ h
  | time t =>
    simp only [writeValue] at h
    split at h
    · cases h
    · split at h
      · cases h
      · rename_i a1 h1
        have q1 := writeAttrib_quiet D a a1 _ h1
        split at h
        · split at h
          · cases h
          · rename_i a2 h2
            have q2 := writeAttrib_quiet D _ a2 _ h2
            cases h
            exact ⟨q2.1.trans q1.1, q2.2.trans q1.2⟩
        · cases h; exact q1

theorem pushAttributePrefix_quiet (a b : DatabaseArchive σ) (name : CStr)
    (h : a.pushAttributePrefix name = .ok b) : Quiet a b := by
  unfold pushAttributePrefix at h
  split at h
  · cases h
  · split at h <;> (cases h; exact ⟨rfl, rfl⟩)

theorem popAttribPrefix_quiet (a b : DatabaseArchive σ)
    (h : a.popAttribPrefix = .ok b) : Quiet a b := by
  unfold popAttribPrefix at h
  split at h
  · cases h; exact ⟨rfl, rfl⟩
  · split at h
    · split at h
      · cases h
      · cases h; exact ⟨rfl, rfl⟩
    · cases h

theorem readAttrib_quiet (D : DatabaseInterface σ) (a b : DatabaseArchive σ)
    (h : a.readAttrib D = .ok b) : Quiet a b := by
  unfold readAttrib at h
  split at h
  · cases h
  · split at h <;> (cases h; exact ⟨rfl, rfl⟩)

end DatabaseArchive
end DataModel
end Seiscomp

namespace Seiscomp
namespace DataModel
namespace DatabaseArchive

variable {σ : Type}

theorem map_pop_quiet (a b : DatabaseArchive σ) (r : Bool)
    (h : (a.popAttribPrefix).map (fun a3 => (false, a3)) = .ok (r, b)) : Quiet a b := by
  cases hp : a.popAttribPrefix with
  | error e => simp [hp, Except.map] at h
  | ok a3 =>
    simp only [hp, Except.map, Except.ok.injEq, Prod.mk.injEq] at h
    obtain ⟨-, rfl⟩ := h
    exact popAttribPrefix_quiet a a3 hp

theorem locateObjectByName_quiet (D : DatabaseInterface σ) (a b : DatabaseArchive σ)
    (name targetClass : CStr) (nullable r : Bool)
    (h : a.locateObjectByName D name targetClass nullable = .ok (r, b)) : Quiet a b := by
  unfold locateObjectByName at h
  split at h
  · split at h
    · split at h
      · cases h
      · rename_i a1 h1
        have q1 : Quiet a a1 := by
          split at h1
          · exact pushAttributePrefix_quiet a a1 name h1
          · cases h1; exact Quiet.refl _
        split at h
        · cases h; exact ⟨q1.1, q1.2⟩
        · split at h
          · split at h
            · cases h
            · rename_i a2 h2
              have q2 := writeValue_quiet D _ a2 _ h2
              cases h
              exact ⟨q2.1.trans q1.1, q2.2.trans q1.2⟩
          · cases h; exact q1
    · cases h; exact ⟨rfl, rfl⟩
  · split at h
    · split at h
      · cases h
      · rename_i a1 h1
        have q1 : Quiet a a1 := by
          split at h1
          · cases hp : a.pushAttributePrefix name with
            | error e => simp [hp, Except.map] at h1
            | ok a0 =>
              simp only [hp, Except.map, Except.ok.injEq] at h1
              subst h1
              have q0 := pushAttributePrefix_quiet a a0 name hp
              exact ⟨q0.1, q0.2⟩
          · cases h1; exact Quiet.refl _
        split at h
        · split at h
          · split at h
            · cases h
            · rename_i a2 h2
              have q2 := readAttrib_quiet D _ a2 h2
              have q12 : Quiet a a2 := ⟨q2.1.trans q1.1, q2.2.trans q1.2⟩
              split at h
              · cases h; exact q12
              · exact q12.trans (map_pop_quiet a2 b r h)
          · cases h; exact q1
        · split at h
          · cases h
          · rename_i a2 h2
            have q2 := readAttrib_quiet D _ a2 h2
            have q12 : Quiet a a2 := ⟨q2.1.trans q1.1, q2.2.trans q1.2⟩
            split at h
            · exact q12.trans (map_pop_quiet a2 b r h)
            · cases h; exact q12
    · split at h
      · cases h
      · split at h
        · cases h
        · rename_i a2 h2
          have q2 := readAttrib_quiet D _ a2 h2
          have q12 : Quiet a a2 := ⟨q2.1, q2.2⟩
          split at h
          · split at h
            · exact q12.trans (map_pop_quiet a2 b r h)
            · cases h; exact q12
          · cases h; exact q12

theorem locateNullObjectByName_quiet (D : DatabaseInterface σ) (a b : DatabaseArchive σ)
    (name targetClass : CStr) (first : Bool)
    (h : a.locateNullObjectByName D name targetClass first = .ok b) : Quiet a b := by
  unfold locateNullObjectByName at h
  split at h
  · split at h
    · split at h
      · have q := writeValue_quiet D _ b _ h
        exact ⟨q.1, q.2⟩
      · cases h; exact Quiet.refl _
    · have q := writeAttrib_quiet D _ b _ h
      exact ⟨q.1, q.2⟩
  · split at h
    · have q := writeAttrib_quiet D _ b _ h
      exact ⟨q.1, q.2⟩
    · have q := writeAttrib_quiet D _ b _ h
      exact ⟨q.1, q.2⟩

theorem dbLastInsertId_db (D : DatabaseInterface σ) (a : DatabaseArchive σ) (table : String)
    (id : OID) (h : a.dbLastInsertId D table = .ok id) :
    ∃ s, a.db = some s ∧ id = D.lastInsertId s table := by
  unfold dbLastInsertId at h
  split at h
  · cases h
  · rename_i s hs
    cases h
    exact ⟨s, hs, rfl⟩

mutual
theorem serializeOp_quiet (D : DatabaseInterface σ) :
    ∀ (op : SerOp) (a b : DatabaseArchive σ), serializeOp D op a = .ok b → Quiet a b
  | .setHint _, a, b, h => by
    simp only [serializeOp] at h
    cases h; exact ⟨rfl, rfl⟩
  | .setValidity v, a, b, h => by
    simp only [serializeOp, setValidity] at h
    cases h
    split <;> exact ⟨rfl, rfl⟩
  | .locateObjectByName name targetClass nullable, a, b, h => by
    simp only [serializeOp] at h
    cases hl : a.locateObjectByName D name targetClass nullable with
    | error e => simp [hl, Except.map] at h
    | ok r =>
      simp only [hl, Except.map, Except.ok.injEq] at h
      subst h
      exact locateObjectByName_quiet D a r.2 name targetClass nullable r.1 hl
  | .locateNullObjectByName name targetClass first, a, b, h => by
    simp only [serializeOp] at h
    exact locateNullObjectByName_quiet D a b name targetClass first h
  | .write v, a, b, h => by
    simp only [serializeOp] at h
    exact writeValue_quiet D a b v h
  | .serializeRoot object, a, b, h => by
    simp only [serializeOp] at h
    split at h
    · cases h
    · rename_i a1 h1
      exact (serialize_quiet D object a a1 h1).trans (popAttribPrefix_quiet a1 b h)
  | .serializeDispatcher disp, a, b, h => by
    simp only [serializeOp] at h
    split at h
    · split at h
      · split at h
        · cases h
        · rename_i a1 h1
          have q1 := serialize_quiet D disp _ a1 h1
          have q1' : Quiet a a1 := ⟨q1.1, q1.2⟩
          split at h
          · cases h
          · rename_i a2 h2
            have q2 : Quiet a a2 := by
              split at h2
              · cases h2; exact ⟨q1'.1, q1'.2⟩
              · split at h2
                · cases h2
                · cases h2; exact ⟨q1'.1, q1'.2⟩
            split at h
            · cases h
            · split at h
              · cases h
              · rename_i ok a3 h3
                have q3 := q2.trans (insertRow_quiet D a2 a3 _ _ _ ok h3)
                split at h
                · cases h; exact q3
                · split at h
                  · cases h
                  · split at h
                    · cases h
                    · rename_i a4 h4
                      have q4 := q3.trans (writeAttrib_quiet D a3 a4 _ h4)
                      split at h
                      · exact q4.trans (popAttribPrefix_quiet a4 b h)
                      · cases h; exact q4
      · split at h
        · exact popAttribPrefix_quiet a b h
        · cases h; exact Quiet.refl _
    · split at h
      · cases h
      · rename_i a1 h1
        have q1 := serialize_quiet D disp a a1 h1
        split at h
        · exact q1.trans (popAttribPrefix_quiet a1 b h)
        · cases h; exact q1
theorem serialize_quiet (D : DatabaseInterface σ) :
    ∀ (script : SerScript) (a b : DatabaseArchive σ), serialize D script a = .ok b → Quiet a b
  | .done, a, b, h => by
    simp only [serialize] at h
    cases h; exact Quiet.refl _
  | .seq op rest, a, b, h => by
    simp only [serialize] at h
    split at h
    · cases h
    · rename_i a1 h1
      exact (serializeOp_quiet D op a a1 h1).trans (serialize_quiet D rest a1 b h)
end

end DatabaseArchive
end DataModel
end Seiscomp

namespace Seiscomp
namespace DataModel

theorem AttributeMap.column_of_find (m : AttributeMap) (k v : String)
    (h : AttributeMap.find m k = some (some v)) :
    ∃ i, (m.map (fun e => e.1)).get? i = some k ∧
      (m.map (fun e => e.2.getD "NULL")).get? i = some v := by
  induction m with
  | nil => simp [AttributeMap.find] at h
  | cons e rest ih =>
    obtain ⟨k0, v0⟩ := e
    by_cases hk : k0 = k
    · subst hk
      simp only [AttributeMap.find, if_true, Option.some.injEq] at h
      subst h
      exact ⟨0, by simp, by simp⟩
    · simp only [AttributeMap.find, hk, if_false] at h
      obtain ⟨i, h1, h2⟩ := ih h
      exact ⟨i + 1, by simpa using h1, by simpa using h2⟩

namespace DatabaseArchive

variable {σ : Type}

theorem insertRowSql_values (D : DatabaseInterface σ) (a : DatabaseArchive σ)
    (table : String) (attribs : AttributeMap) :
    a.insertRowSql D table attribs "" =
      "insert into " ++ table ++ "(" ++ AttributeMapper attribs ++ ") " ++ "values (" ++
        ValueMapper attribs ++ ")" := by
  simp [insertRowSql]

theorem publicObjectId_congr (D : DatabaseInterface σ) (a a1 b : DatabaseArchive σ)
    (publicId : String) (oid : OID) (h : a.publicObjectId D publicId = .ok (oid, a1))
    (hdb : b.db = a.db) (hcol : b.publicIDColumn = a.publicIDColumn) :
    ∃ s1 evs, a1 = { a with db := some s1, log := a.log ++ evs } ∧
      (∀ e ∈ evs, e.isQuery = true) ∧
      b.publicObjectId D publicId = .ok (oid, { b with db := some s1, log := b.log ++ evs }) := by
  obtain ⟨s, s1, evs, hs, hsel, h1⟩ := publicObjectId_ok D a a1 publicId oid h
  refine ⟨s1, evs, h1, selectOid_log D s s1 _ oid evs hsel, ?_⟩
  have hb : b.db = some s := by rw [hdb, hs]
  have hsql : b.publicObjectIdSql D publicId = a.publicObjectIdSql D publicId := by
    simp [publicObjectIdSql, hcol]
  rw [publicObjectId_eq D b publicId s hb, hsql, hsel]
  rfl

theorem db_of_dbExecute (D : DatabaseInterface σ) (a b : DatabaseArchive σ) (sql : String)
    (r : Bool) (h : a.dbExecute D sql = .ok (r, b)) :
    ∃ s, a.db = some s ∧ r = (D.execute s sql).1 ∧
      b = { a with db := some (D.execute s sql).2, log := a.log ++ [Event.execute sql r] } := by
  unfold dbExecute at h
  split at h
  · cases h
  · rename_i s hs
    cases h
    exact ⟨s, hs, rfl, rfl⟩

theorem dbExecute_of_db (D : DatabaseInterface σ) (a : DatabaseArchive σ) (sql : String)
    (s : σ) (hs : a.db = some s) :
    a.dbExecute D sql = .ok ((D.execute s sql).1,
      { a with db := some (D.execute s sql).2,
               log := a.log ++ [Event.execute sql (D.execute s sql).1] }) := by
  simp [dbExecute, hs]

theorem db_of_insertObject (D : DatabaseInterface σ) (a b : DatabaseArchive σ) (id : OID)
    (h : a.insertObject D = .ok (id, b)) : ∃ s, a.db = some s := by
  unfold insertObject at h
  split at h
  · cases h
  · rename_i ok a1 h1
    obtain ⟨s, hs, -⟩ := db_of_dbExecute D a a1 _ ok h1
    exact ⟨s, hs⟩

theorem db_of_writeInserts (D : DatabaseInterface σ) (a a1 : DatabaseArchive σ)
    (object : Object) (parentId : String) (objectId : OID)
    (h : a.writeInserts D object parentId = .ok (objectId, a1)) : ∃ s, a.db = some s := by
  unfold writeInserts at h
  split at h
  · split at h
    · cases h
    · rename_i existing a0 h0
      obtain ⟨s, hs⟩ := db_of_publicObjectId D (a.writeEntered object parentId) a0 _ existing h0
      exact ⟨s, hs⟩
  · obtain ⟨s, hs⟩ := db_of_insertObject D (a.writeEntered object parentId) a1 objectId h
    exact ⟨s, hs⟩

theorem write_of_inserts (D : DatabaseInterface σ) (a a1 : DatabaseArchive σ)
    (object : Object) (parentId : String) (objectId : OID)
    (h : a.writeInserts D object parentId = .ok (objectId, a1)) (hoid : objectId ≠ 0) :
    a.write D object parentId = a1.writeObjectRow D object parentId objectId := by
  obtain ⟨s, hs⟩ := db_of_writeInserts D a a1 object parentId objectId h
  unfold writeInserts at h
  unfold write
  simp only [validInterface, hs, Option.isSome_some, Bool.not_true, Bool.false_eq_true,
    if_false]
  split at h
  · split at h
    · cases h
    · rename_i existing a0 h0
      split at h
      · cases h; exact absurd rfl hoid
      · rename_i hex
        rw [if_neg hex, h]
        exact if_neg hoid
  · rw [h]
    exact if_neg hoid

theorem writeInserts_quiet (D : DatabaseInterface σ) (a a1 : DatabaseArchive σ)
    (object : Object) (parentId : String) (objectId : OID)
    (h : a.writeInserts D object parentId = .ok (objectId, a1)) :
    Quiet (a.writeEntered object parentId) a1 := by
  unfold writeInserts at h
  split at h
  · split at h
    · cases h
    · rename_i existing a0 h0
      have q0 := publicObjectId_quiet D _ a0 _ existing h0
      split at h
      · cases h; exact q0
      · exact q0.trans (insertPublicObject_quiet D a0 a1 _ objectId h)
  · exact insertObject_quiet D _ a1 objectId h

theorem publicObjectId_transfer (D : DatabaseInterface σ) (a a1 b : DatabaseArchive σ)
    (publicId : String) (oid : OID) (h : a.publicObjectId D publicId = .ok (oid, a1))
    (hdb : b.db = a.db) (hcol : b.publicIDColumn = a.publicIDColumn) (hlog : b.log = a.log) :
    ∃ b1 s1, b.publicObjectId D publicId = .ok (oid, b1) ∧
      b1.db = some s1 ∧ b1.log = a1.log ∧
      b1.objectIdCache = b.objectIdCache ∧ b1.rootAttributes = b.rootAttributes ∧
      b1.objectAttributes = b.objectAttributes ∧
      ∃ evs, a1.log = a.log ++ evs ∧ ∀ e ∈ evs, e.isQuery = true := by
  obtain ⟨s1, evs, h1, hq, hb⟩ := publicObjectId_congr D a a1 b publicId oid h hdb hcol
  refine ⟨{ b with db := some s1, log := b.log ++ evs }, s1, hb, rfl, ?_, rfl, rfl, rfl,
    evs, ?_, hq⟩
  · subst h1; simp [hlog]
  · subst h1; rfl

theorem dbExecute_total (D : DatabaseInterface σ) (a : DatabaseArchive σ) (sql : String)
    (s : σ) (hs : a.db = some s) :
    ∃ r b s1, a.dbExecute D sql = .ok (r, b) ∧ b.db = some s1 ∧
      b.log = a.log ++ [Event.execute sql r] ∧ b.objectIdCache = a.objectIdCache := by
  rw [dbExecute_of_db D a sql s hs]
  exact ⟨_, _, _, rfl, rfl, rfl, rfl⟩

theorem insertWithParent_root (D : DatabaseInterface σ) (b : DatabaseArchive σ)
    (className : String) (p : OID) (s : σ) (hdb : b.db = some s)
    (hroot : b.objectAttributes = AttrTarget.root) :
    ∃ ok b1 s1, b.insertWithParent D className p = .ok (ok, b1) ∧
      b1.db = some s1 ∧
      b1.log = b.log ++ [Event.execute
        ("insert into " ++ className ++ "(" ++
          AttributeMapper (AttributeMap.assign b.rootAttributes "_parent_oid" (some (toString p)))
          ++ ") " ++ "values (" ++
          ValueMapper (AttributeMap.assign b.rootAttributes "_parent_oid" (some (toString p)))
          ++ ")") ok] ∧
      b1.objectIdCache = b.objectIdCache := by
  obtain ⟨r, b1, s1, hex, hdb1, hlog1, hc1⟩ := dbExecute_total D
    ({ b with rootAttributes :=
        (AttributeMap.assign b.rootAttributes "_parent_oid" (some (toString p))) })
    (insertRowSql D
      ({ b with rootAttributes :=
        (AttributeMap.assign b.rootAttributes "_parent_oid" (some (toString p))) })
      className
      (AttributeMap.assign b.rootAttributes "_parent_oid" (some (toString p))) "") s hdb
  refine ⟨r, b1, s1, ?_, hdb1, ?_, hc1⟩
  · have hcur : currentAttributes
        ({ b with rootAttributes :=
          (AttributeMap.assign b.rootAttributes "_parent_oid" (some (toString p))) }) =
        .ok (AttributeMap.assign b.rootAttributes "_parent_oid" (some (toString p))) := by
      simp only [currentAttributes, hroot]
    unfold insertWithParent
    rw [hcur]
    exact hex
  · rw [hlog1, insertRowSql_values]

theorem deleteObject_of_db (D : DatabaseInterface σ) (b : DatabaseArchive σ) (id : OID)
    (s : σ) (hdb : b.db = some s) :
    ∃ r b1, b.deleteObject D id = .ok (r, b1) ∧
      b1.log = b.log ++ [Event.execute (deleteObjectSql id) r] ∧
      b1.objectIdCache = b.objectIdCache := by
  obtain ⟨r, b1, s1, hex, -, hlog1, hc1⟩ := dbExecute_total D b (deleteObjectSql id) s hdb
  exact ⟨r, b1, hex, hlog1, hc1⟩

theorem writeEntered_cache (a : DatabaseArchive σ) (object : Object) (parentId : String) :
    (a.writeEntered object parentId).objectIdCache = a.objectIdCache := rfl

theorem writeEntered_bulkTrace (a : DatabaseArchive σ) (object : Object)
    (parentId : String) :
    bulkTrace (a.writeEntered object parentId).log =
      bulkTrace a.log ++ [Event.archiveWrite object.id parentId] := by
  simp [writeEntered, writeInit, resetAttributePrefix, bulkTrace, Event.isTransaction,
    Event.isArchiveCall]

end DatabaseArchive
end DataModel
end Seiscomp

namespace Seiscomp
namespace DataModel

/-- C2: `write(child, parentId)` for a child without linked parent.  When the
inserts for the child itself gave it the oid `objectId`, its serialization
succeeded (it ended valid and back at the attribute map of the object itself,
every child table it opened being closed: `write` stores `_oid` and
`_parent_oid` in `_rootAttributes` and inserts `*_objectAttributes`), and the
lookup of the non-empty `parentId` then returns an oid `p > 0`, the next call
on the driver is the insert into the table of the child's class,
`insert into <class>(c1,...,cn) values (r1,...,rn)` with commas between the
columns and between the values.  Column `_parent_oid` stands at a position at
which the value list has the decimal rendering of `p`, column `_oid` at one
with that of `objectId`, and every other attribute the serialization has
written is carried with its value (`NULL` when absent).  `write` returns what
that insert returns, and after a rejected insert only the delete of the
`Object` row follows. -/
theorem C2_write_sets_parent_oid {σ : Type} (D : DatabaseInterface σ)
    (a a1 a2 a3 : DatabaseArchive σ) (child : Object) (parentId : String) (objectId p : OID)
    (hpar : child.parent = none) (hne : parentId ≠ "")
    (hins : a.writeInserts D child parentId = .ok (objectId, a1)) (hoid : objectId ≠ 0)
    (hser : DatabaseArchive.serialize D child.serialize { a1 with isReading := false } = .ok a2)
    (hvalid : a2.validObject = true) (hroot : a2.objectAttributes = AttrTarget.root)
    (hlook : a2.publicObjectId D parentId = .ok (p, a3)) (hp : p > 0) :
    ∃ (ok : Bool) (a' : DatabaseArchive σ) (cols vals : List String) (rest : List Event),
      a.write D child parentId = .ok (ok, a') ∧
      a'.log = a3.log ++ Event.execute
        ("insert into " ++ child.className ++ "(" ++ String.intercalate "," cols ++
          ") values (" ++ String.intercalate "," vals ++ ")") ok :: rest ∧
      ((ok = true ∧ rest = []) ∨
        (ok = false ∧
          ∃ r, rest = [Event.execute ("delete from Object where _oid=" ++ toString objectId) r])) ∧
      cols.length = vals.length ∧
      (∃ i, cols.get? i = some "_parent_oid" ∧ vals.get? i = some (toString p)) ∧
      (∃ i, cols.get? i = some "_oid" ∧ vals.get? i = some (toString objectId)) ∧
      (∀ (c : String) (v : Option String), a2.rootAttributes.find c = some v →
        c ≠ "_oid" → c ≠ "_parent_oid" →
        ∃ i, cols.get? i = some c ∧ vals.get? i = some (v.getD "NULL")) := by
  rw [DatabaseArchive.write_of_inserts D a a1 child parentId objectId hins hoid]
  have hp0 : p ≠ 0 := Nat.pos_iff_ne_zero.mp hp
  obtain ⟨b3, s1, hlook', hdb3, hlog3, -, hroot3, hcur3, -⟩ :=
    DatabaseArchive.publicObjectId_transfer D a2 a3
      ({ a2 with rootAttributes :=
          (AttributeMap.assign a2.rootAttributes "_oid" (some (toString objectId))) })
      parentId p hlook rfl rfl rfl
  dsimp only at hroot3 hcur3
  obtain ⟨ok, b4, s4, hrow, hdb4, hlog4, -⟩ :=
    DatabaseArchive.insertWithParent_root D b3 child.className p s1 hdb3 (hcur3.trans hroot)
  rw [hroot3, hlog3] at hlog4
  have htext : ∀ m : AttributeMap,
      "insert into " ++ child.className ++ "(" ++ AttributeMapper m ++ ") " ++ "values (" ++
        ValueMapper m ++ ")" =
      "insert into " ++ child.className ++ "(" ++
        String.intercalate "," (m.map (fun e => e.1)) ++ ") values (" ++
        String.intercalate "," (m.map (fun e => e.2.getD "NULL")) ++ ")" := by
    intro m
    unfold AttributeMapper ValueMapper
    rw [joinWith_eq_intercalate, joinWith_eq_intercalate]
    simp only [String.append_assoc]
    rfl
  rw [htext] at hlog4
  have hfp : AttributeMap.find
      (AttributeMap.assign
        (AttributeMap.assign a2.rootAttributes "_oid" (some (toString objectId)))
        "_parent_oid" (some (toString p))) "_parent_oid" = some (some (toString p)) :=
    AttributeMap.find_assign_self _ _ _
  have hfo : AttributeMap.find
      (AttributeMap.assign
        (AttributeMap.assign a2.rootAttributes "_oid" (some (toString objectId)))
        "_parent_oid" (some (toString p))) "_oid" = some (some (toString objectId)) := by
    rw [AttributeMap.find_assign_ne _ _ _ _ (by decide)]
    exact AttributeMap.find_assign_self _ _ _
  have hother : ∀ (c : String) (v : Option String), a2.rootAttributes.find c = some v →
      c ≠ "_oid" → c ≠ "_parent_oid" →
      ∃ i, ((AttributeMap.assign
          (AttributeMap.assign a2.rootAttributes "_oid" (some (toString objectId)))
          "_parent_oid" (some (toString p))).map (fun e => e.1)).get? i = some c ∧
        ((AttributeMap.assign
          (AttributeMap.assign a2.rootAttributes "_oid" (some (toString objectId)))
          "_parent_oid" (some (toString p))).map (fun e => e.2.getD "NULL")).get? i =
          some (v.getD "NULL") := by
    intro c v hc h1 h2
    apply column_of_find_value
    rw [AttributeMap.find_assign_ne _ _ _ _ h2, AttributeMap.find_assign_ne _ _ _ _ h1]
    exact hc
  have hnv : (!a2.validObject) = false := by simp [hvalid]
  cases ok with
  | true =>
    have hw : DatabaseArchive.writeObjectRow D a1 child parentId objectId =
        Except.ok (true,
          { b4.registerId child.id objectId with isReading := true, validObject := true }) := by
      simp only [DatabaseArchive.writeObjectRow, hser, hnv, Bool.false_eq_true, if_false,
        DatabaseArchive.writeClassRow, hpar, hne, hlook', hp0, ne_eq, not_false_eq_true,
        if_true, hrow]
    exact ⟨true, _, _, _, [], hw, hlog4, Or.inl ⟨rfl, rfl⟩, by simp,
      AttributeMap.column_of_find _ _ _ hfp, AttributeMap.column_of_find _ _ _ hfo, hother⟩
  | false =>
    obtain ⟨r, b5, hdel, hlog5, -⟩ := DatabaseArchive.deleteObject_of_db D b4 objectId s4 hdb4
    have hw : DatabaseArchive.writeObjectRow D a1 child parentId objectId =
        Except.ok (false, { b5 with isReading := true, validObject := false }) := by
      simp only [DatabaseArchive.writeObjectRow, hser, hnv, Bool.false_eq_true, if_false,
        DatabaseArchive.writeClassRow, hpar, hne, hlook', hp0, ne_eq, not_false_eq_true,
        if_true, hrow, hdel]
    refine ⟨false, _, _, _, [Event.execute (DatabaseArchive.deleteObjectSql objectId) r],
      hw, ?_, Or.inr ⟨rfl, r, rfl⟩, by simp,
      AttributeMap.column_of_find _ _ _ hfp, AttributeMap.column_of_find _ _ _ hfo, hother⟩
    show b5.log = _
    rw [hlog5, hlog4]
    simp

end DataModel
end Seiscomp

namespace Seiscomp
namespace DataModel
namespace DatabaseArchive

variable {σ : Type}

theorem lookup_filter_self (l : List (Nat × OID)) (o : Nat) :
    (l.filter (fun e => e.1 != o)).lookup o = none := by
  induction l with
  | nil => rfl
  | cons e rest ih =>
    obtain ⟨k, v⟩ := e
    by_cases hk : k = o
    · have hf : ((k, v).1 != o) = false := by simp [hk]
      rw [List.filter_cons_of_neg (by simp [hk])]
      exact ih
    · have hb : (o == k) = false := by simpa using fun h => hk h.symm
      rw [List.filter_cons_of_pos (by simpa using hk)]
      simp only [List.lookup, hb]
      exact ih

theorem lookup_filter_ne (l : List (Nat × OID)) (o o' : Nat) (h : o' ≠ o) :
    (l.filter (fun e => e.1 != o)).lookup o' = l.lookup o' := by
  induction l with
  | nil => rfl
  | cons e rest ih =>
    obtain ⟨k, v⟩ := e
    by_cases hk : k = o
    · subst hk
      have hb : (o' == k) = false := by simpa using h
      rw [List.filter_cons_of_neg (by simp)]
      simp only [List.lookup, hb]
      exact ih
    · rw [List.filter_cons_of_pos (by simpa using hk)]
      by_cases hk' : o' = k
      · subst hk'
        simp [List.lookup]
      · have hb : (o' == k) = false := by simpa using hk'
        simp only [List.lookup, hb]
        exact ih

theorem getCachedId_registerId (a : DatabaseArchive σ) (o : Nat) (id : OID) :
    (a.registerId o id).getCachedId o = id := by
  simp [getCachedId, registerId, List.lookup]

theorem getCachedId_removeId_self (a : DatabaseArchive σ) (o : Nat) :
    (a.removeId o).getCachedId o = INVALID_OID := by
  simp [getCachedId, removeId, lookup_filter_self]

theorem getCachedId_removeId_ne (a : DatabaseArchive σ) (o o' : Nat) (h : o' ≠ o) :
    (a.removeId o).getCachedId o' = a.getCachedId o' := by
  simp [getCachedId, removeId, lookup_filter_ne _ _ _ h]

theorem insertObject_lastInsertId (D : DatabaseInterface σ) (b b1 : DatabaseArchive σ)
    (id : OID) (h : b.insertObject D = .ok (id, b1)) (hid : id ≠ 0) :
    ∃ s, b.db = some s ∧ (D.execute s (insertObjectSql D)).1 = true ∧
      id = D.lastInsertId (D.execute s (insertObjectSql D)).2 Object_ClassName := by
  unfold insertObject at h
  split at h
  · cases h
  · rename_i ok a1 h1
    obtain ⟨s, hs, hok, ha1⟩ := db_of_dbExecute D b a1 _ ok h1
    split at h
    · cases h; exact absurd rfl hid
    · rename_i hnot
      split at h
      · cases h
      · rename_i id' hl
        obtain ⟨s', hs', hid'⟩ := dbLastInsertId_db D a1 _ id' hl
        cases h
        subst ha1
        cases hs'
        refine ⟨s, hs, ?_, hid'⟩
        rw [← hok]
        simpa using hnot

theorem insertPublicObject_lastInsertId (D : DatabaseInterface σ) (b b1 : DatabaseArchive σ)
    (publicId : String) (id : OID) (h : b.insertPublicObject D publicId = .ok (id, b1))
    (hid : id ≠ 0) :
    ∃ s, b.db = some s ∧ (D.execute s (insertObjectSql D)).1 = true ∧
      id = D.lastInsertId (D.execute s (insertObjectSql D)).2 Object_ClassName := by
  unfold insertPublicObject at h
  split at h
  · cases h; exact absurd rfl hid
  · split at h
    · cases h
    · rename_i objectId a1 h1
      split at h
      · cases h; exact absurd rfl hid
      · rename_i hne
        split at h
        · cases h
        · split at h
          · split at h
            · cases h
            · cases h; exact absurd rfl hid
          · cases h
            exact insertObject_lastInsertId D b a1 id h1 hne

theorem writeObjectRow_true (D : DatabaseInterface σ) (a1 a' : DatabaseArchive σ)
    (object : Object) (parentId : String) (objectId : OID)
    (h : a1.writeObjectRow D object parentId objectId = .ok (true, a')) :
    a'.getCachedId object.id = objectId := by
  unfold writeObjectRow at h
  split at h
  · cases h
  · split at h
    · split at h
      · cases h
      · cases h
    · split at h
      · cases h
      · split at h
        · cases h
          exact getCachedId_registerId _ _ _
        · split at h
          · cases h
          · rename_i hs _ _ _ _
            cases h
            exact absurd rfl hs

end DatabaseArchive

/-- C5: after a `write(x, p)` that returned true, `getCachedId(x)` is the oid
that `lastInsertId` reports right after the successful insert of the `Object`
row for `x` (sent in the archive `objectInsertState` describes); and for
every archive `c`, `onObjectDestroyed(o)` and `removeId(o)` leave
`getCachedId(o)` at `INVALID_OID` and the cached id of every other object as
it was. -/
theorem C5_identity_cache_consistency {σ : Type} (D : DatabaseInterface σ)
    (a a' : DatabaseArchive σ) (x : Object) (p : String)
    (h : a.write D x p = .ok (true, a')) :
    (∃ b s, a.objectInsertState D x p = .ok b ∧ b.db = some s ∧
      (D.execute s (DatabaseArchive.insertObjectSql D)).1 = true ∧
      a'.getCachedId x.id =
        D.lastInsertId (D.execute s (DatabaseArchive.insertObjectSql D)).2 Object_ClassName) ∧
    (∀ (c : DatabaseArchive σ) (o : Nat),
      (c.onObjectDestroyed o).getCachedId o = INVALID_OID ∧
      (c.removeId o).getCachedId o = INVALID_OID ∧
      ∀ o', o' ≠ o →
        (c.onObjectDestroyed o).getCachedId o' = c.getCachedId o' ∧
        (c.removeId o).getCachedId o' = c.getCachedId o') := by
  refine ⟨?_, fun c o => ⟨DatabaseArchive.getCachedId_removeId_self c o,
    DatabaseArchive.getCachedId_removeId_self c o, fun o' ho =>
      ⟨DatabaseArchive.getCachedId_removeId_ne c o o' ho,
        DatabaseArchive.getCachedId_removeId_ne c o o' ho⟩⟩⟩
  unfold DatabaseArchive.write at h
  split at h
  · cases h
  · unfold DatabaseArchive.objectInsertState
    split at h
    · split at h
      · cases h
      · rename_i existing a1 h1
        split at h
        · cases h
        · split at h
          · cases h
          · rename_i objectId a2 h2
            split at h
            · cases h
            · rename_i hne
              obtain ⟨s, hs, hok, hid⟩ :=
                DatabaseArchive.insertPublicObject_lastInsertId D a1 a2 _ objectId h2 hne
              refine ⟨a1, s, ?_, hs, hok, ?_⟩
              · simp [h1, Except.map]
              · rw [DatabaseArchive.writeObjectRow_true D a2 a' x p objectId h, hid]
    · split at h
      · cases h
      · rename_i objectId a1 h1
        split at h
        · cases h
        · rename_i hne
          obtain ⟨s, hs, hok, hid⟩ :=
            DatabaseArchive.insertObject_lastInsertId D _ a1 objectId h1 hne
          refine ⟨_, s, rfl, hs, hok, ?_⟩
          rw [DatabaseArchive.writeObjectRow_true D a1 a' x p objectId h, hid]

end DataModel
end Seiscomp

namespace Seiscomp
namespace DataModel

/-- C2 on the test database: the pick is written under the stored publicID
`evt`, whose oid is 7, and gets the oid 8; the class-table insert is `insert
into Pick(phase,time,time_ms,_oid,_parent_oid) values
('P','1704164645',123456,8,7)`. -/
theorem C2_write_sets_parent_oid_witness :
    (∃ (ok : Bool) (a' : DatabaseArchive TestDb) (cols vals : List String) (rest : List Event),
      testArchive.write testDriver testPick "evt" = .ok (ok, a') ∧
      a'.log = testPickParentFound.log ++ Event.execute
        ("insert into " ++ testPick.className ++ "(" ++ String.intercalate "," cols ++
          ") values (" ++ String.intercalate "," vals ++ ")") ok :: rest ∧
      ((ok = true ∧ rest = []) ∨
        (ok = false ∧
          ∃ r, rest = [Event.execute ("delete from Object where _oid=" ++ toString 8) r])) ∧
      cols.length = vals.length ∧
      (∃ i, cols.get? i = some "_parent_oid" ∧ vals.get? i = some (toString 7)) ∧
      (∃ i, cols.get? i = some "_oid" ∧ vals.get? i = some (toString 8)) ∧
      (∀ (c : String) (v : Option String),
        (testPickSerialized "evt").rootAttributes.find c = some v →
        c ≠ "_oid" → c ≠ "_parent_oid" →
        ∃ i, cols.get? i = some c ∧ vals.get? i = some (v.getD "NULL"))) ∧
    (testArchive.write testDriver testPick "evt").map (fun r => (r.1, r.2.log)) =
      .ok (true,
        [Event.archiveWrite 100 "evt",
         Event.execute "insert into Object(_oid) values(DEFAULT)" true,
         Event.beginQuery "select _oid from PublicObject where publicID='evt'" true,
         Event.fetchRow true,
         Event.endQuery,
         Event.execute
           ("insert into Pick(phase,time,time_ms,_oid,_parent_oid) " ++
             "values ('P','1704164645',123456,8,7)") true]) :=
  ⟨C2_write_sets_parent_oid testDriver testArchive (testPickInserted "evt")
    (testPickSerialized "evt") testPickParentFound testPick "evt" 8 7 rfl (by decide)
    rfl (by decide) rfl rfl rfl rfl (by decide), by decide!⟩

/-- C3: `write(child, parentId)` for a child without linked parent.  When the
inserts for the child itself gave it the oid `objectId`, its serialization
ended valid, and the lookup of the non-empty `parentId` then yields no oid,
`write` returns false; after the serialization the driver sees the calls of
that lookup, none of them an `execute`, and then exactly one statement,
`delete from Object where _oid=<objectId>`, so that no row is inserted into
the table of the child's class; and the identity cache is what it was before
the `write`. -/
theorem C3_write_unresolved_parent {σ : Type} (D : DatabaseInterface σ)
    (a a1 a2 a3 : DatabaseArchive σ) (child : Object) (parentId : String) (objectId : OID)
    (hpar : child.parent = none) (hne : parentId ≠ "")
    (hins : a.writeInserts D child parentId = .ok (objectId, a1)) (hoid : objectId ≠ 0)
    (hser : DatabaseArchive.serialize D child.serialize { a1 with isReading := false } = .ok a2)
    (hvalid : a2.validObject = true)
    (hlook : a2.publicObjectId D parentId = .ok (INVALID_OID, a3)) :
    ∃ a' r evs,
      a.write D child parentId = .ok (false, a') ∧
      a3.log = a2.log ++ evs ∧ (∀ e ∈ evs, e.isExecute = false) ∧
      a'.log = a3.log ++ [Event.execute ("delete from Object where _oid=" ++ toString objectId) r] ∧
      a'.objectIdCache = a.objectIdCache := by
  rw [DatabaseArchive.write_of_inserts D a a1 child parentId objectId hins hoid]
  obtain ⟨b3, s1, hlook', hdb3, hlog3, hc3, -, -, evs, hevs, hq⟩ :=
    DatabaseArchive.publicObjectId_transfer D a2 a3
      ({ a2 with rootAttributes :=
          (AttributeMap.assign a2.rootAttributes "_oid" (some (toString objectId))) })
      parentId INVALID_OID hlook rfl rfl rfl
  dsimp only at hc3
  obtain ⟨r, b5, hdel, hlog5, hc5⟩ := DatabaseArchive.deleteObject_of_db D b3 objectId s1 hdb3
  have hnv : (!a2.validObject) = false := by simp [hvalid]
  have hw : DatabaseArchive.writeObjectRow D a1 child parentId objectId =
      Except.ok (false, { b5 with isReading := true, validObject := false }) := by
    simp only [DatabaseArchive.writeObjectRow, hser, hnv, Bool.false_eq_true, if_false,
      DatabaseArchive.writeClassRow, hpar, hne, hlook', INVALID_OID, ne_eq,
      not_false_eq_true, if_true, not_true_eq_false, hdel]
  refine ⟨_, r, evs, hw, hevs,
    fun e he => DatabaseArchive.isExecute_of_isQuery e (hq e he), ?_, ?_⟩
  · show b5.log = _
    rw [hlog5, hlog3]
    rfl
  · show b5.objectIdCache = _
    rw [hc5, hc3]
    have q1 := DatabaseArchive.writeInserts_quiet D a a1 child parentId objectId hins
    have q2 := DatabaseArchive.serialize_quiet D child.serialize _ a2 hser
    exact q2.1.trans q1.1

/-- C3 on the test database: the pick is written under the publicID `new`,
which is not stored. -/
theorem C3_write_unresolved_parent_witness :
    ∃ a' r evs,
      testArchive.write testDriver testPick "new" = .ok (false, a') ∧
      testPickParentMissing.log = (testPickSerialized "new").log ++ evs ∧
      (∀ e ∈ evs, e.isExecute = false) ∧
      a'.log = testPickParentMissing.log ++
        [Event.execute ("delete from Object where _oid=" ++ toString 8) r] ∧
      a'.objectIdCache = testArchive.objectIdCache :=
  C3_write_unresolved_parent testDriver testArchive (testPickInserted "new")
    (testPickSerialized "new") testPickParentMissing testPick "new" 8 rfl (by decide)
    rfl (by decide) rfl rfl rfl

/-- C5 on the test database: after the pick is written, its cached id is 8,
the id the database handed out for its `Object` row. -/
theorem C5_identity_cache_consistency_witness :
    (∃ b s, testArchive.objectInsertState testDriver testPick "evt" = .ok b ∧ b.db = some s ∧
      (testDriver.execute s (DatabaseArchive.insertObjectSql testDriver)).1 = true ∧
      testPickWritten.getCachedId testPick.id =
        testDriver.lastInsertId
          (testDriver.execute s (DatabaseArchive.insertObjectSql testDriver)).2
          Object_ClassName) ∧
    (∀ (c : DatabaseArchive TestDb) (o : Nat),
      (c.onObjectDestroyed o).getCachedId o = INVALID_OID ∧
      (c.removeId o).getCachedId o = INVALID_OID ∧
      ∀ o', o' ≠ o →
        (c.onObjectDestroyed o).getCachedId o' = c.getCachedId o' ∧
        (c.removeId o).getCachedId o' = c.getCachedId o') :=
  C5_identity_cache_consistency testDriver testArchive testPickWritten testPick "evt"
    (by decide!)

end DataModel
end Seiscomp

namespace Seiscomp
namespace DataModel

/-- C4 at a failing input: a public object with the fresh publicID `new`
whose serialization is invalid.  `write` returns false after it has inserted
the `Object` row and the `PublicObject` row with oid 8; the only statement
that follows is the delete of the `Object` row, and no delete from
`PublicObject` is sent, so that the `PublicObject` row stays without a row in
the class table. -/
theorem C4_write_leaves_publicObject_row :
    (testArchive.write testDriver testInvalid "").map (fun r => (r.1, r.2.log)) =
      .ok (false,
        [Event.archiveWrite 400 "",
         Event.beginQuery "select _oid from PublicObject where publicID='new'" true,
         Event.fetchRow false,
         Event.endQuery,
         Event.execute "insert into Object(_oid) values(DEFAULT)" true,
         Event.execute "insert into PublicObject(_oid,publicID) values(8,'new')" true,
         Event.execute "delete from Object where _oid=8" true]) ∧
    DatabaseArchive.deleteFromSql PublicObject_ClassName 8 = "delete from PublicObject where _oid=8" ∧
    ∀ r, Event.execute "delete from PublicObject where _oid=8" r ∉
        [Event.archiveWrite 400 "",
         Event.beginQuery "select _oid from PublicObject where publicID='new'" true,
         Event.fetchRow false,
         Event.endQuery,
         Event.execute "insert into Object(_oid) values(DEFAULT)" true,
         Event.execute "insert into PublicObject(_oid,publicID) values(8,'new')" true,
         Event.execute "delete from Object where _oid=8" true] := by
  refine ⟨by decide!, by decide!, ?_⟩
  intro r
  cases r <;> decide!

theorem Version.gt_of_major_minor (v : Version) (Major Minor : Nat)
    (h : Major < v.majorTag ∨ (v.majorTag = Major ∧ Minor < v.minorTag)) :
    Version.gt ⟨v.majorTag, v.minorTag, 0⟩ ⟨Major, Minor, 0⟩ = true := by
  rcases h with h | ⟨h1, h2⟩
  · simp [Version.gt, h]
  · simp [Version.gt, h1, h2]

/-- C6: `open(dsn)` on an archive whose driver is not connected, connects, and
reports a `Schema-Version` value that reads as a version whose (major, minor)
is greater than the (`Major`, `Minor`) the client is compiled for, returns
false; `errorMsg()` is `Database version v<major>.<minor> not supported by
client`, which contains `not supported`, and the archive holds no driver
afterwards. -/
theorem C6_open_refuses_newer_schema {σ : Type} (D : DatabaseInterface σ) (Major Minor : Nat)
    (a : DatabaseArchive σ) (dsn value : String) (s : σ) (v : Version)
    (hdb : a.db = some s) (hnc : D.isConnected s = false)
    (hconn : (D.connect s dsn).1 = true)
    (hbegin : (D.beginQuery (D.connect s dsn).2 DatabaseArchive.schemaVersionSql).1 = true)
    (hrow : (D.fetchRow
      (D.beginQuery (D.connect s dsn).2 DatabaseArchive.schemaVersionSql).2).1 = true)
    (hfield : D.getRowField (D.fetchRow
      (D.beginQuery (D.connect s dsn).2 DatabaseArchive.schemaVersionSql).2).2 0 = some value)
    (hparse : Version.fromString value = some v)
    (hnewer : Major < v.majorTag ∨ (v.majorTag = Major ∧ Minor < v.minorTag)) :
    ∃ a', a.open D Major Minor dsn = .ok (false, a') ∧
      a'.errorMsg = "Database version v" ++ toString v.majorTag ++ "." ++
        toString v.minorTag ++ " not supported by client" ∧
      (∃ pre post, a'.errorMsg = pre ++ "not supported" ++ post) ∧
      a'.validInterface = false ∧ a'.db = none := by
  have hgt := Version.gt_of_major_minor v Major Minor hnewer
  have hmsg : DatabaseArchive.notSupportedMsg ⟨v.majorTag, v.minorTag, 0⟩ =
      "Database version v" ++ toString v.majorTag ++ "." ++
        toString v.minorTag ++ " not supported by client" := by
    simp [DatabaseArchive.notSupportedMsg, String.append_assoc]
  have hsub : ∃ pre post, DatabaseArchive.notSupportedMsg ⟨v.majorTag, v.minorTag, 0⟩ =
      pre ++ "not supported" ++ post :=
    ⟨"Database version v" ++ (toString v.majorTag ++ "." ++ toString v.minorTag) ++ " ",
      " by client", by
        simp only [DatabaseArchive.notSupportedMsg, String.append_assoc]
        rfl⟩
  simp only [DatabaseArchive.open, hdb, hnc, hconn, Bool.false_eq_true, if_false, if_true,
    DatabaseArchive.fetchVersion, DatabaseArchive.dbBeginQuery, DatabaseArchive.dbFetchRow,
    DatabaseArchive.dbRowField, DatabaseArchive.dbEndQuery, hbegin, hrow, hfield, hparse,
    Bool.not_true, hgt, Except.map]
  refine ⟨_, rfl, ?_, ?_, ?_, ?_⟩
  · simp only [DatabaseArchive.close]
    split <;> exact hmsg
  · simp only [DatabaseArchive.close]
    split <;> exact hsub
  · simp only [DatabaseArchive.close, DatabaseArchive.validInterface]
    split <;> rfl
  · simp only [DatabaseArchive.close]
    split <;> rfl

/-- C6 on the test database: the schema reports `99.0.0`, the client is
compiled for v0.12. -/
theorem C6_open_refuses_newer_schema_witness :
    ∃ a', (DatabaseArchive.initial (some (testDb false "99.0.0")) []).open testDriver 0 12 "dsn"
        = .ok (false, a') ∧
      a'.errorMsg = "Database version v" ++ toString 99 ++ "." ++
        toString 0 ++ " not supported by client" ∧
      (∃ pre post, a'.errorMsg = pre ++ "not supported" ++ post) ∧
      a'.validInterface = false ∧ a'.db = none :=
  C6_open_refuses_newer_schema testDriver 0 12
    (DatabaseArchive.initial (some (testDb false "99.0.0")) []) "dsn" "99.0.0"
    (testDb false "99.0.0") ⟨99, 0, 0⟩ rfl rfl rfl rfl rfl rfl (by decide!) (by decide)

end DataModel
end Seiscomp

namespace Seiscomp
namespace DataModel
namespace DatabaseArchive

variable {σ : Type}

/-! ## The bulk view of `write` and `remove` -/

theorem resolveLinkedParent_bulkTrace (D : DatabaseInterface σ) (a b : DatabaseArchive σ)
    (parentObject : PublicObjectRef) (p : OID)
    (h : a.resolveLinkedParent D parentObject = .ok (p, b)) :
    bulkTrace b.log = bulkTrace a.log := by
  unfold resolveLinkedParent at h
  split at h
  · split at h
    · cases h
    · rename_i iParentId a1 h1
      have q1 := publicObjectId_quiet D a a1 _ iParentId h1
      split at h
      · cases h; exact q1.2
      · cases h; exact q1.2
  · cases h; rfl

theorem insertWithParent_bulkTrace (D : DatabaseInterface σ) (a b : DatabaseArchive σ)
    (className : String) (p : OID) (r : Bool)
    (h : a.insertWithParent D className p = .ok (r, b)) :
    bulkTrace b.log = bulkTrace a.log := by
  unfold insertWithParent at h
  split at h
  · cases h
  · exact (insertRow_quiet D _ b _ _ _ r h).2

theorem writeClassRow_bulkTrace (D : DatabaseInterface σ) (a b : DatabaseArchive σ)
    (object : Object) (parentId : String) (r : Bool)
    (h : a.writeClassRow D object parentId = .ok (r, b)) :
    bulkTrace b.log = bulkTrace a.log := by
  unfold writeClassRow at h
  split at h
  · split at h
    · cases h
    · rename_i iParentId a1 h1
      have q1 := resolveLinkedParent_bulkTrace D a a1 _ iParentId h1
      split at h
      · exact (insertWithParent_bulkTrace D a1 b _ _ r h).trans q1
      · cases h; exact q1
  · split at h
    · split at h
      · cases h
      · rename_i iParentId a1 h1
        have q1 := (publicObjectId_quiet D a a1 _ iParentId h1).2
        split at h
        · exact (insertWithParent_bulkTrace D a1 b _ _ r h).trans q1
        · cases h; exact q1
    · split at h
      · cases h
      · exact (insertRow_quiet D a b _ _ _ r h).2

theorem writeObjectRow_bulkTrace (D : DatabaseInterface σ) (a b : DatabaseArchive σ)
    (object : Object) (parentId : String) (objectId : OID) (r : Bool)
    (h : a.writeObjectRow D object parentId objectId = .ok (r, b)) :
    bulkTrace b.log = bulkTrace a.log := by
  unfold writeObjectRow at h
  split at h
  · cases h
  · rename_i a1 h1
    have q1 : bulkTrace a1.log = bulkTrace a.log := (serialize_quiet D _ _ a1 h1).2
    split at h
    · split at h
      · cases h
      · rename_i r2 a2 h2
        have q2 := (deleteObject_quiet D a1 a2 objectId r2 h2).2
        cases h
        exact q2.trans q1
    · split at h
      · cases h
      · rename_i success a2 h2
        have q2 := writeClassRow_bulkTrace D _ a2 object parentId success h2
        split at h
        · cases h
          exact q2.trans q1
        · split at h
          · cases h
          · rename_i r3 a3 h3
            have q3 := (deleteObject_quiet D a2 a3 objectId r3 h3).2
            cases h
            exact q3.trans (q2.trans q1)

theorem write_bulkTrace (D : DatabaseInterface σ) (a b : DatabaseArchive σ)
    (object : Object) (parentId : String) (r : Bool)
    (h : a.write D object parentId = .ok (r, b)) :
    bulkTrace b.log = bulkTrace a.log ++ [Event.archiveWrite object.id parentId] := by
  have he := writeEntered_bulkTrace a object parentId
  unfold write at h
  split at h
  · cases h
    simp [setValidity, bulkTrace, Event.isTransaction, Event.isArchiveCall]
  · split at h
    · split at h
      · cases h
      · rename_i existing a1 h1
        have q1 := (publicObjectId_quiet D _ a1 _ existing h1).2
        split at h
        · cases h; exact q1.trans he
        · split at h
          · cases h
          · rename_i objectId a2 h2
            have q2 := (insertPublicObject_quiet D a1 a2 _ objectId h2).2
            split at h
            · cases h; exact q2.trans (q1.trans he)
            · exact (writeObjectRow_bulkTrace D a2 b object parentId objectId r h).trans
                (q2.trans (q1.trans he))
    · split at h
      · cases h
      · rename_i objectId a1 h1
        have q1 := (insertObject_quiet D _ a1 objectId h1).2
        split at h
        · cases h
          simp only [setValidity]
          exact q1.trans he
        · exact (writeObjectRow_bulkTrace D a1 b object parentId objectId r h).trans
            (q1.trans he)

theorem objectIdQuery_bulkTrace (D : DatabaseInterface σ) (a b : DatabaseArchive σ)
    (object : Object) (iParentID id : OID)
    (h : a.objectIdQuery D object iParentID = .ok (id, b)) :
    bulkTrace b.log = bulkTrace a.log := by
  unfold objectIdQuery at h
  split at h
  · cases h
  · rename_i a1 h1
    have q1 : bulkTrace a1.log = bulkTrace a.log := (serialize_quiet D _ _ a1 h1).2
    split at h
    · cases h; exact q1
    · split at h
      · cases h
      · split at h
        · cases h
        · rename_i began a2 h2
          have q2 : bulkTrace a2.log = bulkTrace a1.log := (dbBeginQuery_quiet D _ a2 _ began h2).2
          split at h
          · cases h; exact q2.trans q1
          · split at h
            · cases h
            · rename_i row a3 h3
              have q3 := (dbFetchRow_quiet D a2 a3 row h3).2
              split at h
              · split at h
                · cases h
                · split at h
                  · cases h
                  · rename_i a4 h4
                    have q4 := (dbEndQuery_quiet D a3 a4 h4).2
                    cases h
                    exact q4.trans (q3.trans (q2.trans q1))
              · split at h
                · cases h
                · rename_i a4 h4
                  have q4 := (dbEndQuery_quiet D a3 a4 h4).2
                  cases h
                  exact q4.trans (q3.trans (q2.trans q1))

theorem objectId_bulkTrace (D : DatabaseInterface σ) (a b : DatabaseArchive σ)
    (object : Object) (parentID : String) (id : OID)
    (h : a.objectId D object parentID = .ok (id, b)) :
    bulkTrace b.log = bulkTrace a.log := by
  unfold objectId at h
  split at h
  · exact (publicObjectId_quiet D a b _ id h).2
  · split at h
    · split at h
      · split at h
        · cases h
        · rename_i iParentID a1 h1
          have q1 : bulkTrace a1.log = bulkTrace a.log :=
            (publicObjectId_quiet D _ a1 _ iParentID h1).2
          split at h
          · exact (objectIdQuery_bulkTrace D _ b object iParentID id h).trans q1
          · cases h; exact q1
      · exact objectIdQuery_bulkTrace D (objectIdInit a) b object _ id h
    · split at h
      · split at h
        · cases h
        · rename_i iParentID a1 h1
          have q1 : bulkTrace a1.log = bulkTrace a.log :=
            (publicObjectId_quiet D _ a1 _ iParentID h1).2
          split at h
          · exact (objectIdQuery_bulkTrace D a1 b object iParentID id h).trans q1
          · cases h; exact q1
      · cases h; rfl

theorem removeRows_bulkTrace (D : DatabaseInterface σ) (a b : DatabaseArchive σ)
    (object : Object) (objectID : OID) (r : Bool)
    (h : a.removeRows D object objectID = .ok (r, b)) :
    bulkTrace b.log = bulkTrace a.log := by
  unfold removeRows at h
  split at h
  · cases h
  · rename_i r1 a1 h1
    have q1 := (dbExecute_quiet D a a1 _ r1 h1).2
    split at h
    · cases h
    · rename_i r2 a2 h2
      have q2 : bulkTrace a2.log = bulkTrace a1.log := by
        split at h2
        · exact (dbExecute_quiet D a1 a2 _ r2 h2).2
        · cases h2; rfl
      split at h
      · cases h
      · rename_i r3 a3 h3
        have q3 := (deleteObject_quiet D a2 a3 objectID r3 h3).2
        cases h
        exact q3.trans (q2.trans q1)

theorem remove_bulkTrace (D : DatabaseInterface σ) (a b : DatabaseArchive σ)
    (object : Object) (parentID : String) (r : Bool)
    (h : a.remove D object parentID = .ok (r, b)) :
    bulkTrace b.log = bulkTrace a.log ++ [Event.archiveRemove object.id parentID] := by
  have he : bulkTrace (a.log ++ [Event.archiveRemove object.id parentID]) =
      bulkTrace a.log ++ [Event.archiveRemove object.id parentID] := by
    simp [bulkTrace, Event.isTransaction, Event.isArchiveCall]
  unfold remove at h
  split at h
  · cases h
    simp only [setValidity]
    exact he
  · split at h
    · split at h
      · cases h
      · rename_i objectID a1 h1
        have q1 : bulkTrace a1.log = _ := objectId_bulkTrace D _ a1 object parentID objectID h1
        split at h
        · cases h; exact q1.trans he
        · exact (removeRows_bulkTrace D a1 b object objectID r h).trans (q1.trans he)
    · exact (removeRows_bulkTrace D _ b object _ r h).trans he

end DatabaseArchive
end DataModel
end Seiscomp

namespace Seiscomp
namespace DataModel

/-! ## The bulk writer -/

theorem bulkTrace_snoc_start (l : List Event) :
    bulkTrace (l ++ [Event.start]) = bulkTrace l ++ [Event.start] := by
  simp [bulkTrace, Event.isTransaction]

theorem bulkTrace_snoc_commit (l : List Event) :
    bulkTrace (l ++ [Event.commit]) = bulkTrace l ++ [Event.commit] := by
  simp [bulkTrace, Event.isTransaction]

theorem bulkTrace_snoc_rollback (l : List Event) :
    bulkTrace (l ++ [Event.rollback]) = bulkTrace l ++ [Event.rollback] := by
  simp [bulkTrace, Event.isTransaction]

namespace DatabaseArchive

variable {σ : Type}

theorem dbStart_bulkTrace (D : DatabaseInterface σ) (a b : DatabaseArchive σ)
    (h : a.dbStart D = .ok b) : bulkTrace b.log = bulkTrace a.log ++ [Event.start] := by
  unfold dbStart at h
  split at h
  · cases h
  · cases h; exact bulkTrace_snoc_start _

theorem dbCommit_bulkTrace (D : DatabaseInterface σ) (a b : DatabaseArchive σ)
    (h : a.dbCommit D = .ok b) : bulkTrace b.log = bulkTrace a.log ++ [Event.commit] := by
  unfold dbCommit at h
  split at h
  · cases h
  · cases h; exact bulkTrace_snoc_commit _

theorem dbRollback_bulkTrace (D : DatabaseInterface σ) (a b : DatabaseArchive σ)
    (h : a.dbRollback D = .ok b) : bulkTrace b.log = bulkTrace a.log ++ [Event.rollback] := by
  unfold dbRollback at h
  split at h
  · cases h
  · cases h; exact bulkTrace_snoc_rollback _

end DatabaseArchive

namespace DatabaseObjectWriter

variable {σ : Type}

/-- What one `write` of the bulk writer adds to the bulk view of the log. -/
theorem write_spec (D : DatabaseInterface σ) (w w1 : DatabaseObjectWriter σ) (object : Object)
    (r : Bool) (h : write D w object = .ok (r, w1)) :
    w1.batchSize = w.batchSize ∧ w1.addObjects = w.addObjects ∧ w1.count = w.count + 1 ∧
    w1.errors = w.errors + (if r then 0 else 1) ∧
    bulkTrace w1.archive.log = bulkTrace w.archive.log ++
      (if w.batchSize ≤ 1 then nodeBracket w object r
       else w.archiveCall object ::
        (if r = true ∧ ((w.count + 1 : Nat) : Int) % w.batchSize = 0
         then [Event.commit, Event.start] else [])) := by
  unfold write at h
  split at h
  · cases h
  · rename_i a1 h1
    split at h
    · cases h
    · rename_i result a2 h2
      have q2 : bulkTrace a2.log = bulkTrace a1.log ++ [w.archiveCall object] := by
        unfold archiveCall
        split at h2
        · rename_i hadd
          rw [if_pos hadd]
          exact DatabaseArchive.write_bulkTrace D a1 a2 object _ result h2
        · rename_i hadd
          rw [if_neg hadd]
          exact DatabaseArchive.remove_bulkTrace D a1 a2 object _ result h2
      by_cases hB : w.batchSize ≤ 1
      · simp only [hB, if_true] at h h1 ⊢
        have q1 := DatabaseArchive.dbStart_bulkTrace D _ a1 h1
        split at h
        · split at h
          · cases h
          · rename_i hres a3 h3
            have q3 := DatabaseArchive.dbRollback_bulkTrace D a2 a3 h3
            cases h
            refine ⟨rfl, rfl, rfl, by simp, ?_⟩
            show bulkTrace a3.log = _
            rw [q3, q2, q1]
            simp [nodeBracket]
        · split at h
          · cases h
          · rename_i hres a3 h3
            have q3 := DatabaseArchive.dbCommit_bulkTrace D a2 a3 h3
            cases h
            refine ⟨rfl, rfl, rfl, by simp, ?_⟩
            show bulkTrace a3.log = _
            rw [q3, q2, q1]
            simp [nodeBracket]
      · simp only [hB, if_false] at h h1 ⊢
        cases h1
        split at h
        · cases h
          refine ⟨rfl, rfl, rfl, by simp, ?_⟩
          show bulkTrace a2.log = _
          rw [q2, if_neg (fun hc => Bool.false_ne_true hc.1)]
        · rename_i hres
          split at h
          · cases h
          · rename_i a3 h3
            cases h
            refine ⟨rfl, rfl, rfl, by simp, ?_⟩
            show bulkTrace a3.log = _
            split at h3
            · rename_i hmod
              split at h3
              · cases h3
              · rename_i a4 h4
                have q4 := DatabaseArchive.dbCommit_bulkTrace D a2 a4 h4
                have q5 := DatabaseArchive.dbStart_bulkTrace D a4 a3 h3
                rw [q5, q4, q2, if_pos ⟨rfl, hmod⟩]
                simp
            · rename_i hmod
              cases h3
              rw [q2, if_neg (fun hc => hmod hc.2)]

end DatabaseObjectWriter
end DataModel
end Seiscomp

namespace Seiscomp
namespace DataModel

theorem txTrace_bulkTrace (l : List Event) : txTrace (bulkTrace l) = txTrace l := by
  simp only [txTrace, bulkTrace, List.filter_filter]
  congr 1
  funext e
  cases e <;> rfl

theorem writtenObjects_bulkTrace (l : List Event) :
    writtenObjects (bulkTrace l) = writtenObjects l := by
  induction l with
  | nil => rfl
  | cons e rest ih =>
    cases e <;>
      simp_all [writtenObjects, bulkTrace, List.filter_cons, Event.isTransaction,
        Event.isArchiveCall]

theorem txTrace_append (l1 l2 : List Event) : txTrace (l1 ++ l2) = txTrace l1 ++ txTrace l2 := by
  simp [txTrace]

theorem writtenObjects_append (l1 l2 : List Event) :
    writtenObjects (l1 ++ l2) = writtenObjects l1 ++ writtenObjects l2 := by
  simp [writtenObjects]

theorem txTrace_of_bulkTrace (l1 l2 X : List Event)
    (h : bulkTrace l2 = bulkTrace l1 ++ X) : txTrace l2 = txTrace l1 ++ txTrace X := by
  rw [← txTrace_bulkTrace l2, h, txTrace_append, txTrace_bulkTrace]

theorem writtenObjects_of_bulkTrace (l1 l2 X : List Event)
    (h : bulkTrace l2 = bulkTrace l1 ++ X) :
    writtenObjects l2 = writtenObjects l1 ++ writtenObjects X := by
  rw [← writtenObjects_bulkTrace l2, h, writtenObjects_append, writtenObjects_bulkTrace]

theorem start_commitStarts (j : Nat) :
    Event.start :: (commitStarts j ++ [Event.commit]) = startCommitPairs (j + 1) := by
  induction j with
  | zero => rfl
  | succ j ih =>
    show Event.start :: Event.commit :: (Event.start :: (commitStarts j ++ [Event.commit])) = _
    rw [ih]
    rfl

theorem commitStarts_add (i j : Nat) :
    commitStarts i ++ commitStarts j = commitStarts (i + j) := by
  induction i with
  | zero => simp [commitStarts]
  | succ i ih =>
    have : i + 1 + j = (i + j) + 1 := by omega
    rw [this]
    simp [commitStarts, ih]

theorem count_commit_startCommitPairs (k : Nat) :
    (startCommitPairs k).count Event.commit = k ∧ (startCommitPairs k).count Event.start = k ∧
    (startCommitPairs k).count Event.rollback = 0 := by
  induction k with
  | zero => simp [startCommitPairs]
  | succ k ih =>
    obtain ⟨h1, h2, h3⟩ := ih
    refine ⟨?_, ?_, ?_⟩
    · simp [startCommitPairs, List.count_cons, h1]
    · simp [startCommitPairs, List.count_cons, h2]
    · simp [startCommitPairs, List.count_cons, h3]

namespace DatabaseObjectWriter

variable {σ : Type}

theorem count_rollback_nodeBracket (w : DatabaseObjectWriter σ) (object : Object) (r : Bool) :
    (nodeBracket w object r).count Event.rollback = if r then 0 else 1 := by
  cases r <;> cases hadd : w.addObjects <;>
    simp [nodeBracket, archiveCall, hadd, List.count_cons]

/-- The traversal with a batch size of at most 1: the bulk view of the log
grows by the brackets of the visited nodes, and the error counter by the
number of rollbacks. -/
theorem accept_brackets (D : DatabaseInterface σ) :
    ∀ (t : Traversal) (w w1 : DatabaseObjectWriter σ), accept D t w = .ok w1 →
      w.batchSize ≤ 1 →
      w1.batchSize = w.batchSize ∧
      bulkTrace w1.archive.log = bulkTrace w.archive.log ++ brackets D t w ∧
      w1.errors = w.errors + (brackets D t w).count Event.rollback
  | .done, w, w1, h, _ => by
    simp only [accept] at h
    cases h
    simp [brackets]
  | .visit object thenNext elseNext, w, w1, h, hB => by
    simp only [accept] at h
    simp only [brackets]
    split at h
    · cases h
    · rename_i r wx hx
      obtain ⟨hbs, -, -, herr, hlog⟩ := write_spec D w wx object r hx
      rw [if_pos hB] at hlog
      cases r with
      | true =>
        simp only [if_true] at h ⊢
        obtain ⟨h1, h2, h3⟩ := accept_brackets D thenNext wx w1 h (hbs ▸ hB)
        refine ⟨h1.trans hbs, ?_, ?_⟩
        · rw [h2, hlog, List.append_assoc]
        · rw [h3, herr, List.count_append, count_rollback_nodeBracket]
          simp
      | false =>
        simp only [Bool.false_eq_true, if_false] at h ⊢
        obtain ⟨h1, h2, h3⟩ := accept_brackets D elseNext wx w1 h (hbs ▸ hB)
        refine ⟨h1.trans hbs, ?_, ?_⟩
        · rw [h2, hlog, List.append_assoc]
        · rw [h3, herr, List.count_append, count_rollback_nodeBracket]
          simp
          omega

end DatabaseObjectWriter

/-- C9: a bulk operation with a batch size of at most 1 on an archive that has
a driver.  When it returns, the transaction calls and archive calls it added
to the log are exactly the brackets of the visited nodes, each `start`, the
archive `write` (or `remove`), then `commit` after a true result and
`rollback` after a false one, with nothing between or around them; and it
returns false exactly when one of the brackets ends in `rollback`, that is
when at least one node failed. -/
theorem C9_bulk_writer_single_transactions {σ : Type} (D : DatabaseInterface σ)
    (w w' : DatabaseObjectWriter σ) (t : Traversal) (parentID : String) (result : Bool)
    (hB : w.batchSize ≤ 1) (hdriver : w.archive.validInterface = true)
    (h : w.call D t parentID = .ok (result, w')) :
    bulkTrace w'.archive.log = bulkTrace w.archive.log ++
      DatabaseObjectWriter.brackets D t { w with parentID := parentID, errors := 0, count := 0 } ∧
    (result = false ↔ Event.rollback ∈
      DatabaseObjectWriter.brackets D t { w with parentID := parentID, errors := 0, count := 0 }) := by
  have hnB : ¬ w.batchSize > 1 := by omega
  simp only [DatabaseObjectWriter.call, hdriver, Bool.not_true, Bool.false_eq_true, if_false,
    hnB] at h
  split at h
  · cases h
  · rename_i w1 h1
    obtain ⟨hbs, hlog, herr⟩ := DatabaseObjectWriter.accept_brackets D t _ w1 h1 hB
    have hnB1 : ¬ w1.batchSize > 1 := by rw [hbs]; exact hnB
    simp only [hnB1, if_false] at h
    cases h
    refine ⟨hlog, ?_⟩
    simp only [Nat.zero_add] at herr
    rw [← List.count_pos_iff, ← herr]
    simp
    omega

end DataModel
end Seiscomp

namespace Seiscomp
namespace DataModel

theorem succ_div_batch (c B : Nat) :
    (c + 1) / B = c / B + if ((c + 1 : Nat) : Int) % (B : Int) = 0 then 1 else 0 := by
  rw [Nat.succ_div]
  have : (((c + 1 : Nat) : Int) % (B : Int) = 0) ↔ B ∣ c + 1 := by
    rw [Nat.dvd_iff_mod_eq_zero]
    constructor
    · intro h
      have h' : (((c + 1) % B : Nat) : Int) = 0 := by
        rw [Int.ofNat_emod]; exact h
      exact_mod_cast h'
    · intro h
      have h' : (((c + 1) % B : Nat) : Int) = 0 := by exact_mod_cast h
      rw [Int.ofNat_emod] at h'
      exact h'
  by_cases hd : B ∣ c + 1
  · rw [if_pos hd, if_pos (this.mpr hd)]
  · rw [if_neg hd, if_neg (fun h => hd (this.mp h))]

namespace DatabaseObjectWriter

variable {σ : Type}

theorem txTrace_batchStep (w : DatabaseObjectWriter σ) (object : Object) (c : Prop)
    [Decidable c] :
    txTrace (w.archiveCall object :: (if c then [Event.commit, Event.start] else [])) =
      commitStarts (if c then 1 else 0) := by
  by_cases hc : c
  · cases hadd : w.addObjects <;>
      simp [hc, archiveCall, hadd, txTrace, Event.isTransaction, commitStarts]
  · cases hadd : w.addObjects <;>
      simp [hc, archiveCall, hadd, txTrace, Event.isTransaction, commitStarts]

theorem writtenObjects_batchStep (w : DatabaseObjectWriter σ) (object : Object) (c : Prop)
    [Decidable c] (hadd : w.addObjects = true) :
    writtenObjects (w.archiveCall object :: (if c then [Event.commit, Event.start] else [])) =
      [object.id] := by
  by_cases hc : c <;> simp [hc, archiveCall, hadd, writtenObjects]

/-- What the traversal with a batch size `B > 1` keeps between the writer `w`
before and `w1` after the nodes of `t`. -/
theorem batchStep (D : DatabaseInterface σ) (B : Nat) (hB : 1 < B)
    (w wx w1 : DatabaseObjectWriter σ) (object : Object) (next thenNext : Traversal)
    (r : Bool) (hx : write D w object = .ok (r, wx)) (hbatch : w.batchSize = (B : Int))
    (hnext : r = true → next = thenNext)
    (ih : w1.batchSize = wx.batchSize ∧ w1.addObjects = wx.addObjects ∧
      wx.errors ≤ w1.errors ∧ wx.count ≤ w1.count ∧
      (∃ j, txTrace w1.archive.log = txTrace wx.archive.log ++ commitStarts j ∧
        (w1.errors = wx.errors → j + wx.count / B = w1.count / B)) ∧
      (wx.addObjects = true →
        (writtenObjects w1.archive.log).length =
          (writtenObjects wx.archive.log).length + (w1.count - wx.count)) ∧
      (wx.addObjects = true → w1.errors = wx.errors →
        writtenObjects w1.archive.log =
          writtenObjects wx.archive.log ++ next.delivered.map (fun o => o.id) ∧
        w1.count = wx.count + next.delivered.length)) :
    w1.batchSize = w.batchSize ∧ w1.addObjects = w.addObjects ∧
      w.errors ≤ w1.errors ∧ w.count ≤ w1.count ∧
      (∃ j, txTrace w1.archive.log = txTrace w.archive.log ++ commitStarts j ∧
        (w1.errors = w.errors → j + w.count / B = w1.count / B)) ∧
      (w.addObjects = true →
        (writtenObjects w1.archive.log).length =
          (writtenObjects w.archive.log).length + (w1.count - w.count)) ∧
      (w.addObjects = true → w1.errors = w.errors →
        writtenObjects w1.archive.log =
          writtenObjects w.archive.log ++ (object :: thenNext.delivered).map (fun o => o.id) ∧
        w1.count = w.count + (object :: thenNext.delivered).length) := by
  obtain ⟨hbs, hadd, hcount, herr, hlog⟩ := write_spec D w wx object r hx
  have hnB : ¬ w.batchSize ≤ 1 := by rw [hbatch]; omega
  rw [if_neg hnB] at hlog
  have htx := txTrace_of_bulkTrace _ _ _ hlog
  rw [txTrace_batchStep] at htx
  obtain ⟨h1, h2, h3, h4, ⟨j, h5, h6⟩, h7, h8⟩ := ih
  have hr : w1.errors = w.errors → r = true ∧ w1.errors = wx.errors := by
    intro he
    cases r
    · simp at herr; omega
    · simp at herr; exact ⟨rfl, by omega⟩
  refine ⟨h1.trans hbs, h2.trans hadd, by omega, by omega, ?_, ?_, ?_⟩
  · refine ⟨(if r = true ∧ ((w.count + 1 : Nat) : Int) % w.batchSize = 0 then 1 else 0) + j,
      ?_, ?_⟩
    · rw [h5, htx, List.append_assoc, commitStarts_add]
    · intro he
      obtain ⟨hr1, he'⟩ := hr he
      subst hr1
      have := h6 he'
      rw [hcount, succ_div_batch w.count B] at this
      rw [hbatch]
      simp only [true_and]
      rw [← this]
      omega
  · intro ha
    have hw := writtenObjects_of_bulkTrace _ _ _ hlog
    rw [writtenObjects_batchStep w object _ ha] at hw
    rw [h7 (hadd.trans ha), hw]
    simp
    omega
  · intro ha he
    obtain ⟨hr1, he'⟩ := hr he
    obtain ⟨h9, h10⟩ := h8 (hadd.trans ha) he'
    have hw := writtenObjects_of_bulkTrace _ _ _ hlog
    rw [writtenObjects_batchStep w object _ ha] at hw
    rw [hnext hr1] at h9 h10
    refine ⟨?_, ?_⟩
    · rw [h9, hw]
      simp
    · rw [h10, hcount]
      simp
      omega

/-- The traversal with a batch size `B > 1`: the transaction calls added to
the log are intermediate commit and start pairs; when no node fails there is
one pair for every multiple of `B` the node count passes, and a writer that
adds objects enters the archive's `write` for the delivered nodes in their
order. -/
theorem accept_batches (D : DatabaseInterface σ) (B : Nat) (hB : 1 < B) :
    ∀ (t : Traversal) (w w1 : DatabaseObjectWriter σ), accept D t w = .ok w1 →
      w.batchSize = (B : Int) →
      w1.batchSize = w.batchSize ∧ w1.addObjects = w.addObjects ∧
      w.errors ≤ w1.errors ∧ w.count ≤ w1.count ∧
      (∃ j, txTrace w1.archive.log = txTrace w.archive.log ++ commitStarts j ∧
        (w1.errors = w.errors → j + w.count / B = w1.count / B)) ∧
      (w.addObjects = true →
        (writtenObjects w1.archive.log).length =
          (writtenObjects w.archive.log).length + (w1.count - w.count)) ∧
      (w.addObjects = true → w1.errors = w.errors →
        writtenObjects w1.archive.log =
          writtenObjects w.archive.log ++ t.delivered.map (fun o => o.id) ∧
        w1.count = w.count + t.delivered.length)
  | .done, w, w1, h, _ => by
    simp only [accept] at h
    cases h
    exact ⟨rfl, rfl, Nat.le_refl _, Nat.le_refl _, ⟨0, by simp [commitStarts], fun _ => by simp⟩,
      fun _ => by simp, fun _ _ => by simp [Traversal.delivered]⟩
  | .visit object thenNext elseNext, w, w1, h, hbatch => by
    simp only [accept] at h
    split at h
    · cases h
    · rename_i r wx hx
      have hbs := (write_spec D w wx object r hx).1
      cases r with
      | true =>
        simp only [if_true] at h
        exact batchStep D B hB w wx w1 object thenNext thenNext true hx hbatch (fun _ => rfl)
          (accept_batches D B hB thenNext wx w1 h (hbs.trans hbatch))
      | false =>
        simp only [Bool.false_eq_true, if_false] at h
        exact batchStep D B hB w wx w1 object elseNext thenNext false hx hbatch
          (fun hc => absurd hc Bool.false_ne_true)
          (accept_batches D B hB elseNext wx w1 h (hbs.trans hbatch))

/-- The whole bulk operation with a batch size `B > 1` on an archive with a
driver. -/
theorem call_batches (D : DatabaseInterface σ) (B : Nat) (hB : 1 < B)
    (w w' : DatabaseObjectWriter σ) (t : Traversal) (parentID : String) (result : Bool)
    (hbatch : w.batchSize = (B : Int)) (hdriver : w.archive.validInterface = true)
    (h : w.call D t parentID = .ok (result, w')) :
    result = decide (w'.errors = 0) ∧
    (∃ j, txTrace w'.archive.log = txTrace w.archive.log ++ startCommitPairs (j + 1) ∧
      (w'.errors = 0 → j = w'.count / B)) ∧
    (w.addObjects = true →
      (writtenObjects w'.archive.log).length =
        (writtenObjects w.archive.log).length + w'.count) ∧
    (w.addObjects = true → w'.errors = 0 →
      writtenObjects w'.archive.log =
        writtenObjects w.archive.log ++ t.delivered.map (fun o => o.id) ∧
      w'.count = t.delivered.length) := by
  have hgt : w.batchSize > 1 := by rw [hbatch]; omega
  simp only [call, hdriver, Bool.not_true, Bool.false_eq_true, if_false, hgt, if_true] at h
  split at h
  · cases h
  · rename_i a1 h1
    have q1 := DatabaseArchive.dbStart_bulkTrace D _ a1 h1
    split at h
    · cases h
    · rename_i w1 hacc
      obtain ⟨h2, h3, -, -, ⟨j, h5, h6⟩, h7, h8⟩ :=
        accept_batches D B hB t _ w1 hacc hbatch
      have hgt1 : w1.batchSize > 1 := by rw [h2]; exact hgt
      simp only [hgt1, if_true] at h
      split at h
      · cases h
      · rename_i a2 hc
        have q2 := DatabaseArchive.dbCommit_bulkTrace D _ a2 hc
        cases h
        have t1 := txTrace_of_bulkTrace _ _ _ q1
        have t2 := txTrace_of_bulkTrace _ _ _ q2
        have w1' := writtenObjects_of_bulkTrace _ _ _ q1
        have w2' := writtenObjects_of_bulkTrace _ _ _ q2
        simp only [Nat.zero_div, Nat.add_zero, Nat.zero_add, Nat.sub_zero] at h5 h6 h7 h8
        refine ⟨rfl, ⟨j, ?_, ?_⟩, ?_, ?_⟩
        · show txTrace a2.log = _
          rw [t2, h5, t1, ← start_commitStarts]
          simp [txTrace, Event.isTransaction]
        · intro he
          exact h6 he
        · intro ha
          show (writtenObjects a2.log).length = _ + w1.count
          rw [w2', List.length_append, h7 ha, w1']
          simp [writtenObjects]
        · intro ha he
          obtain ⟨h9, h10⟩ := h8 ha he
          refine ⟨?_, h10⟩
          show writtenObjects a2.log = _
          rw [w2', h9, w1']
          simp [writtenObjects]

end DatabaseObjectWriter
end DataModel
end Seiscomp

namespace Seiscomp
namespace DataModel

theorem count_commit_txTrace (l : List Event) :
    (txTrace l).count Event.commit = l.count Event.commit := by
  unfold txTrace
  exact List.count_filter rfl

/-- C7 as it is stated fails: a bulk add of one node with batch size 2
succeeds and the driver sees one commit, the final one, while `⌈1/2⌉ + 1`,
the number the specification gives, is 2. -/
theorem C7_ceiling_commit_count_fails :
    (DatabaseObjectWriter.construct testArchive true 2).call testDriver testOneNode "evt" =
      .ok (true, bulkResult testDriver (DatabaseObjectWriter.construct testArchive true 2)
        testOneNode "evt") ∧
    (bulkResult testDriver (DatabaseObjectWriter.construct testArchive true 2)
      testOneNode "evt").errors = 0 ∧
    testOneNode.delivered.length = 1 ∧
    txTrace (bulkResult testDriver (DatabaseObjectWriter.construct testArchive true 2)
      testOneNode "evt").archive.log = [Event.start, Event.commit] ∧
    (bulkResult testDriver (DatabaseObjectWriter.construct testArchive true 2)
      testOneNode "evt").archive.log.count Event.commit = 1 ∧
    (bulkResult testDriver (DatabaseObjectWriter.construct testArchive true 2)
      testOneNode "evt").archive.log.count Event.commit ≠ (1 + 2 - 1) / 2 + 1 := by
  refine ⟨by decide!, by decide!, by decide!, by decide!, by decide!, by decide!⟩

/-- C7, amended: a bulk add with batch size `B > 1` on an archive with a
driver, over a traversal that delivers `N` nodes whose writes all succeed.
The driver sees `⌊N/B⌋` commits during the walk, each followed by the start of
the next batch, and one final commit, `⌊N/B⌋ + 1` commits in total; and the
archive's `write` is entered for the delivered nodes in the order of their
delivery. -/
theorem C7_bulk_add_commit_count {σ : Type} (D : DatabaseInterface σ) (B : Nat) (hB : 1 < B)
    (w w' : DatabaseObjectWriter σ) (t : Traversal) (parentID : String) (result : Bool)
    (hbatch : w.batchSize = (B : Int)) (hadd : w.addObjects = true)
    (hdriver : w.archive.validInterface = true)
    (h : w.call D t parentID = .ok (result, w')) (hall : w'.errors = 0) :
    result = true ∧ w'.count = t.delivered.length ∧
    txTrace w'.archive.log = txTrace w.archive.log ++
      (Event.start :: (commitStarts (t.delivered.length / B) ++ [Event.commit])) ∧
    w'.archive.log.count Event.commit =
      w.archive.log.count Event.commit + (t.delivered.length / B + 1) ∧
    writtenObjects w'.archive.log =
      writtenObjects w.archive.log ++ t.delivered.map (fun o => o.id) := by
  obtain ⟨hres, ⟨j, htx, hj⟩, -, hw⟩ :=
    DatabaseObjectWriter.call_batches D B hB w w' t parentID result hbatch hdriver h
  obtain ⟨hw1, hw2⟩ := hw hadd hall
  have hj' := hj hall
  rw [hw2] at hj'
  subst hj'
  refine ⟨by simp [hres, hall], hw2, ?_, ?_, hw1⟩
  · rw [htx, start_commitStarts]
  · rw [← count_commit_txTrace, htx, List.count_append, count_commit_txTrace,
      (count_commit_startCommitPairs _).1]

/-- C7, amended, on the test database: one node, batch size 2. -/
theorem C7_bulk_add_commit_count_witness :
    true = true ∧
    (bulkResult testDriver (DatabaseObjectWriter.construct testArchive true 2)
      testOneNode "evt").count = testOneNode.delivered.length ∧
    txTrace (bulkResult testDriver (DatabaseObjectWriter.construct testArchive true 2)
        testOneNode "evt").archive.log =
      txTrace (DatabaseObjectWriter.construct testArchive true 2).archive.log ++
      (Event.start :: (commitStarts (testOneNode.delivered.length / 2) ++ [Event.commit])) ∧
    (bulkResult testDriver (DatabaseObjectWriter.construct testArchive true 2)
        testOneNode "evt").archive.log.count Event.commit =
      (DatabaseObjectWriter.construct testArchive true 2).archive.log.count Event.commit +
        (testOneNode.delivered.length / 2 + 1) ∧
    writtenObjects (bulkResult testDriver (DatabaseObjectWriter.construct testArchive true 2)
        testOneNode "evt").archive.log =
      writtenObjects (DatabaseObjectWriter.construct testArchive true 2).archive.log ++
        testOneNode.delivered.map (fun o => o.id) :=
  C7_bulk_add_commit_count testDriver 2 (by decide)
    (DatabaseObjectWriter.construct testArchive true 2) _ testOneNode "evt" true rfl rfl rfl
    (by decide!) (by decide!)

/-- C8: a bulk operation with batch size `B > 1` on an archive with a driver.
When it returns, the transaction calls it sent are `k ≥ 1` pairs of `start`
and `commit`, one after the other: they begin with `start`, end with
`commit`, alternate strictly, and are `k` starts and `k` commits without a
rollback.  When no node failed `k` is `⌊N/B⌋ + 1` for the `N` nodes visited;
for a bulk add of 250 nodes that all succeed with `B = 100` there are 3 pairs
and 250 entries into the archive's `write`. -/
theorem C8_bulk_writer_transactions_alternate {σ : Type} (D : DatabaseInterface σ) (B : Nat)
    (hB : 1 < B) (w w' : DatabaseObjectWriter σ) (t : Traversal) (parentID : String)
    (result : Bool) (hbatch : w.batchSize = (B : Int))
    (hdriver : w.archive.validInterface = true)
    (h : w.call D t parentID = .ok (result, w')) :
    ∃ k, 1 ≤ k ∧
      txTrace w'.archive.log = txTrace w.archive.log ++ startCommitPairs k ∧
      (startCommitPairs k).count Event.start = k ∧
      (startCommitPairs k).count Event.commit = k ∧
      (startCommitPairs k).count Event.rollback = 0 ∧
      (w'.errors = 0 → k = w'.count / B + 1) ∧
      (B = 100 → w.addObjects = true → w'.errors = 0 → t.delivered.length = 250 →
        k = 3 ∧
        (writtenObjects w'.archive.log).length =
          (writtenObjects w.archive.log).length + 250) := by
  obtain ⟨-, ⟨j, htx, hj⟩, hlen, hw⟩ :=
    DatabaseObjectWriter.call_batches D B hB w w' t parentID result hbatch hdriver h
  obtain ⟨c1, c2, c3⟩ := count_commit_startCommitPairs (j + 1)
  refine ⟨j + 1, by omega, htx, c2, c1, c3, fun he => by rw [hj he], ?_⟩
  intro h100 hadd he hN
  obtain ⟨-, hcount⟩ := hw hadd he
  have hj' := hj he
  rw [hcount, hN, h100] at hj'
  refine ⟨by omega, ?_⟩
  rw [hlen hadd, hcount, hN]

/-- C8 on the test database: two nodes, batch size 2, two pairs. -/
theorem C8_bulk_writer_transactions_alternate_witness :
    ∃ k, 1 ≤ k ∧
      txTrace (bulkResult testDriver (DatabaseObjectWriter.construct testArchive true 2)
          testTwoNodes "evt").archive.log =
        txTrace (DatabaseObjectWriter.construct testArchive true 2).archive.log ++
          startCommitPairs k ∧
      (startCommitPairs k).count Event.start = k ∧
      (startCommitPairs k).count Event.commit = k ∧
      (startCommitPairs k).count Event.rollback = 0 ∧
      ((bulkResult testDriver (DatabaseObjectWriter.construct testArchive true 2)
          testTwoNodes "evt").errors = 0 →
        k = (bulkResult testDriver (DatabaseObjectWriter.construct testArchive true 2)
          testTwoNodes "evt").count / 2 + 1) ∧
      (2 = 100 → (DatabaseObjectWriter.construct testArchive true 2).addObjects = true →
        (bulkResult testDriver (DatabaseObjectWriter.construct testArchive true 2)
          testTwoNodes "evt").errors = 0 → testTwoNodes.delivered.length = 250 →
        k = 3 ∧
        (writtenObjects (bulkResult testDriver (DatabaseObjectWriter.construct testArchive true 2)
          testTwoNodes "evt").archive.log).length =
          (writtenObjects (DatabaseObjectWriter.construct testArchive true 2).archive.log).length
            + 250) :=
  C8_bulk_writer_transactions_alternate testDriver 2 (by decide)
    (DatabaseObjectWriter.construct testArchive true 2) _ testTwoNodes "evt" true rfl rfl
    (by decide!)

/-- C9 on the test database: batch size 1, the first node fails and is rolled
back, the second is committed, and the operation returns false. -/
theorem C9_bulk_writer_single_transactions_witness :
    bulkTrace (bulkResult testDriver (DatabaseObjectWriter.construct testArchive true 1)
        testFailingNode "evt").archive.log =
      bulkTrace (DatabaseObjectWriter.construct testArchive true 1).archive.log ++
      DatabaseObjectWriter.brackets testDriver testFailingNode
        { DatabaseObjectWriter.construct testArchive true 1 with
          parentID := "evt", errors := 0, count := 0 } ∧
    (false = false ↔ Event.rollback ∈
      DatabaseObjectWriter.brackets testDriver testFailingNode
        { DatabaseObjectWriter.construct testArchive true 1 with
          parentID := "evt", errors := 0, count := 0 }) :=
  C9_bulk_writer_single_transactions testDriver
    (DatabaseObjectWriter.construct testArchive true 1) _ testFailingNode "evt" false
    (by decide) rfl (by decide!)

end DataModel
end Seiscomp

namespace Seiscomp
namespace DataModel

theorem strLength_pos_of_ne_empty (s : String) (h : s ≠ "") : 0 < s.length := by
  rcases s with ⟨d⟩
  cases d with
  | nil => exact absurd rfl h
  | cons c cs => simp [String.length]

theorem str_ne_empty_of_length_pos (s : String) (h : 0 < s.length) : s ≠ "" := by
  intro he
  rw [he] at h
  exact absurd h (by decide)

theorem joinWith_cons (sep x : String) (rest : List String) (h : rest ≠ []) :
    joinWith sep (x :: rest) = x ++ sep ++ joinWith sep rest := by
  cases rest with
  | nil => exact absurd rfl h
  | cons y ys => rfl

theorem joinWith_snoc (sep : String) (names : List String) (m : String) (h : names ≠ []) :
    joinWith sep (names ++ [m]) = joinWith sep names ++ sep ++ m := by
  induction names with
  | nil => exact absurd rfl h
  | cons x rest ih =>
    cases rest with
    | nil => rfl
    | cons y ys =>
      have h1 : joinWith sep (x :: y :: ys) = x ++ sep ++ joinWith sep (y :: ys) := rfl
      have h2 : joinWith sep (x :: y :: ys ++ [m]) =
          x ++ sep ++ joinWith sep (y :: ys ++ [m]) := rfl
      rw [h1, h2, ih (by simp)]
      simp [String.append_assoc]

theorem joinWith_ne_empty (sep : String) (names : List String) (h : names ≠ [])
    (hne : ∀ n ∈ names, n ≠ "") : joinWith sep names ≠ "" := by
  cases names with
  | nil => exact absurd rfl h
  | cons x rest =>
    have hx := strLength_pos_of_ne_empty x (hne x (by simp))
    apply str_ne_empty_of_length_pos
    cases rest with
    | nil => exact hx
    | cons y ys =>
      have h1 : joinWith sep (x :: y :: ys) = x ++ sep ++ joinWith sep (y :: ys) := rfl
      rw [h1, String.length_append, String.length_append]
      omega

namespace DatabaseArchive

variable {σ : Type}

/-- A push changes the prefix stack only, and adds the name to the prefix. -/
theorem pushAttributePrefix_some (a : DatabaseArchive σ) (n : String) (h : a.prefixPos < 64) :
    ∃ a1 : DatabaseArchive σ, a.pushAttributePrefix (some n) = .ok a1 ∧
      a1.prefixPos = a.prefixPos + 1 ∧
      a1.currentAttributePrefix =
        (if a.currentAttributePrefix = "" then n
         else a.currentAttributePrefix ++ ATTRIBUTE_SEPERATOR ++ n) ∧
      a1.db = a.db ∧ a1.hint = a.hint ∧ a1.ignoreIndexAttributes = a.ignoreIndexAttributes ∧
      a1.indexAttributes = a.indexAttributes ∧ a1.objectAttributes = a.objectAttributes ∧
      a1.rootAttributes = a.rootAttributes ∧ a1.childTables = a.childTables := by
  unfold pushAttributePrefix
  rw [dif_neg (by omega)]
  exact ⟨_, rfl, rfl, rfl, rfl, rfl, rfl, rfl, rfl, rfl, rfl⟩

/-- Pushing non-empty names onto a stack with room for them succeeds and
appends them to the prefix, separated by the attribute separator. -/
theorem pushAll_spec (names : List String) (hne : ∀ n ∈ names, n ≠ "") :
    ∀ (a : DatabaseArchive σ), a.prefixPos + names.length ≤ 64 →
    ∃ a1 : DatabaseArchive σ, a.pushAll names = .ok a1 ∧
      a1.prefixPos = a.prefixPos + names.length ∧
      a1.currentAttributePrefix =
        (if names = [] then a.currentAttributePrefix
         else if a.currentAttributePrefix = "" then joinWith ATTRIBUTE_SEPERATOR names
         else a.currentAttributePrefix ++ ATTRIBUTE_SEPERATOR ++
           joinWith ATTRIBUTE_SEPERATOR names) ∧
      a1.db = a.db ∧ a1.hint = a.hint ∧ a1.ignoreIndexAttributes = a.ignoreIndexAttributes ∧
      a1.indexAttributes = a.indexAttributes ∧ a1.objectAttributes = a.objectAttributes ∧
      a1.rootAttributes = a.rootAttributes ∧ a1.childTables = a.childTables := by
  induction names with
  | nil =>
    intro a _
    exact ⟨a, rfl, rfl, rfl, rfl, rfl, rfl, rfl, rfl, rfl, rfl⟩
  | cons n rest ih =>
    intro a hroom
    simp only [List.length_cons] at hroom
    obtain ⟨a1, hp, p1, p2, p3, p4, p5, p6, p7, p8, p9⟩ :=
      pushAttributePrefix_some a n (by omega)
    obtain ⟨a2, hq, q1, q2, q3, q4, q5, q6, q7, q8, q9⟩ :=
      ih (fun x hx => hne x (List.mem_cons_of_mem _ hx)) a1 (by omega)
    have hn : n ≠ "" := hne n (List.mem_cons_self _ _)
    have hrun : a.pushAll (n :: rest) = .ok a2 := by
      unfold pushAll
      rw [hp]
      exact hq
    refine ⟨a2, hrun, by rw [q1, p1, List.length_cons]; omega, ?_, q3.trans p3, q4.trans p4,
      q5.trans p5, q6.trans p6, q7.trans p7, q8.trans p8, q9.trans p9⟩
    rw [q2, p2, if_neg (List.cons_ne_nil _ _)]
    by_cases hrest : rest = []
    · subst hrest
      simp only [if_true]
      by_cases ha : a.currentAttributePrefix = ""
      · simp only [ha, if_true]
        rfl
      · simp only [ha, if_false]
        rfl
    · rw [if_neg hrest, joinWith_cons _ _ _ hrest]
      by_cases ha : a.currentAttributePrefix = ""
      · rw [if_pos ha, if_neg hn, if_pos ha]
      · rw [if_neg ha, if_neg ha]
        have hcat : a.currentAttributePrefix ++ ATTRIBUTE_SEPERATOR ++ n ≠ "" := by
          apply str_ne_empty_of_length_pos
          have := strLength_pos_of_ne_empty n hn
          rw [String.length_append]
          omega
        rw [if_neg hcat]
        simp [String.append_assoc]

end DatabaseArchive

end DataModel
end Seiscomp

namespace Seiscomp
namespace DataModel

namespace DatabaseArchive

variable {σ : Type}

/-- With a non-empty prefix and a non-empty attribute name `writeAttrib`
assigns the value under the converted name `prefix_name` in the map it stores
into. -/
theorem writeAttrib_prefixed (D : DatabaseInterface σ) (a : DatabaseArchive σ) (s : σ)
    (value : Option String) (mp : AttributeMap) (hp : a.currentAttributePrefix ≠ "")
    (hn : a.currentAttributeName ≠ "") (hdb : a.db = some s)
    (htarget : a.storeTarget = .ok mp) :
    ∃ a2 : DatabaseArchive σ, a.writeAttrib D value = .ok a2 ∧
      a2.storeTarget = .ok (AttributeMap.assign mp
        (D.convertColumnName
          (a.currentAttributePrefix ++ ATTRIBUTE_SEPERATOR ++ a.currentAttributeName))
        value) := by
  have hidx : a.attribIndexName =
      a.currentAttributePrefix ++ ATTRIBUTE_SEPERATOR ++ a.currentAttributeName := by
    unfold attribIndexName
    rw [if_neg hp, if_neg hn]
  unfold writeAttrib
  rw [if_neg (fun h => hp h.1), hdb, hidx]
  dsimp only
  unfold storeTarget at htarget
  by_cases hi : (a.hint.INDEX_ATTRIBUTE && a.ignoreIndexAttributes) = true
  · rw [if_pos hi] at htarget
    rw [if_pos hi]
    cases htarget
    refine ⟨_, rfl, ?_⟩
    unfold storeTarget
    dsimp only
    rw [if_pos hi]
  · rw [if_neg hi] at htarget
    rw [if_neg hi]
    unfold currentAttributes at htarget
    cases hobj : a.objectAttributes with
    | null => rw [hobj] at htarget; cases htarget
    | root =>
      rw [hobj] at htarget
      cases htarget
      refine ⟨_, rfl, ?_⟩
      unfold storeTarget currentAttributes
      dsimp only
      rw [if_neg hi]
    | child i =>
      rw [hobj] at htarget
      dsimp only at htarget ⊢
      cases ht : a.childTables.get? i with
      | none => rw [ht] at htarget; cases htarget
      | some t =>
        rw [ht] at htarget
        cases htarget
        refine ⟨_, rfl, ?_⟩
        unfold storeTarget currentAttributes
        dsimp only
        rw [if_neg hi]
        have hlt : i < a.childTables.length := by
          rw [List.get?_eq_some] at ht
          exact ht.1
        simp [hlt]

/-- With a driver `readAttrib` returns, and the field index is the one the
driver finds for the column `readColumn` names. -/
theorem readAttrib_fieldIndex (D : DatabaseInterface σ) (a : DatabaseArchive σ) (s : σ)
    (hdb : a.db = some s) :
    ∃ a3 : DatabaseArchive σ, a.readAttrib D = .ok a3 ∧
      a3.fieldIndex = D.findColumn s (a.readColumn D) := by
  unfold readAttrib
  rw [hdb]
  dsimp only
  by_cases hf : D.findColumn s (a.readColumn D) ≠ -1
  · rw [if_pos hf]
    exact ⟨_, rfl, rfl⟩
  · rw [if_neg hf]
    exact ⟨_, rfl, rfl⟩

end DatabaseArchive

/-- C10: non-empty names `n1..nk` (`1 ≤ k ≤ 64`) pushed onto a freshly reset
prefix stack, then a non-empty attribute name `m`.  The pushes succeed and
leave the prefix `n1_..._nk`; `writeAttrib` assigns the value under
`convertColumnName(n1_..._nk_m)` in the map it stores into, where it is found
afterwards; `readAttrib` looks up the same column; and for the path `a.b.c`
(push `a`, push `b`, attribute `c`) the name handed to the driver is
`a_b_c`. -/
theorem C10_column_name_from_prefix_stack {σ : Type} (D : DatabaseInterface σ)
    (a : DatabaseArchive σ) (s : σ) (names : List String) (m : String)
    (value : Option String) (mp : AttributeMap)
    (hk1 : 1 ≤ names.length) (hk : names.length ≤ 64)
    (hnames : ∀ n ∈ names, n ≠ "") (hm : m ≠ "")
    (hdb : a.db = some s) (htarget : a.storeTarget = .ok mp) :
    ∃ a1 : DatabaseArchive σ, a.resetAttributePrefix.pushAll names = .ok a1 ∧
      a1.currentAttributePrefix = joinWith ATTRIBUTE_SEPERATOR names ∧
      (∃ a2 : DatabaseArchive σ,
        DatabaseArchive.writeAttrib D { a1 with currentAttributeName := m } value = .ok a2 ∧
        a2.storeTarget = .ok (AttributeMap.assign mp
          (D.convertColumnName (joinWith ATTRIBUTE_SEPERATOR (names ++ [m]))) value) ∧
        (AttributeMap.assign mp
          (D.convertColumnName (joinWith ATTRIBUTE_SEPERATOR (names ++ [m]))) value).find
            (D.convertColumnName (joinWith ATTRIBUTE_SEPERATOR (names ++ [m]))) =
          some value) ∧
      DatabaseArchive.readColumn D { a1 with currentAttributeName := m } =
        D.convertColumnName (joinWith ATTRIBUTE_SEPERATOR (names ++ [m])) ∧
      (∃ a3 : DatabaseArchive σ,
        DatabaseArchive.readAttrib D { a1 with currentAttributeName := m } = .ok a3 ∧
        a3.fieldIndex =
          D.findColumn s (D.convertColumnName (joinWith ATTRIBUTE_SEPERATOR (names ++ [m])))) ∧
      (names = ["a", "b"] → m = "c" →
        joinWith ATTRIBUTE_SEPERATOR (names ++ [m]) = "a_b_c") := by
  have hnil : names ≠ [] := by
    intro h
    rw [h] at hk1
    exact absurd hk1 (by decide)
  obtain ⟨a1, hpush, -, hpre, p3, p4, p5, p6, p7, p8, p9⟩ :=
    DatabaseArchive.pushAll_spec names hnames a.resetAttributePrefix
      (by show 0 + names.length ≤ 64; omega)
  rw [if_neg hnil] at hpre
  have hpre1 : a1.currentAttributePrefix = joinWith ATTRIBUTE_SEPERATOR names := by
    rw [hpre]
    exact if_pos rfl
  have hpne : a1.currentAttributePrefix ≠ "" := by
    rw [hpre1]
    exact joinWith_ne_empty _ names hnil hnames
  have hsnoc := joinWith_snoc ATTRIBUTE_SEPERATOR names m hnil
  have htarget1 : DatabaseArchive.storeTarget { a1 with currentAttributeName := m } = .ok mp := by
    rw [← htarget]
    unfold DatabaseArchive.storeTarget DatabaseArchive.currentAttributes
    dsimp only
    rw [p4, p5, p6, p7, p8, p9]
    rfl
  have hread : DatabaseArchive.readColumn D { a1 with currentAttributeName := m } =
      D.convertColumnName (joinWith ATTRIBUTE_SEPERATOR (names ++ [m])) := by
    unfold DatabaseArchive.readColumn
    dsimp only
    rw [if_neg hpne, hsnoc, hpre1]
  refine ⟨a1, hpush, hpre1, ?_, hread, ?_, ?_⟩
  · obtain ⟨a2, hw, hst⟩ :=
      DatabaseArchive.writeAttrib_prefixed D { a1 with currentAttributeName := m } s value mp
        hpne hm (p3.trans hdb) htarget1
    dsimp only at hst
    rw [hpre1, ← hsnoc] at hst
    exact ⟨a2, hw, hst, AttributeMap.find_assign_self _ _ _⟩
  · obtain ⟨a3, hr, hidx⟩ :=
      DatabaseArchive.readAttrib_fieldIndex D { a1 with currentAttributeName := m } s
        (p3.trans hdb)
    rw [hread] at hidx
    exact ⟨a3, hr, hidx⟩
  · intro h1 h2
    rw [h1, h2]
    rfl

end DataModel
end Seiscomp

namespace Seiscomp
namespace DataModel

/-- C10 on the test database: the path `a.b.c` in the archive as `write` has
prepared it for `testPick`. -/
theorem C10_column_name_from_prefix_stack_witness :
    ∃ a1 : DatabaseArchive TestDb,
      (testArchive.writeEntered testPick "evt").resetAttributePrefix.pushAll ["a", "b"] =
        .ok a1 ∧
      a1.currentAttributePrefix = joinWith ATTRIBUTE_SEPERATOR ["a", "b"] ∧
      (∃ a2 : DatabaseArchive TestDb,
        DatabaseArchive.writeAttrib testDriver { a1 with currentAttributeName := "c" }
          (some "1") = .ok a2 ∧
        a2.storeTarget = .ok (AttributeMap.assign []
          (testDriver.convertColumnName (joinWith ATTRIBUTE_SEPERATOR (["a", "b"] ++ ["c"])))
          (some "1")) ∧
        (AttributeMap.assign []
          (testDriver.convertColumnName (joinWith ATTRIBUTE_SEPERATOR (["a", "b"] ++ ["c"])))
          (some "1")).find
            (testDriver.convertColumnName
              (joinWith ATTRIBUTE_SEPERATOR (["a", "b"] ++ ["c"]))) =
          some (some "1")) ∧
      DatabaseArchive.readColumn testDriver { a1 with currentAttributeName := "c" } =
        testDriver.convertColumnName (joinWith ATTRIBUTE_SEPERATOR (["a", "b"] ++ ["c"])) ∧
      (∃ a3 : DatabaseArchive TestDb,
        DatabaseArchive.readAttrib testDriver { a1 with currentAttributeName := "c" } =
          .ok a3 ∧
        a3.fieldIndex =
          testDriver.findColumn (testDb true "0.12.0")
            (testDriver.convertColumnName
              (joinWith ATTRIBUTE_SEPERATOR (["a", "b"] ++ ["c"])))) ∧
      (["a", "b"] = ["a", "b"] → "c" = "c" →
        joinWith ATTRIBUTE_SEPERATOR (["a", "b"] ++ ["c"]) = "a_b_c") :=
  C10_column_name_from_prefix_stack testDriver (testArchive.writeEntered testPick "evt")
    (testDb true "0.12.0") ["a", "b"] "c" (some "1") [] (by decide) (by decide) (by decide)
    (by decide) rfl rfl

end DataModel
end Seiscomp

namespace Seiscomp
namespace DataModel

namespace DatabaseArchive

variable {σ : Type}

/-- What `pushAttributePrefix` returns, in terms of the state it leaves. -/
theorem pushAttributePrefix_eq (a : DatabaseArchive σ) (name : CStr) :
    a.pushAttributePrefix name =
      if 64 ≤ a.prefixPos then .error Fault.overflow
      else .ok (a.pushAttributePrefixState name) := by
  unfold pushAttributePrefix pushAttributePrefixState
  by_cases h : 64 ≤ a.prefixPos
  · rw [dif_pos h, if_pos h]
  · rw [dif_neg h, if_neg h, dif_neg h]
    cases name <;> rfl

theorem pushAttributePrefix_prefixPos (a a1 : DatabaseArchive σ) (name : CStr)
    (h : a.pushAttributePrefix name = .ok a1) :
    a.prefixPos < 64 ∧ a1.prefixPos = a.prefixPos + 1 := by
  unfold pushAttributePrefix at h
  split at h
  · cases h
  · rename_i hlt
    split at h <;> (cases h; exact ⟨by omega, rfl⟩)

/-- Pushes onto a stack with room for them succeed and deepen the stack by
their number. -/
theorem pushAll_prefixPos (names : List String) :
    ∀ (a : DatabaseArchive σ), a.prefixPos + names.length ≤ 64 →
    ∃ a1 : DatabaseArchive σ, a.pushAll names = .ok a1 ∧
      a1.prefixPos = a.prefixPos + names.length := by
  induction names with
  | nil =>
    intro a _
    exact ⟨a, rfl, rfl⟩
  | cons n rest ih =>
    intro a hroom
    simp only [List.length_cons] at hroom
    have hpush := pushAttributePrefix_eq a (some n)
    rw [if_neg (by omega)] at hpush
    obtain ⟨hlt, hpos⟩ := pushAttributePrefix_prefixPos a _ (some n) hpush
    obtain ⟨a2, hq, q1⟩ := ih (a.pushAttributePrefixState (some n)) (by omega)
    refine ⟨a2, ?_, by rw [q1, hpos, List.length_cons]; omega⟩
    unfold pushAll
    rw [hpush]
    exact hq

/-- A push onto a stack that `pushAll` has filled to 64 frames raises. -/
theorem pushAll_overflow (names : List String) (n : String) :
    ∀ (a : DatabaseArchive σ), a.prefixPos + names.length = 64 →
    a.pushAll (names ++ [n]) = .error Fault.overflow := by
  induction names with
  | nil =>
    intro a hfull
    simp only [List.length_nil, Nat.add_zero] at hfull
    have hpush := pushAttributePrefix_eq a (some n)
    rw [if_pos (by omega)] at hpush
    show a.pushAll [n] = .error Fault.overflow
    unfold pushAll
    rw [hpush]
  | cons m rest ih =>
    intro a hfull
    simp only [List.length_cons] at hfull
    have hpush := pushAttributePrefix_eq a (some m)
    rw [if_neg (by omega)] at hpush
    obtain ⟨hlt, hpos⟩ := pushAttributePrefix_prefixPos a _ (some m) hpush
    have := ih (a.pushAttributePrefixState (some m)) (by omega)
    show a.pushAll (m :: (rest ++ [n])) = .error Fault.overflow
    unfold pushAll
    rw [hpush]
    exact this

end DatabaseArchive

/-- C11: `pushAttributePrefix` raises the overflow exception exactly when the
stack holds 64 frames (the check is `_prefixPos >= 64`), and otherwise returns
with the stack one frame deeper.  After `resetAttributePrefix` every sequence
of at most 64 pushes succeeds, and the push that follows 64 pushes raises.  A
push that raises has assigned nothing: the archive, its prefix string and its
stack depth are as before the call. -/
theorem C11_pushAttributePrefix_overflow {σ : Type} (a : DatabaseArchive σ) (name : CStr) :
    (a.pushAttributePrefix name = .error Fault.overflow ↔ 64 ≤ a.prefixPos) ∧
    (a.prefixPos < 64 →
      ∃ a1 : DatabaseArchive σ, a.pushAttributePrefix name = .ok a1 ∧
        a1 = a.pushAttributePrefixState name ∧ a1.prefixPos = a.prefixPos + 1) ∧
    (∀ names : List String, names.length ≤ 64 →
      ∃ a1 : DatabaseArchive σ, a.resetAttributePrefix.pushAll names = .ok a1 ∧
        a1.prefixPos = names.length) ∧
    (∀ (names : List String) (n : String), names.length = 64 →
      a.resetAttributePrefix.pushAll (names ++ [n]) = .error Fault.overflow) ∧
    (64 ≤ a.prefixPos →
      a.pushAttributePrefixState name = a ∧
      (a.pushAttributePrefixState name).currentAttributePrefix = a.currentAttributePrefix ∧
      (a.pushAttributePrefixState name).prefixPos = a.prefixPos) := by
  have heq := DatabaseArchive.pushAttributePrefix_eq a name
  refine ⟨?_, ?_, ?_, ?_, ?_⟩
  · constructor
    · intro h
      by_cases hge : 64 ≤ a.prefixPos
      · exact hge
      · rw [heq, if_neg hge] at h
        cases h
    · intro hge
      rw [heq, if_pos hge]
  · intro hlt
    rw [if_neg (by omega)] at heq
    exact ⟨_, heq, rfl, (DatabaseArchive.pushAttributePrefix_prefixPos a _ name heq).2⟩
  · intro names hlen
    obtain ⟨a1, h1, h2⟩ := DatabaseArchive.pushAll_prefixPos names a.resetAttributePrefix
      (by show 0 + names.length ≤ 64; omega)
    refine ⟨a1, h1, ?_⟩
    rw [h2]
    show 0 + names.length = names.length
    omega
  · intro names n hlen
    exact DatabaseArchive.pushAll_overflow names n a.resetAttributePrefix
      (by show 0 + names.length = 64; omega)
  · intro hge
    have hst : a.pushAttributePrefixState name = a := by
      unfold DatabaseArchive.pushAttributePrefixState
      rw [dif_pos hge]
    rw [hst]
    exact ⟨rfl, rfl, rfl⟩

/-- C11 on the test archive with 64 frames on the stack: the push raises and
leaves the archive as it is; on the empty stack it succeeds. -/
theorem C11_pushAttributePrefix_overflow_witness :
    ({ testArchive with prefixPos := 64 }.pushAttributePrefix (some "a") =
        .error Fault.overflow ↔
      64 ≤ ({ testArchive with prefixPos := 64 } : DatabaseArchive TestDb).prefixPos) ∧
    (({ testArchive with prefixPos := 64 } : DatabaseArchive TestDb).prefixPos < 64 →
      ∃ a1 : DatabaseArchive TestDb,
        { testArchive with prefixPos := 64 }.pushAttributePrefix (some "a") = .ok a1 ∧
        a1 = { testArchive with prefixPos := 64 }.pushAttributePrefixState (some "a") ∧
        a1.prefixPos =
          ({ testArchive with prefixPos := 64 } : DatabaseArchive TestDb).prefixPos + 1) ∧
    (∀ names : List String, names.length ≤ 64 →
      ∃ a1 : DatabaseArchive TestDb,
        { testArchive with prefixPos := 64 }.resetAttributePrefix.pushAll names = .ok a1 ∧
        a1.prefixPos = names.length) ∧
    (∀ (names : List String) (n : String), names.length = 64 →
      { testArchive with prefixPos := 64 }.resetAttributePrefix.pushAll (names ++ [n]) =
        .error Fault.overflow) ∧
    (64 ≤ ({ testArchive with prefixPos := 64 } : DatabaseArchive TestDb).prefixPos →
      { testArchive with prefixPos := 64 }.pushAttributePrefixState (some "a") =
        { testArchive with prefixPos := 64 } ∧
      ({ testArchive with prefixPos := 64 }.pushAttributePrefixState
        (some "a")).currentAttributePrefix =
        ({ testArchive with prefixPos := 64 } : DatabaseArchive TestDb).currentAttributePrefix ∧
      ({ testArchive with prefixPos := 64 }.pushAttributePrefixState (some "a")).prefixPos =
        ({ testArchive with prefixPos := 64 } : DatabaseArchive TestDb).prefixPos) :=
  C11_pushAttributePrefix_overflow { testArchive with prefixPos := 64 } (some "a")

end DataModel
end Seiscomp

namespace Seiscomp
namespace DataModel

/-- C19: `insertRow(T, map, "")` on an archive with a driver executes exactly
one statement, `insert into T(c1,...,cn) values (r1,...,rn)`: the text is
`insert into T(` followed by the column names of the map in its iteration
order with a comma between them, `) values (`, the `ri` with a comma between
them, and `)`, where `ri` is the value of entry `i` when it is present and
`NULL` when it is absent; the two lists have the same length and position `i`
of both stems from entry `i`. -/
theorem C19_insertRow_statement {σ : Type} (D : DatabaseInterface σ) (a : DatabaseArchive σ)
    (s : σ) (table : String) (attribs : AttributeMap) (hdb : a.db = some s) :
    ∃ (ok : Bool) (a1 : DatabaseArchive σ) (cols vals : List String),
      a.insertRow D table attribs "" = .ok (ok, a1) ∧
      a1.log = a.log ++
        [Event.execute
          ("insert into " ++ table ++ "(" ++ String.intercalate "," cols ++
            ") values (" ++ String.intercalate "," vals ++ ")") ok] ∧
      ok = (D.execute s
          ("insert into " ++ table ++ "(" ++ String.intercalate "," cols ++
            ") values (" ++ String.intercalate "," vals ++ ")")).1 ∧
      cols.length = attribs.length ∧ vals.length = attribs.length ∧
      ∀ (i : Nat) (h : i < attribs.length),
        cols.get? i = some (attribs.get ⟨i, h⟩).1 ∧
        vals.get? i =
          some (match (attribs.get ⟨i, h⟩).2 with
            | some v => v
            | none => "NULL") := by
  have hval : (fun e : String × Option String => e.2.getD "NULL") =
      (fun e => match e.2 with
        | some v => v
        | none => "NULL") := by
    funext e
    cases e.2 <;> rfl
  have hsql : a.insertRowSql D table attribs "" =
      "insert into " ++ table ++ "(" ++ String.intercalate "," (attribs.map (fun e => e.1)) ++
        ") values (" ++
        String.intercalate "," (attribs.map (fun e => match e.2 with
          | some v => v
          | none => "NULL")) ++ ")" := by
    have h := DatabaseArchive.insertRowSql_values D a table attribs
    unfold AttributeMapper ValueMapper at h
    rw [hval, joinWith_eq_intercalate, joinWith_eq_intercalate] at h
    rw [h]
    simp only [String.append_assoc]
    rfl
  have hrun : a.insertRow D table attribs "" =
      .ok ((D.execute s (a.insertRowSql D table attribs "")).1,
        { a with
          db := some (D.execute s (a.insertRowSql D table attribs "")).2,
          log := a.log ++ [Event.execute (a.insertRowSql D table attribs "")
            (D.execute s (a.insertRowSql D table attribs "")).1] }) := by
    unfold DatabaseArchive.insertRow DatabaseArchive.dbExecute
    rw [hdb]
  refine ⟨_, _, attribs.map (fun e => e.1),
    attribs.map (fun e => match e.2 with
      | some v => v
      | none => "NULL"), hrun, ?_, ?_, by simp, by simp, ?_⟩
  · show a.log ++ [Event.execute (a.insertRowSql D table attribs "") _] = _
    rw [hsql]
  · rw [hsql]
  · intro i h
    simp [List.getElem?_eq_getElem h]

/-- C19 on the test archive, for a map with a present and an absent value: the
statement executed is `insert into Pick(phase,time) values ('P',NULL)`. -/
theorem C19_insertRow_statement_witness :
    (∃ (ok : Bool) (a1 : DatabaseArchive TestDb) (cols vals : List String),
      testArchive.insertRow testDriver "Pick" [("phase", some "'P'"), ("time", none)] "" =
        .ok (ok, a1) ∧
      a1.log = testArchive.log ++
        [Event.execute
          ("insert into " ++ "Pick" ++ "(" ++ String.intercalate "," cols ++
            ") values (" ++ String.intercalate "," vals ++ ")") ok] ∧
      ok = (testDriver.execute (testDb true "0.12.0")
          ("insert into " ++ "Pick" ++ "(" ++ String.intercalate "," cols ++
            ") values (" ++ String.intercalate "," vals ++ ")")).1 ∧
      cols.length = ([("phase", some "'P'"), ("time", none)] : AttributeMap).length ∧
      vals.length = ([("phase", some "'P'"), ("time", none)] : AttributeMap).length ∧
      ∀ (i : Nat) (h : i < ([("phase", some "'P'"), ("time", none)] : AttributeMap).length),
        cols.get? i =
          some ((([("phase", some "'P'"), ("time", none)] : AttributeMap).get ⟨i, h⟩).1) ∧
        vals.get? i =
          some (match (([("phase", some "'P'"), ("time", none)] : AttributeMap).get ⟨i, h⟩).2 with
            | some v => v
            | none => "NULL")) ∧
    (testArchive.insertRow testDriver "Pick" [("phase", some "'P'"), ("time", none)] "").map
        (fun r => (r.1, r.2.log)) =
      .ok (true, [Event.execute "insert into Pick(phase,time) values ('P',NULL)" true]) :=
  ⟨C19_insertRow_statement testDriver testArchive (testDb true "0.12.0") "Pick"
    [("phase", some "'P'"), ("time", none)] rfl, by decide!⟩

namespace DatabaseArchive

variable {σ : Type}

theorem close_cache (a : DatabaseArchive σ) : a.close.objectIdCache = a.objectIdCache := by
  unfold close
  split <;> rfl

theorem close_db (a : DatabaseArchive σ) : a.close.db = none := by
  unfold close
  split <;> rfl

theorem fetchVersion_cache (D : DatabaseInterface σ) (Major Minor : Nat)
    (a b : DatabaseArchive σ) (r : Bool) (h : fetchVersion D Major Minor a = .ok (r, b)) :
    b.objectIdCache = a.objectIdCache := by
  unfold fetchVersion at h
  split at h
  · cases h; rfl
  · split at h
    · cases h
    · rename_i began a1 h1
      have q1 := (dbBeginQuery_quiet D _ a1 _ began h1).1
      split at h
      · cases h2 : a1.dbEndQuery D with
        | error e => rw [h2] at h; cases h
        | ok a2 =>
          rw [h2] at h
          have q := (dbEndQuery_quiet D a1 a2 h2).1.trans q1
          cases h
          exact q
      · split at h
        · cases h
        · rename_i row a2 h2
          have q2 := (dbFetchRow_quiet D a1 a2 row h2).1.trans q1
          split at h
          · cases h3 : dbEndQuery D
                { a2 with errorMsg :=
                    "Unable to read schema version from database (empty result set)" } with
            | error e => rw [h3] at h; cases h
            | ok a3 =>
              rw [h3] at h
              have q := (dbEndQuery_quiet D _ a3 h3).1.trans q2
              cases h
              exact q
          · split at h
            · cases h
            · rename_i f hf
              split at h
              · cases h3 : dbEndQuery D
                    { a2 with errorMsg := "Invalid schema version in database: " ++ f } with
                | error e => rw [h3] at h; cases h
                | ok a3 =>
                  rw [h3] at h
                  have q := (dbEndQuery_quiet D _ a3 h3).1.trans q2
                  cases h
                  exact q
              · rename_i v hv
                split at h
                · cases h
                · rename_i a3 h3
                  have q3 := (dbEndQuery_quiet D a2 a3 h3).1.trans q2
                  split at h
                  · cases h4 : dbEndQuery D
                        { a3 with
                          version := ⟨v.majorTag, v.minorTag, 0⟩,
                          errorMsg := notSupportedMsg ⟨v.majorTag, v.minorTag, 0⟩ } with
                    | error e => rw [h4] at h; cases h
                    | ok a4 =>
                      rw [h4] at h
                      have q := (dbEndQuery_quiet D _ a4 h4).1.trans q3
                      cases h
                      exact q
                  · cases h
                    exact q3

theorem afterFetchVersion_cache (D : DatabaseInterface σ) (r : Bool × DatabaseArchive σ) :
    (afterFetchVersion D r).objectIdCache = r.2.objectIdCache := by
  obtain ⟨ok, b⟩ := r
  unfold afterFetchVersion
  cases ok
  · simp only [Bool.false_eq_true, if_false]
    split
    · exact close_cache b
    · exact close_cache b
  · simp only [if_true]
    split <;> rfl

theorem getCachedId_of_empty (a : DatabaseArchive σ) (h : a.objectIdCache = []) (o : Nat) :
    a.getCachedId o = INVALID_OID := by
  unfold getCachedId
  rw [h]
  rfl

end DatabaseArchive

/-- C20 as it is stated fails: `close()` of the test archive that has cached
the oid 8 of `testPick` leaves the cache with this one entry. -/
theorem C20_close_keeps_cache :
    testPickWritten.close.getCacheSize = 1 ∧
    testPickWritten.close.getCachedId testPick.id = 8 ∧
    testPickWritten.close.getCachedId testPick.id ≠ INVALID_OID := by
  refine ⟨by decide!, by decide!, by decide!⟩

/-- C20, amended: `close()` leaves the archive without driver and the identity
cache as it is, so `getCacheSize()` and `getCachedId(o)` answer as before the
call; the cache is emptied by `setDriver`, after which `getCacheSize()` is 0
and `getCachedId(o)` is the invalid sentinel for every object. -/
theorem C20_close_and_setDriver_cache {σ : Type} (D : DatabaseInterface σ)
    (Major Minor : Nat) (a : DatabaseArchive σ) :
    a.close.db = none ∧
    a.close.objectIdCache = a.objectIdCache ∧
    a.close.getCacheSize = a.getCacheSize ∧
    (∀ o, a.close.getCachedId o = a.getCachedId o) ∧
    (∀ (db : Option σ) (a1 : DatabaseArchive σ),
      a.setDriver D Major Minor db = .ok a1 →
      a1.getCacheSize = 0 ∧ ∀ o, a1.getCachedId o = INVALID_OID) := by
  have hc := DatabaseArchive.close_cache a
  refine ⟨DatabaseArchive.close_db a, hc, ?_, ?_, ?_⟩
  · unfold DatabaseArchive.getCacheSize
    rw [hc]
  · intro o
    unfold DatabaseArchive.getCachedId
    rw [hc]
  · intro db a1 h
    unfold DatabaseArchive.setDriver at h
    cases hf : DatabaseArchive.fetchVersion D Major Minor
        { a with objectIdCache := [], db := db, errorMsg := "" } with
    | error e => rw [hf] at h; cases h
    | ok r =>
      rw [hf] at h
      cases h
      have h1 := DatabaseArchive.fetchVersion_cache D Major Minor _ r.2 r.1 hf
      have h2 : (DatabaseArchive.afterFetchVersion D r).objectIdCache = [] :=
        (DatabaseArchive.afterFetchVersion_cache D r).trans h1
      refine ⟨?_, DatabaseArchive.getCachedId_of_empty _ h2⟩
      unfold DatabaseArchive.getCacheSize
      rw [h2]
      rfl

/-- C20, amended, on the test archive that has cached the oid of `testPick`:
`setDriver` with the test database empties the cache. -/
theorem C20_close_and_setDriver_cache_witness :
    testPickWritten.setDriver testDriver 0 12 (some (testDb true "0.12.0")) =
      .ok testPickRedriven ∧
    testPickRedriven.getCacheSize = 0 ∧ ∀ o, testPickRedriven.getCachedId o = INVALID_OID :=
  ⟨by decide!,
    (C20_close_and_setDriver_cache testDriver 0 12 testPickWritten).2.2.2.2
      (some (testDb true "0.12.0")) testPickRedriven (by decide!)⟩

end DataModel
end Seiscomp

namespace Seiscomp
namespace DataModel

theorem append_ne_publicID (n suffix : String) (c : Char)
    (hs : suffix.data.reverse.head? = some c) (hc : c ≠ 'D') : n ++ suffix ≠ "publicID" := by
  intro h
  have h1 := congrArg (fun s : String => s.data.reverse.head?) h
  simp only [String.data_append, List.reverse_append] at h1
  cases hr : suffix.data.reverse with
  | nil => rw [hr] at hs; cases hs
  | cons d ds =>
    rw [hr] at hs h1
    simp only [List.head?_cons, Option.some.injEq] at hs
    subst hs
    have h2 : some d = some 'D' := h1
    exact hc (Option.some.inj h2)

namespace DatabaseArchive

variable {σ : Type}

/-- For an attribute that is not the top-level `publicID`, `writeAttrib`
assigns the value under the converted index name in the map it stores into and
changes nothing else of what decides where attributes go. -/
theorem writeAttrib_stored (D : DatabaseInterface σ) (a : DatabaseArchive σ) (s : σ)
    (value : Option String) (mp : AttributeMap)
    (hcol : ¬(a.currentAttributePrefix = "" ∧ a.currentAttributeName = "publicID"))
    (hdb : a.db = some s) (htarget : a.storeTarget = .ok mp) :
    ∃ a2 : DatabaseArchive σ, a.writeAttrib D value = .ok a2 ∧
      a2.storeTarget = .ok (AttributeMap.assign mp (D.convertColumnName a.attribIndexName) value) ∧
      a2.db = a.db ∧ a2.hint = a.hint ∧
      a2.currentAttributePrefix = a.currentAttributePrefix ∧
      a2.currentAttributeName = a.currentAttributeName ∧
      a2.prefixPos = a.prefixPos ∧ a2.log = a.log := by
  unfold writeAttrib
  rw [if_neg hcol, hdb]
  dsimp only
  unfold storeTarget at htarget
  by_cases hi : (a.hint.INDEX_ATTRIBUTE && a.ignoreIndexAttributes) = true
  · rw [if_pos hi] at htarget
    rw [if_pos hi]
    cases htarget
    refine ⟨_, rfl, ?_, rfl, rfl, rfl, rfl, rfl, rfl⟩
    unfold storeTarget
    dsimp only
    rw [if_pos hi]
  · rw [if_neg hi] at htarget
    rw [if_neg hi]
    unfold currentAttributes at htarget
    cases hobj : a.objectAttributes with
    | null => rw [hobj] at htarget; cases htarget
    | root =>
      rw [hobj] at htarget
      cases htarget
      refine ⟨_, rfl, ?_, rfl, rfl, rfl, rfl, rfl, rfl⟩
      unfold storeTarget currentAttributes
      dsimp only
      rw [if_neg hi]
    | child i =>
      rw [hobj] at htarget
      dsimp only at htarget ⊢
      cases ht : a.childTables.get? i with
      | none => rw [ht] at htarget; cases htarget
      | some t =>
        rw [ht] at htarget
        cases htarget
        refine ⟨_, rfl, ?_, rfl, rfl, rfl, rfl, rfl, rfl⟩
        unfold storeTarget currentAttributes
        dsimp only
        rw [if_neg hi]
        have hlt : i < a.childTables.length := by
          rw [List.get?_eq_some] at ht
          exact ht.1
        simp [hlt]

theorem storeTarget_congr (a b : DatabaseArchive σ) (h1 : b.hint = a.hint)
    (h2 : b.ignoreIndexAttributes = a.ignoreIndexAttributes)
    (h3 : b.indexAttributes = a.indexAttributes) (h4 : b.objectAttributes = a.objectAttributes)
    (h5 : b.rootAttributes = a.rootAttributes) (h6 : b.childTables = a.childTables) :
    b.storeTarget = a.storeTarget := by
  unfold storeTarget currentAttributes
  rw [h1, h2, h3, h4, h5, h6]

end DatabaseArchive

/-- C13: `write(t)` of a timestamp for a named attribute (not the top-level
`publicID`, which `writeAttrib` never stores) whose column name, before the
driver converts it, is `c`.  With the `SPLIT_TIME` hint the map the writer
stores into gains exactly two assignments, `c ↦ 'timeToString(t)'` (single
quoted) and `c_ms ↦` the decimal microseconds of `t`, and the current
attribute name is `c`'s again afterwards; without the hint only the entry for
`c` is assigned.  For the attribute `time`, the rendering
`2024-01-02 03:04:05` and 123456 microseconds the entries are
`time = '2024-01-02 03:04:05'` and `time_ms = 123456`. -/
theorem C13_write_time_split {σ : Type} (D : DatabaseInterface σ) (a : DatabaseArchive σ)
    (s : σ) (t : Time) (mp : AttributeMap)
    (hdb : a.db = some s) (htarget : a.storeTarget = .ok mp)
    (hname : a.currentAttributeName ≠ "")
    (hcol : ¬(a.currentAttributePrefix = "" ∧ a.currentAttributeName = "publicID")) :
    (a.hint.SPLIT_TIME = true →
      ∃ a2 : DatabaseArchive σ, a.writeValue D (Value.time t) = .ok a2 ∧
        a2.storeTarget = .ok
          (AttributeMap.assign
            (AttributeMap.assign mp (D.convertColumnName a.attribIndexName)
              (some ("'" ++ D.timeToString t ++ "'")))
            (D.convertColumnName (a.attribIndexName ++ MICROSECONDS_POSTFIX))
            (some (toString (t.usecs : Int)))) ∧
        a2.currentAttributeName = a.currentAttributeName) ∧
    (a.hint.SPLIT_TIME = false →
      ∃ a2 : DatabaseArchive σ, a.writeValue D (Value.time t) = .ok a2 ∧
        a2.storeTarget = .ok
          (AttributeMap.assign mp (D.convertColumnName a.attribIndexName)
            (some ("'" ++ D.timeToString t ++ "'"))) ∧
        a2.currentAttributeName = a.currentAttributeName) ∧
    (a.hint.SPLIT_TIME = true → a.currentAttributePrefix = "" →
      a.currentAttributeName = "time" → mp = [] →
      D.convertColumnName "time" = "time" → D.convertColumnName "time_ms" = "time_ms" →
      D.timeToString t = "2024-01-02 03:04:05" → t.usecs = 123456 →
      ∃ a2 : DatabaseArchive σ, a.writeValue D (Value.time t) = .ok a2 ∧
        a2.storeTarget = .ok
          [("time", some "'2024-01-02 03:04:05'"), ("time_ms", some "123456")]) := by
  obtain ⟨a1, hw1, hst1, hdb1, hhint1, hpre1, hname1, -, -⟩ :=
    DatabaseArchive.writeAttrib_stored D a s (some ("'" ++ D.timeToString t ++ "'")) mp hcol hdb
      htarget
  have hrun : a.writeValue D (Value.time t) =
      (if a1.hint.SPLIT_TIME then
        match DatabaseArchive.writeAttrib D
            { a1 with currentAttributeName := a1.currentAttributeName ++ MICROSECONDS_POSTFIX }
            (some (toString (t.usecs : Int))) with
        | .error e => .error e
        | .ok a2 => .ok { a2 with currentAttributeName := a1.currentAttributeName }
       else .ok a1) := by
    simp only [DatabaseArchive.writeValue]
    rw [hdb]
    dsimp only
    rw [hw1]
  have hsplit : a.hint.SPLIT_TIME = true →
      ∃ a2 : DatabaseArchive σ, a.writeValue D (Value.time t) = .ok a2 ∧
        a2.storeTarget = .ok
          (AttributeMap.assign
            (AttributeMap.assign mp (D.convertColumnName a.attribIndexName)
              (some ("'" ++ D.timeToString t ++ "'")))
            (D.convertColumnName (a.attribIndexName ++ MICROSECONDS_POSTFIX))
            (some (toString (t.usecs : Int)))) ∧
        a2.currentAttributeName = a.currentAttributeName := by
    intro hs
    have hcol2 : ¬(({ a1 with currentAttributeName :=
        a1.currentAttributeName ++ MICROSECONDS_POSTFIX } : DatabaseArchive σ).currentAttributePrefix
          = "" ∧
        ({ a1 with currentAttributeName :=
          a1.currentAttributeName ++ MICROSECONDS_POSTFIX } : DatabaseArchive σ).currentAttributeName
          = "publicID") := by
      intro h
      exact append_ne_publicID a1.currentAttributeName MICROSECONDS_POSTFIX 's' (by decide)
        (by decide) h.2
    have hst1' : DatabaseArchive.storeTarget
        { a1 with currentAttributeName := a1.currentAttributeName ++ MICROSECONDS_POSTFIX } =
        .ok (AttributeMap.assign mp (D.convertColumnName a.attribIndexName)
              (some ("'" ++ D.timeToString t ++ "'"))) := by
      rw [← hst1]
      exact DatabaseArchive.storeTarget_congr _ _ rfl rfl rfl rfl rfl rfl
    obtain ⟨a2, hw2, hst2, -, hhint2, -, -, -, -⟩ :=
      DatabaseArchive.writeAttrib_stored D
        { a1 with currentAttributeName := a1.currentAttributeName ++ MICROSECONDS_POSTFIX }
        s (some (toString (t.usecs : Int))) _ hcol2 (hdb1.trans hdb) hst1'
    have hidx : DatabaseArchive.attribIndexName
        { a1 with currentAttributeName := a1.currentAttributeName ++ MICROSECONDS_POSTFIX } =
        a.attribIndexName ++ MICROSECONDS_POSTFIX := by
      unfold DatabaseArchive.attribIndexName
      dsimp only
      rw [hpre1, hname1]
      by_cases hp : a.currentAttributePrefix = ""
      · rw [if_pos hp, if_pos hp]
      · have hne : a.currentAttributeName ++ MICROSECONDS_POSTFIX ≠ "" := by
          apply str_ne_empty_of_length_pos
          rw [String.length_append]
          have : 0 < MICROSECONDS_POSTFIX.length := by decide
          omega
        rw [if_neg hp, if_neg hp, if_neg hne, if_neg hname]
        simp [String.append_assoc]
    rw [hidx] at hst2
    refine ⟨{ a2 with currentAttributeName := a1.currentAttributeName }, ?_, ?_, hname1⟩
    · have hs1 : a1.hint.SPLIT_TIME = true := by rw [hhint1]; exact hs
      rw [hrun, if_pos hs1, hw2]
    · rw [← hst2]
      exact DatabaseArchive.storeTarget_congr _ _ rfl rfl rfl rfl rfl rfl
  refine ⟨hsplit, ?_, ?_⟩
  · intro hs
    refine ⟨a1, ?_, hst1, hname1⟩
    have hs1 : ¬a1.hint.SPLIT_TIME = true := by rw [hhint1, hs]; decide
    rw [hrun, if_neg hs1]
  · intro hs hp hn hmp hc1 hc2 ht hu
    obtain ⟨a2, hw, hst, -⟩ := hsplit hs
    refine ⟨a2, hw, ?_⟩
    have hidx : a.attribIndexName = "time" := by
      unfold DatabaseArchive.attribIndexName
      rw [if_pos hp, hn]
    have hms : "time" ++ MICROSECONDS_POSTFIX = "time_ms" := by decide
    rw [hst, hidx, hms, hc1, hc2, ht, hu, hmp]
    rfl

end DataModel
end Seiscomp

namespace Seiscomp
namespace DataModel

theorem isEmpty_some (n : String) (h : n ≠ "") : isEmpty (some n) = false := by
  unfold isEmpty
  simp [h]

/-- C12: in writer mode without the `DB_TABLE` hint, for a non-empty
attribute name `n` and a non-empty target class `S`, on an archive with a
driver.  After `locateNullObjectByName(n, S)` the map the writer stores into
has the column `<prefix>n_used` with the literal `'0'`; every other column is
as before, a column that was not there is added as one entry at the end, and
the prefix stack is untouched.  `locateObjectByName(n, S, nullable = true)`
returns true, pushes `n` onto the prefix stack and leaves the same column
`<prefix>n_used` with the literal `'1'`.  Here `<prefix>` is the current prefix
followed by the separator, or nothing when the prefix is empty, and the driver
converts the name. -/
theorem C12_nullable_struct_used_column {σ : Type} (D : DatabaseInterface σ)
    (a : DatabaseArchive σ) (s : σ) (n S : String) (first : Bool) (mp : AttributeMap)
    (hwriter : a.isReading = false) (htable : a.hint.DB_TABLE = false)
    (hn : n ≠ "") (hS : S ≠ "") (hdb : a.db = some s) (htarget : a.storeTarget = .ok mp) :
    (∃ (a1 : DatabaseArchive σ) (mp1 : AttributeMap),
      DatabaseArchive.locateNullObjectByName D a (some n) (some S) first = .ok a1 ∧
      a1.storeTarget = .ok mp1 ∧
      mp1.find (D.convertColumnName
          (if a.currentAttributePrefix = "" then n ++ "_used"
           else a.currentAttributePrefix ++ "_" ++ (n ++ "_used"))) = some (some "'0'") ∧
      (∀ c, c ≠ D.convertColumnName
          (if a.currentAttributePrefix = "" then n ++ "_used"
           else a.currentAttributePrefix ++ "_" ++ (n ++ "_used")) →
        mp1.find c = mp.find c) ∧
      (mp.find (D.convertColumnName
          (if a.currentAttributePrefix = "" then n ++ "_used"
           else a.currentAttributePrefix ++ "_" ++ (n ++ "_used"))) = none →
        mp1 = mp ++ [(D.convertColumnName
          (if a.currentAttributePrefix = "" then n ++ "_used"
           else a.currentAttributePrefix ++ "_" ++ (n ++ "_used")), some "'0'")]) ∧
      a1.prefixPos = a.prefixPos ∧ a1.currentAttributePrefix = a.currentAttributePrefix) ∧
    (a.prefixPos < 64 →
      ∃ (a1 : DatabaseArchive σ) (mp1 : AttributeMap),
        DatabaseArchive.locateObjectByName D a (some n) (some S) true = .ok (true, a1) ∧
        a1.storeTarget = .ok mp1 ∧
        mp1.find (D.convertColumnName
            (if a.currentAttributePrefix = "" then n ++ "_used"
             else a.currentAttributePrefix ++ "_" ++ (n ++ "_used"))) = some (some "'1'") ∧
        (∀ c, c ≠ D.convertColumnName
            (if a.currentAttributePrefix = "" then n ++ "_used"
             else a.currentAttributePrefix ++ "_" ++ (n ++ "_used")) →
          mp1.find c = mp.find c) ∧
        (mp.find (D.convertColumnName
            (if a.currentAttributePrefix = "" then n ++ "_used"
             else a.currentAttributePrefix ++ "_" ++ (n ++ "_used"))) = none →
          mp1 = mp ++ [(D.convertColumnName
            (if a.currentAttributePrefix = "" then n ++ "_used"
             else a.currentAttributePrefix ++ "_" ++ (n ++ "_used")), some "'1'")]) ∧
        a1.prefixPos = a.prefixPos + 1 ∧
        a1.currentAttributePrefix =
          (if a.currentAttributePrefix = "" then n
           else a.currentAttributePrefix ++ "_" ++ n)) := by
  have hen := isEmpty_some n hn
  have heS := isEmpty_some S hS
  have hsep : ATTRIBUTE_SEPERATOR = "_" := rfl
  constructor
  · -- the absent struct
    have hpost : ATTRIBUTE_SEPERATOR ++ "" ++ OBJECT_USED_POSTFIX = "_used" := by decide
    have hname : n ++ "_used" ≠ "" := by
      apply str_ne_empty_of_length_pos
      rw [String.length_append]
      have : 0 < "_used".length := by decide
      omega
    have hcol : ¬(({ a with currentAttributeName := n ++ "_used" } :
          DatabaseArchive σ).currentAttributePrefix = "" ∧
        ({ a with currentAttributeName := n ++ "_used" } :
          DatabaseArchive σ).currentAttributeName = "publicID") := by
      intro h
      exact append_ne_publicID n "_used" 'd' (by decide) (by decide) h.2
    have hst : DatabaseArchive.storeTarget { a with currentAttributeName := n ++ "_used" } =
        .ok mp := by
      rw [← htarget]
      exact DatabaseArchive.storeTarget_congr _ _ rfl rfl rfl rfl rfl rfl
    obtain ⟨a1, hw, hst1, -, -, hpre, -, hpos, -⟩ :=
      DatabaseArchive.writeAttrib_stored D { a with currentAttributeName := n ++ "_used" } s
        (some "'0'") mp hcol hdb hst
    have hidx : DatabaseArchive.attribIndexName { a with currentAttributeName := n ++ "_used" } =
        (if a.currentAttributePrefix = "" then n ++ "_used"
         else a.currentAttributePrefix ++ "_" ++ (n ++ "_used")) := by
      unfold DatabaseArchive.attribIndexName
      dsimp only
      by_cases hp : a.currentAttributePrefix = ""
      · rw [if_pos hp, if_pos hp]
      · rw [if_neg hp, if_neg hp, if_neg hname, hsep]
    rw [hidx] at hst1
    refine ⟨a1, _, ?_, hst1, AttributeMap.find_assign_self _ _ _, ?_,
      assign_of_find_none _ _ _, hpos, hpre⟩
    · unfold DatabaseArchive.locateNullObjectByName
      rw [hen, heS, htable]
      simp only [Bool.not_false, if_true, Option.getD_some, hpost]
      exact hw
    · intro c hc
      exact AttributeMap.find_assign_ne _ _ _ _ hc
  · -- the present struct
    intro hroom
    obtain ⟨b, hpush, hpos, hpre, hdbb, hhint, h5, h6, h7, h8, h9⟩ :=
      DatabaseArchive.pushAttributePrefix_some a n hroom
    rw [hsep] at hpre
    have hbne : b.currentAttributePrefix ≠ "" := by
      rw [hpre]
      apply str_ne_empty_of_length_pos
      have hl := strLength_pos_of_ne_empty n hn
      by_cases hp : a.currentAttributePrefix = ""
      · rw [if_pos hp]; exact hl
      · rw [if_neg hp, String.length_append]
        omega
    have hcol : ¬(({ b with currentAttributeName := OBJECT_USED_POSTFIX } :
          DatabaseArchive σ).currentAttributePrefix = "" ∧
        ({ b with currentAttributeName := OBJECT_USED_POSTFIX } :
          DatabaseArchive σ).currentAttributeName = "publicID") := fun h => hbne h.1
    have hst : DatabaseArchive.storeTarget { b with currentAttributeName := OBJECT_USED_POSTFIX } =
        .ok mp := by
      rw [← htarget]
      exact DatabaseArchive.storeTarget_congr _ _ hhint h5 h6 h7 h8 h9
    obtain ⟨a1, hw, hst1, -, -, hpre1, -, hpos1, -⟩ :=
      DatabaseArchive.writeAttrib_stored D { b with currentAttributeName := OBJECT_USED_POSTFIX }
        s (some "'1'") mp hcol (hdbb.trans hdb) hst
    have hidx : DatabaseArchive.attribIndexName
        { b with currentAttributeName := OBJECT_USED_POSTFIX } =
        (if a.currentAttributePrefix = "" then n ++ "_used"
         else a.currentAttributePrefix ++ "_" ++ (n ++ "_used")) := by
      unfold DatabaseArchive.attribIndexName
      dsimp only
      have hu : OBJECT_USED_POSTFIX ≠ "" := by decide
      rw [if_neg hbne, if_neg hu, hpre, hsep]
      by_cases hp : a.currentAttributePrefix = ""
      · rw [if_pos hp, if_pos hp]
        have : "_" ++ OBJECT_USED_POSTFIX = "_used" := by decide
        rw [String.append_assoc, this]
      · rw [if_neg hp, if_neg hp]
        have : "_" ++ OBJECT_USED_POSTFIX = "_used" := by decide
        rw [String.append_assoc, String.append_assoc, this, String.append_assoc]
    rw [hidx] at hst1
    refine ⟨a1, _, ?_, hst1, AttributeMap.find_assign_self _ _ _,
      fun c hc => AttributeMap.find_assign_ne _ _ _ _ hc,
      assign_of_find_none _ _ _, hpos1.trans hpos, hpre1.trans hpre⟩
    unfold DatabaseArchive.locateObjectByName
    rw [hwriter, heS, hen]
    simp only [Bool.not_false, if_true]
    rw [hpush]
    dsimp only
    have hbt : b.hint.DB_TABLE = false := by rw [hhint]; exact htable
    rw [hbt]
    simp only [Bool.false_eq_true, if_false, if_true]
    simp only [DatabaseArchive.writeValue, if_true]
    rw [hw]

end DataModel
end Seiscomp

namespace Seiscomp
namespace DataModel

/-- C13 on the test archive with the calendar rendering: the time
2024-01-02T03:04:05.123456Z written for the attribute `time`. -/
theorem C13_write_time_split_witness :
    ∃ a2 : DatabaseArchive TestDb,
      testTimeWriter.writeValue testCalendarDriver (Value.time ⟨1704164645, 123456⟩) = .ok a2 ∧
      a2.storeTarget = .ok
        [("time", some "'2024-01-02 03:04:05'"), ("time_ms", some "123456")] :=
  (C13_write_time_split testCalendarDriver testTimeWriter (testDb true "0.12.0")
    ⟨1704164645, 123456⟩ [] rfl rfl (by decide) (by decide)).2.2
    rfl rfl rfl rfl rfl rfl (by decide) rfl

/-- C12 on the test archive in writer mode, for the nullable struct
`uncertainty` of class `Uncertainty`: the absent struct leaves the map
`[(uncertainty_used, '0')]` and the prefix stack empty, the present struct
leaves `[(uncertainty_used, '1')]` and the prefix `uncertainty` at depth 1. -/
theorem C12_nullable_struct_used_column_witness :
    ((∃ (a1 : DatabaseArchive TestDb) (mp1 : AttributeMap),
      DatabaseArchive.locateNullObjectByName testDriver testWriter (some "uncertainty")
        (some "Uncertainty") true = .ok a1 ∧
      a1.storeTarget = .ok mp1 ∧
      mp1.find (testDriver.convertColumnName
          (if testWriter.currentAttributePrefix = "" then "uncertainty" ++ "_used"
           else testWriter.currentAttributePrefix ++ "_" ++ ("uncertainty" ++ "_used"))) =
        some (some "'0'") ∧
      (∀ c, c ≠ testDriver.convertColumnName
          (if testWriter.currentAttributePrefix = "" then "uncertainty" ++ "_used"
           else testWriter.currentAttributePrefix ++ "_" ++ ("uncertainty" ++ "_used")) →
        mp1.find c = AttributeMap.find [] c) ∧
      (AttributeMap.find [] (testDriver.convertColumnName
          (if testWriter.currentAttributePrefix = "" then "uncertainty" ++ "_used"
           else testWriter.currentAttributePrefix ++ "_" ++ ("uncertainty" ++ "_used"))) =
          none →
        mp1 = [] ++ [(testDriver.convertColumnName
          (if testWriter.currentAttributePrefix = "" then "uncertainty" ++ "_used"
           else testWriter.currentAttributePrefix ++ "_" ++ ("uncertainty" ++ "_used")),
          some "'0'")]) ∧
      a1.prefixPos = testWriter.prefixPos ∧
      a1.currentAttributePrefix = testWriter.currentAttributePrefix) ∧
    (testWriter.prefixPos < 64 →
      ∃ (a1 : DatabaseArchive TestDb) (mp1 : AttributeMap),
        DatabaseArchive.locateObjectByName testDriver testWriter (some "uncertainty")
          (some "Uncertainty") true = .ok (true, a1) ∧
        a1.storeTarget = .ok mp1 ∧
        mp1.find (testDriver.convertColumnName
            (if testWriter.currentAttributePrefix = "" then "uncertainty" ++ "_used"
             else testWriter.currentAttributePrefix ++ "_" ++ ("uncertainty" ++ "_used"))) =
          some (some "'1'") ∧
        (∀ c, c ≠ testDriver.convertColumnName
            (if testWriter.currentAttributePrefix = "" then "uncertainty" ++ "_used"
             else testWriter.currentAttributePrefix ++ "_" ++ ("uncertainty" ++ "_used")) →
          mp1.find c = AttributeMap.find [] c) ∧
        (AttributeMap.find [] (testDriver.convertColumnName
            (if testWriter.currentAttributePrefix = "" then "uncertainty" ++ "_used"
             else testWriter.currentAttributePrefix ++ "_" ++ ("uncertainty" ++ "_used"))) =
            none →
          mp1 = [] ++ [(testDriver.convertColumnName
            (if testWriter.currentAttributePrefix = "" then "uncertainty" ++ "_used"
             else testWriter.currentAttributePrefix ++ "_" ++ ("uncertainty" ++ "_used")),
            some "'1'")]) ∧
        a1.prefixPos = testWriter.prefixPos + 1 ∧
        a1.currentAttributePrefix =
          (if testWriter.currentAttributePrefix = "" then "uncertainty"
           else testWriter.currentAttributePrefix ++ "_" ++ "uncertainty"))) ∧
    (DatabaseArchive.locateNullObjectByName testDriver testWriter (some "uncertainty")
        (some "Uncertainty") true).map
        (fun a1 => (a1.rootAttributes, a1.prefixPos, a1.currentAttributePrefix)) =
      .ok ([("uncertainty_used", some "'0'")], 0, "") ∧
    (DatabaseArchive.locateObjectByName testDriver testWriter (some "uncertainty")
        (some "Uncertainty") true).map
        (fun r => (r.1, r.2.rootAttributes, r.2.prefixPos, r.2.currentAttributePrefix)) =
      .ok (true, [("uncertainty_used", some "'1'")], 1, "uncertainty") ∧
    (DatabaseArchive.locateNullObjectByName testDriver
        { testWriter with
          rootAttributes := [("phase", some "'P'")], currentAttributePrefix := "origin",
          prefixPos := 1 }
        (some "uncertainty") (some "Uncertainty") true).map
        (fun a1 => (a1.rootAttributes, a1.prefixPos, a1.currentAttributePrefix)) =
      .ok ([("phase", some "'P'"), ("origin_uncertainty_used", some "'0'")], 1, "origin") :=
  ⟨C12_nullable_struct_used_column testDriver testWriter (testDb true "0.12.0")
    "uncertainty" "Uncertainty" true [] rfl rfl (by decide) (by decide) rfl rfl,
   by decide!, by decide!, by decide!⟩

end DataModel
end Seiscomp

namespace Seiscomp
namespace DataModel

namespace DatabaseArchive

variable {σ : Type}

theorem db_of_dbEndQuery (D : DatabaseInterface σ) (a b : DatabaseArchive σ)
    (h : a.dbEndQuery D = .ok b) : ∃ s, b.db = some s := by
  unfold dbEndQuery at h
  split at h
  · cases h
  · cases h
    exact ⟨_, rfl⟩

/-- When `objectIdQuery` finds an oid the archive still has its driver. -/
theorem db_of_objectIdQuery (D : DatabaseInterface σ) (a b : DatabaseArchive σ)
    (object : Object) (iParentID id : OID)
    (h : a.objectIdQuery D object iParentID = .ok (id, b)) (hid : id ≠ INVALID_OID) :
    ∃ s, b.db = some s := by
  unfold objectIdQuery at h
  split at h
  · cases h
  · split at h
    · cases h; exact absurd rfl hid
    · split at h
      · cases h
      · split at h
        · cases h
        · split at h
          · cases h; exact absurd rfl hid
          · split at h
            · cases h
            · split at h
              · split at h
                · cases h
                · split at h
                  · cases h
                  · rename_i a4 h4
                    have q := db_of_dbEndQuery D _ a4 h4
                    cases h
                    exact q
              · split at h
                · cases h
                · cases h; exact absurd rfl hid

/-- When `objectId` finds an oid the archive still has its driver. -/
theorem db_of_objectId (D : DatabaseInterface σ) (a b : DatabaseArchive σ)
    (object : Object) (parentID : String) (id : OID)
    (h : a.objectId D object parentID = .ok (id, b)) (hid : id ≠ INVALID_OID) :
    ∃ s, b.db = some s := by
  unfold objectId at h
  split at h
  · obtain ⟨s, s1, evs, -, -, rfl⟩ := publicObjectId_ok D a b _ id h
    exact ⟨s1, rfl⟩
  · split at h
    · split at h
      · split at h
        · cases h
        · split at h
          · exact db_of_objectIdQuery D _ b object _ id h hid
          · cases h; exact absurd rfl hid
      · exact db_of_objectIdQuery D _ b object _ id h hid
    · split at h
      · split at h
        · cases h
        · split at h
          · exact db_of_objectIdQuery D _ b object _ id h hid
          · cases h; exact absurd rfl hid
      · cases h; exact absurd rfl hid

/-- The deletes of `remove` on an archive with a driver. -/
theorem removeRows_of_db (D : DatabaseInterface σ) (a : DatabaseArchive σ) (object : Object)
    (id : OID) (s : σ) (hdb : a.db = some s) :
    ∃ (r1 r2 r3 : Bool) (a' : DatabaseArchive σ),
      a.removeRows D object id = .ok (true, a') ∧
      a'.log = a.log ++
        ([Event.execute (deleteFromSql object.className id) r1] ++
          (if object.publicID.isSome then
            [Event.execute (deleteFromSql PublicObject_ClassName id) r2] else []) ++
          [Event.execute (deleteFromSql Object_ClassName id) r3]) ∧
      a'.getCachedId object.id = INVALID_OID := by
  obtain ⟨r1, b1, s1, h1, hdb1, hlog1, -⟩ :=
    dbExecute_total D a (deleteFromSql object.className id) s hdb
  cases hpub : object.publicID.isSome with
  | true =>
    obtain ⟨r2, b2, s2, h2, hdb2, hlog2, -⟩ :=
      dbExecute_total D b1 (deleteFromSql PublicObject_ClassName id) s1 hdb1
    obtain ⟨r3, b3, s3, h3, hdb3, hlog3, -⟩ :=
      dbExecute_total D b2 (deleteObjectSql id) s2 hdb2
    refine ⟨r1, r2, r3, b3.removeId object.id, ?_, ?_, getCachedId_removeId_self _ _⟩
    · unfold removeRows
      rw [h1]
      dsimp only
      rw [hpub, if_pos rfl, h2]
      dsimp only
      unfold deleteObject
      rw [h3]
    · show b3.log = _
      rw [hlog3, hlog2, hlog1]
      simp [deleteObjectSql, deleteFromSql]
  | false =>
    obtain ⟨r3, b3, s3, h3, hdb3, hlog3, -⟩ :=
      dbExecute_total D b1 (deleteObjectSql id) s1 hdb1
    refine ⟨r1, true, r3, b3.removeId object.id, ?_, ?_, getCachedId_removeId_self _ _⟩
    · unfold removeRows
      rw [h1]
      dsimp only
      rw [hpub]
      simp only [Bool.false_eq_true, if_false]
      unfold deleteObject
      rw [h3]
    · show b3.log = _
      rw [hlog3, hlog1]
      simp [deleteObjectSql, deleteFromSql]

end DatabaseArchive

/-- C17: `remove(object, parentId)` on an archive with a driver, for an object
whose oid resolves to `id` (from the identity cache, else by the `objectId`
lookup).  After the resolution the archive executes, in this order and with
nothing between, `delete from <class> where _oid=id`, then exactly when the
object is a PublicObject `delete from PublicObject where _oid=id`, then
`delete from Object where _oid=id`; it returns true and `getCachedId(object)`
is the invalid sentinel afterwards. -/
theorem C17_remove_deletes_in_order {σ : Type} (D : DatabaseInterface σ)
    (a a1 : DatabaseArchive σ) (object : Object) (parentID : String) (id : OID)
    (hdriver : a.validInterface = true)
    (hresolve : a.removeResolve D object parentID = .ok (id, a1))
    (hid : id ≠ INVALID_OID) :
    ∃ (r1 r2 r3 : Bool) (a' : DatabaseArchive σ),
      a.remove D object parentID = .ok (true, a') ∧
      a'.log = a1.log ++
        ([Event.execute ("delete from " ++ object.className ++ " where _oid=" ++ toString id) r1]
          ++ (if object.publicID.isSome then
            [Event.execute ("delete from PublicObject where _oid=" ++ toString id) r2] else [])
          ++ [Event.execute ("delete from Object where _oid=" ++ toString id) r3]) ∧
      a'.getCachedId object.id = INVALID_OID := by
  have hdb : ∃ s, a.db = some s := by
    unfold DatabaseArchive.validInterface at hdriver
    cases h : a.db with
    | none => rw [h] at hdriver; cases hdriver
    | some s => exact ⟨s, rfl⟩
  obtain ⟨s, hs⟩ := hdb
  have hrun : a.remove D object parentID = a1.removeRows D object id ∧ ∃ s1, a1.db = some s1 := by
    unfold DatabaseArchive.removeResolve at hresolve
    unfold DatabaseArchive.remove
    rw [hdriver]
    simp only [Bool.not_true, Bool.false_eq_true, if_false]
    by_cases hc : a.getCachedId object.id = INVALID_OID
    · rw [if_pos hc] at hresolve
      rw [if_pos hc, hresolve]
      dsimp only
      rw [if_neg hid]
      exact ⟨rfl, DatabaseArchive.db_of_objectId D _ a1 object parentID id hresolve hid⟩
    · rw [if_neg hc] at hresolve
      rw [if_neg hc]
      cases hresolve
      exact ⟨rfl, s, hs⟩
  obtain ⟨hrem, s1, hs1⟩ := hrun
  obtain ⟨r1, r2, r3, a', h1, h2, h3⟩ := DatabaseArchive.removeRows_of_db D a1 object id s1 hs1
  refine ⟨r1, r2, r3, a', hrem.trans h1, ?_, h3⟩
  rw [h2]
  rfl

end DataModel
end Seiscomp

namespace Seiscomp
namespace DataModel

/-- C17 on the test database: `testStored` is public and not cached, its oid 7
is looked up by its publicID `evt`. -/
theorem C17_remove_deletes_in_order_witness :
    ∃ (r1 r2 r3 : Bool) (a' : DatabaseArchive TestDb),
      testArchive.remove testDriver testStored "" = .ok (true, a') ∧
      a'.log = testStoredResolved.log ++
        ([Event.execute
            ("delete from " ++ testStored.className ++ " where _oid=" ++ toString 7) r1]
          ++ (if testStored.publicID.isSome then
            [Event.execute ("delete from PublicObject where _oid=" ++ toString 7) r2] else [])
          ++ [Event.execute ("delete from Object where _oid=" ++ toString 7) r3]) ∧
      a'.getCachedId testStored.id = INVALID_OID :=
  C17_remove_deletes_in_order testDriver testArchive testStoredResolved testStored "" 7
    rfl (by decide!) (by decide)

end DataModel
end Seiscomp

namespace Seiscomp
namespace DataModel
namespace DatabaseArchive

variable {σ : Type}

/-! ## The archive keeps its driver -/

theorem keepsDriver_refl (a : DatabaseArchive σ) : KeepsDriver a a := fun h => h

theorem keepsDriver_trans {a b c : DatabaseArchive σ} (h1 : KeepsDriver a b)
    (h2 : KeepsDriver b c) : KeepsDriver a c := fun h => h2 (h1 h)

theorem dbExecute_keeps (D : DatabaseInterface σ) (a b : DatabaseArchive σ) (sql : String)
    (r : Bool) (h : a.dbExecute D sql = .ok (r, b)) : KeepsDriver a b := by
  unfold dbExecute at h
  split at h
  · cases h
  · cases h
    exact fun _ => rfl

theorem insertRow_keeps (D : DatabaseInterface σ) (a b : DatabaseArchive σ) (table : String)
    (attribs : AttributeMap) (parentId : String) (r : Bool)
    (h : a.insertRow D table attribs parentId = .ok (r, b)) : KeepsDriver a b :=
  dbExecute_keeps D a b _ r h

theorem writeAttrib_keeps (D : DatabaseInterface σ) (a b : DatabaseArchive σ)
    (value : Option String) (h : a.writeAttrib D value = .ok b) : KeepsDriver a b := by
  unfold writeAttrib at h
  split at h
  · cases h; exact keepsDriver_refl _
  · split at h
    · cases h
    · split at h
      · cases h; exact (fun hh => hh)
      · split at h
        · cases h
        · cases h; exact (fun hh => hh)
        · split at h
          · cases h
          · cases h; exact (fun hh => hh)

theorem writeValue_keeps (D : DatabaseInterface σ) (a b : DatabaseArchive σ)
    (v : Value) (h : a.writeValue D v = .ok b) : KeepsDriver a b := by
  cases v with
  | int v => exact writeAttrib_keeps D a b _ h
  | real r => exact writeAttrib_keeps D a b _ h
  | quoted r => exact writeAttrib_keeps D a b _ h
  | bool v => exact writeAttrib_keeps D a b _ h
  | text t =>
    simp only [writeValue] at h
    split at h
    · cases h
    · exact writeAttrib_keeps D a b _ h
  | time t =>
    simp only [writeValue] at h
    split at h
    · cases h
    · split at h
      · cases h
      · rename_i a1 h1
        have q1 := writeAttrib_keeps D a a1 _ h1
        split at h
        · split at h
          · cases h
          · rename_i a2 h2
            have q2 := writeAttrib_keeps D _ a2 _ h2
            cases h
            exact (fun hh => q2 (q1 hh))
        · cases h; exact q1

theorem pushAttributePrefix_keeps (a b : DatabaseArchive σ) (name : CStr)
    (h : a.pushAttributePrefix name = .ok b) : KeepsDriver a b := by
  unfold pushAttributePrefix at h
  split at h
  · cases h
  · split at h <;> (cases h; exact (fun hh => hh))

theorem popAttribPrefix_keeps (a b : DatabaseArchive σ)
    (h : a.popAttribPrefix = .ok b) : KeepsDriver a b := by
  unfold popAttribPrefix at h
  split at h
  · cases h; exact (fun hh => hh)
  · split at h
    · split at h
      · cases h
      · cases h; exact (fun hh => hh)
    · cases h

theorem readAttrib_keeps (D : DatabaseInterface σ) (a b : DatabaseArchive σ)
    (h : a.readAttrib D = .ok b) : KeepsDriver a b := by
  unfold readAttrib at h
  split at h
  · cases h
  · split at h <;> (cases h; exact (fun hh => hh))

theorem map_pop_keeps (a b : DatabaseArchive σ) (r : Bool)
    (h : (a.popAttribPrefix).map (fun a3 => (false, a3)) = .ok (r, b)) : KeepsDriver a b := by
  cases hp : a.popAttribPrefix with
  | error e => simp [hp, Except.map] at h
  | ok a3 =>
    simp only [hp, Except.map, Except.ok.injEq, Prod.mk.injEq] at h
    obtain ⟨-, rfl⟩ := h
    exact popAttribPrefix_keeps a a3 hp

theorem locateObjectByName_keeps (D : DatabaseInterface σ) (a b : DatabaseArchive σ)
    (name targetClass : CStr) (nullable r : Bool)
    (h : a.locateObjectByName D name targetClass nullable = .ok (r, b)) : KeepsDriver a b := by
  unfold locateObjectByName at h
  split at h
  · split at h
    · split at h
      · cases h
      · rename_i a1 h1
        have q1 : KeepsDriver a a1 := by
          split at h1
          · exact pushAttributePrefix_keeps a a1 name h1
          · cases h1; exact keepsDriver_refl _
        split at h
        · cases h; exact (fun hh => q1 hh)
        · split at h
          · split at h
            · cases h
            · rename_i a2 h2
              have q2 := writeValue_keeps D _ a2 _ h2
              cases h
              exact (fun hh => q2 (q1 hh))
          · cases h; exact q1
    · cases h; exact (fun hh => hh)
  · split at h
    · split at h
      · cases h
      · rename_i a1 h1
        have q1 : KeepsDriver a a1 := by
          split at h1
          · cases hp : a.pushAttributePrefix name with
            | error e => simp [hp, Except.map] at h1
            | ok a0 =>
              simp only [hp, Except.map, Except.ok.injEq] at h1
              subst h1
              have q0 := pushAttributePrefix_keeps a a0 name hp
              exact (fun hh => q0 hh)
          · cases h1; exact keepsDriver_refl _
        split at h
        · split at h
          · split at h
            · cases h
            · rename_i a2 h2
              have q2 := readAttrib_keeps D _ a2 h2
              have q12 : KeepsDriver a a2 := (fun hh => q2 (q1 hh))
              split at h
              · cases h; exact q12
              · exact keepsDriver_trans q12 (map_pop_keeps a2 b r h)
          · cases h; exact q1
        · split at h
          · cases h
          · rename_i a2 h2
            have q2 := readAttrib_keeps D _ a2 h2
            have q12 : KeepsDriver a a2 := (fun hh => q2 (q1 hh))
            split at h
            · exact keepsDriver_trans q12 (map_pop_keeps a2 b r h)
            · cases h; exact q12
    · split at h
      · cases h
      · split at h
        · cases h
        · rename_i a2 h2
          have q2 := readAttrib_keeps D _ a2 h2
          have q12 : KeepsDriver a a2 := (fun hh => q2 hh)
          split at h
          · split at h
            · exact keepsDriver_trans q12 (map_pop_keeps a2 b r h)
            · cases h; exact q12
          · cases h; exact q12

theorem locateNullObjectByName_keeps (D : DatabaseInterface σ) (a b : DatabaseArchive σ)
    (name targetClass : CStr) (first : Bool)
    (h : a.locateNullObjectByName D name targetClass first = .ok b) : KeepsDriver a b := by
  unfold locateNullObjectByName at h
  split at h
  · split at h
    · split at h
      · have q := writeValue_keeps D _ b _ h
        exact (fun hh => q hh)
      · cases h; exact keepsDriver_refl _
    · have q := writeAttrib_keeps D _ b _ h
      exact (fun hh => q hh)
  · split at h
    · have q := writeAttrib_keeps D _ b _ h
      exact (fun hh => q hh)
    · have q := writeAttrib_keeps D _ b _ h
      exact (fun hh => q hh)

mutual
theorem serializeOp_keeps (D : DatabaseInterface σ) :
    ∀ (op : SerOp) (a b : DatabaseArchive σ), serializeOp D op a = .ok b → KeepsDriver a b
  | .setHint _, a, b, h => by
    simp only [serializeOp] at h
    cases h; exact (fun hh => hh)
  | .setValidity v, a, b, h => by
    simp only [serializeOp, setValidity] at h
    cases h
    split <;> exact (fun hh => hh)
  | .locateObjectByName name targetClass nullable, a, b, h => by
    simp only [serializeOp] at h
    cases hl : a.locateObjectByName D name targetClass nullable with
    | error e => simp [hl, Except.map] at h
    | ok r =>
      simp only [hl, Except.map, Except.ok.injEq] at h
      subst h
      exact locateObjectByName_keeps D a r.2 name targetClass nullable r.1 hl
  | .locateNullObjectByName name targetClass first, a, b, h => by
    simp only [serializeOp] at h
    exact locateNullObjectByName_keeps D a b name targetClass first h
  | .write v, a, b, h => by
    simp only [serializeOp] at h
    exact writeValue_keeps D a b v h
  | .serializeRoot object, a, b, h => by
    simp only [serializeOp] at h
    split at h
    · cases h
    · rename_i a1 h1
      exact keepsDriver_trans (serialize_keeps D object a a1 h1) (popAttribPrefix_keeps a1 b h)
  | .serializeDispatcher disp, a, b, h => by
    simp only [serializeOp] at h
    split at h
    · split at h
      · split at h
        · cases h
        · rename_i a1 h1
          have q1 := serialize_keeps D disp _ a1 h1
          have q1' : KeepsDriver a a1 := (fun hh => q1 hh)
          split at h
          · cases h
          · rename_i a2 h2
            have q2 : KeepsDriver a a2 := by
              split at h2
              · cases h2; exact (fun hh => q1' hh)
              · split at h2
                · cases h2
                · cases h2; exact (fun hh => q1' hh)
            split at h
            · cases h
            · split at h
              · cases h
              · rename_i ok a3 h3
                have q3 := keepsDriver_trans q2 (insertRow_keeps D a2 a3 _ _ _ ok h3)
                split at h
                · cases h; exact q3
                · split at h
                  · cases h
                  · split at h
                    · cases h
                    · rename_i a4 h4
                      have q4 := keepsDriver_trans q3 (writeAttrib_keeps D a3 a4 _ h4)
                      split at h
                      · exact keepsDriver_trans q4 (popAttribPrefix_keeps a4 b h)
                      · cases h; exact q4
      · split at h
        · exact popAttribPrefix_keeps a b h
        · cases h; exact keepsDriver_refl _
    · split at h
      · cases h
      · rename_i a1 h1
        have q1 := serialize_keeps D disp a a1 h1
        split at h
        · exact keepsDriver_trans q1 (popAttribPrefix_keeps a1 b h)
        · cases h; exact q1
theorem serialize_keeps (D : DatabaseInterface σ) :
    ∀ (script : SerScript) (a b : DatabaseArchive σ), serialize D script a = .ok b → KeepsDriver a b
  | .done, a, b, h => by
    simp only [serialize] at h
    cases h; exact keepsDriver_refl _
  | .seq op rest, a, b, h => by
    simp only [serialize] at h
    split at h
    · cases h
    · rename_i a1 h1
      exact keepsDriver_trans (serializeOp_keeps D op a a1 h1) (serialize_keeps D rest a1 b h)
end


end DatabaseArchive
end DataModel
end Seiscomp

namespace Seiscomp
namespace DataModel

namespace DatabaseArchive

variable {σ : Type}

end DatabaseArchive

end DataModel
end Seiscomp

namespace Seiscomp
namespace DataModel

end DataModel
end Seiscomp

namespace Seiscomp
namespace DataModel

namespace DatabaseArchive

variable {σ : Type}

/-- On a clean row `serializeObject` returns, and has neither moved the cursor
nor called the driver; the archive is valid exactly for a good row. -/
theorem serializeObject_row (D : DatabaseInterface σ) (rtti : RTTI σ) (good : σ → Bool)
    (hhyd : DatabaseIterator.Hydrates rtti good) (a : DatabaseArchive σ) (r : σ) (obj : Nat)
    (hdb : a.db = some r) (hclean : DatabaseIterator.cleanRow D r = true) :
    ∃ a1 : DatabaseArchive σ, a.serializeObject D obj rtti.hydrate = .ok a1 ∧
      a1.db = some r ∧ a1.log = a.log ∧ a1.validObject = good r := by
  obtain ⟨b, hb, hbdb, hblog, hbv⟩ :=
    hhyd { a.resetAttributePrefix with validObject := true } r hdb rfl
  unfold serializeObject
  rw [hb]
  dsimp only
  rw [hbdb]
  dsimp only
  by_cases hr : b.isReading = true
  · rw [if_pos hr]
    by_cases hcol : D.findColumn r "_oid" ≠ -1
    · rw [if_pos hcol]
      unfold DatabaseIterator.cleanRow at hclean
      simp only [Bool.and_eq_true, Bool.or_eq_true, decide_eq_true_eq] at hclean
      have h1 := hclean.1.resolve_left hcol
      cases hf : D.getRowField r (D.findColumn r "_oid") with
      | none => rw [hf] at h1; cases h1
      | some f =>
        rw [hf] at h1
        dsimp only
        cases hp : fromStringOID f with
        | none =>
          have h1' : (fromStringOID f).isSome = true := h1
          rw [hp] at h1'
          cases h1'
        | some oid =>
          exact ⟨_, rfl, hbdb, hblog, hbv⟩
    · rw [if_neg hcol]
      exact ⟨_, rfl, hbdb, hblog, hbv⟩
  · rw [if_neg hr]
    exact ⟨_, rfl, hbdb, hblog, hbv⟩

end DatabaseArchive

namespace DatabaseIterator

variable {σ : Type}

theorem fetchOid_clean (D : DatabaseInterface σ) (r : σ) (column : String)
    (h : D.findColumn r column = -1 ∨ (D.getRowField r (D.findColumn r column)).isSome = true) :
    ∃ v, fetchOid D r column = .ok v := by
  unfold fetchOid
  by_cases hcol : D.findColumn r column ≠ -1
  · rw [if_pos hcol]
    have h1 := h.resolve_left hcol
    cases hf : D.getRowField r (D.findColumn r column) with
    | none => rw [hf] at h1; cases h1
    | some f => exact ⟨_, rfl⟩
  · rw [if_neg hcol]
    exact ⟨_, rfl⟩

/-- What `fetch` does on a clean row of a class the factory creates: it
returns an object exactly for a good row, keeps the iterator valid, and has
neither moved the cursor nor called the driver. -/
theorem fetch_row (D : DatabaseInterface σ) (rtti : RTTI σ) (good : σ → Bool)
    (hhyd : Hydrates rtti good) (it : DatabaseIterator σ) (a : DatabaseArchive σ) (r : σ)
    (obj : Nat) (hrtti : it.rtti = some rtti) (hreader : it.reader = true)
    (hdb : a.db = some r) (hclean : cleanRow D r = true) (hcreate : rtti.create r = some obj) :
    ∃ (o : Option FetchedObject) (it1 : DatabaseIterator σ) (a1 : DatabaseArchive σ),
      fetch D it a = .ok (o, it1, a1) ∧
      it1.rtti = some rtti ∧ it1.reader = true ∧ it1.count = it.count ∧
      a1.db = some r ∧ a1.log = a.log ∧
      o.isSome = good r ∧ o.map (fun x => x.id) = (if good r then some obj else none) := by
  have hclean' := hclean
  unfold cleanRow at hclean'
  simp only [Bool.and_eq_true, Bool.or_eq_true, decide_eq_true_eq] at hclean'
  have hoid : ∃ v, fetchOid D r "_oid" = .ok v := by
    apply fetchOid_clean
    cases hclean'.1 with
    | inl h => exact Or.inl h
    | inr h =>
      right
      cases hf : D.getRowField r (D.findColumn r "_oid") with
      | none => rw [hf] at h; cases h
      | some f => rfl
  obtain ⟨v1, hv1⟩ := hoid
  obtain ⟨v2, hv2⟩ := fetchOid_clean D r "_parent_oid" hclean'.2
  obtain ⟨a1, hser, ha1db, ha1log, ha1v⟩ :=
    DatabaseArchive.serializeObject_row D rtti good hhyd a r obj hdb hclean
  unfold fetch
  rw [hrtti]
  dsimp only
  rw [hreader]
  simp only [Bool.not_true, Bool.false_eq_true, if_false]
  rw [hdb]
  dsimp only
  rw [hv1]
  dsimp only
  rw [hv2]
  dsimp only
  rw [hcreate]
  dsimp only
  rw [hser]
  dsimp only
  unfold DatabaseArchive.success
  cases hg : good r with
  | false =>
    have hv : (!a1.validObject) = true := by rw [ha1v, hg]; rfl
    rw [if_pos hv]
    exact ⟨_, _, _, rfl, rfl, rfl, rfl, ha1db, ha1log, rfl, rfl⟩
  | true =>
    have hv : ¬((!a1.validObject) = true) := by rw [ha1v, hg]; decide
    rw [if_neg hv]
    exact ⟨_, _, _, rfl, rfl, rfl, rfl, ha1db, ha1log, rfl, rfl⟩

end DatabaseIterator

end DataModel
end Seiscomp

namespace Seiscomp
namespace DataModel

namespace DatabaseIterator

variable {σ : Type}

/-- `operator++` on a cursor that has no further row: the iterator is closed,
with one `endQuery`. -/
theorem operatorInc_end (D : DatabaseInterface σ) (fuel : Nat) (it : DatabaseIterator σ)
    (a : DatabaseArchive σ) (s : σ) (hreader : it.reader = true) (hdb : a.db = some s)
    (hrow : (D.fetchRow s).1 = false) :
    ∃ (it' : DatabaseIterator σ) (a' : DatabaseArchive σ),
      operatorInc D (fuel + 1) it a = some (.ok (it', a')) ∧
      it'.reader = false ∧ it'.object = none ∧ it'.count = it.count ∧
      a'.db = some (D.endQuery (D.fetchRow s).2) ∧
      a'.log = a.log ++ [Event.fetchRow false, Event.endQuery] := by
  have hfr : a.dbFetchRow D = .ok ((D.fetchRow s).1,
      { a with db := some (D.fetchRow s).2,
               log := a.log ++ [Event.fetchRow (D.fetchRow s).1] }) := by
    unfold DatabaseArchive.dbFetchRow
    rw [hdb]
  rw [operatorInc]
  simp only [hreader, Bool.not_true, Bool.false_eq_true, if_false]
  rw [hfr]
  simp only [hrow, Bool.false_eq_true, if_false]
  unfold close
  simp only [hreader, if_true]
  unfold DatabaseArchive.dbEndQuery
  dsimp only
  exact ⟨_, _, rfl, rfl, rfl, rfl, rfl, by simp⟩

/-- `operator++` on a cursor with finitely many clean rows left, for a class
the factory creates: it stops on the first good row, or closes the iterator
when there is none. -/
theorem operatorInc_rows (D : DatabaseInterface σ) (rtti : RTTI σ) (good : σ → Bool)
    (hhyd : Hydrates rtti good) (sEnd : σ) :
    ∀ (n : Nat) (it : DatabaseIterator σ) (a : DatabaseArchive σ) (s : σ),
      it.rtti = some rtti → it.reader = true → a.db = some s →
      rowsEnd D n s = some sEnd →
      (∀ r ∈ pendingRows D n s, cleanRow D r = true) →
      (∀ r ∈ pendingRows D n s, (rtti.create r).isSome = true) →
      ∃ (it' : DatabaseIterator σ) (a' : DatabaseArchive σ),
        operatorInc D (n + 1) it a = some (.ok (it', a')) ∧
        (∀ r rest, (pendingRows D n s).dropWhile (fun x => !good x) = r :: rest →
          a'.db = some r ∧ it'.object.map (fun x => x.id) = rtti.create r ∧
          it'.reader = true ∧ it'.count = it.count + 1 ∧
          a'.log = a.log ++
            List.replicate (((pendingRows D n s).takeWhile (fun x => !good x)).length + 1)
              (Event.fetchRow true)) ∧
        ((pendingRows D n s).dropWhile (fun x => !good x) = [] →
          it'.reader = false ∧ it'.object = none ∧ it'.count = it.count ∧
          a'.db = some (D.endQuery sEnd) ∧
          a'.log = a.log ++ List.replicate (pendingRows D n s).length (Event.fetchRow true) ++
            [Event.fetchRow false, Event.endQuery]) := by
  intro n
  induction n with
  | zero =>
    intro it a s hrtti hreader hdb hrows _ _
    unfold rowsEnd at hrows
    by_cases hrow : (D.fetchRow s).1 = true
    · rw [if_pos hrow] at hrows
      cases hrows
    · rw [if_neg hrow] at hrows
      cases hrows
      have hrow' : (D.fetchRow s).1 = false := by
        cases h : (D.fetchRow s).1
        · rfl
        · exact absurd h hrow
      obtain ⟨it', a', h1, h2, h3, h4, h5, h6⟩ :=
        operatorInc_end D 0 it a s hreader hdb hrow'
      refine ⟨it', a', h1, ?_, ?_⟩
      · intro r rest hdrop
        simp [pendingRows] at hdrop
      · intro _
        refine ⟨h2, h3, h4, h5, ?_⟩
        rw [h6]
        simp [pendingRows]
  | succ n ih =>
    intro it a s hrtti hreader hdb hrows hclean hcreate
    by_cases hrow : (D.fetchRow s).1 = true
    · have hpend : pendingRows D (n + 1) s =
          (D.fetchRow s).2 :: pendingRows D n (D.fetchRow s).2 := by
        show (if (D.fetchRow s).1 then _ else _) = _
        rw [if_pos hrow]
      have hrows' : rowsEnd D n (D.fetchRow s).2 = some sEnd := by
        have : rowsEnd D (n + 1) s = rowsEnd D n (D.fetchRow s).2 := by
          show (if (D.fetchRow s).1 then _ else _) = _
          rw [if_pos hrow]
        rw [← this]
        exact hrows
      rw [hpend] at hclean hcreate
      have hc := hclean _ (List.mem_cons_self _ _)
      have hcr := hcreate _ (List.mem_cons_self _ _)
      obtain ⟨obj, hobj⟩ : ∃ obj, rtti.create (D.fetchRow s).2 = some obj := by
        cases h : rtti.create (D.fetchRow s).2 with
        | none => rw [h] at hcr; cases hcr
        | some obj => exact ⟨obj, rfl⟩
      obtain ⟨o, it1, a2, hfetch, h1rtti, h1reader, h1count, h2db, h2log, hosome, hoid⟩ :=
        fetch_row D rtti good hhyd it
          { a with db := some (D.fetchRow s).2,
                   log := a.log ++ [Event.fetchRow true] }
          (D.fetchRow s).2 obj hrtti hreader rfl hc hobj
      have hfr : a.dbFetchRow D = .ok (true,
          { a with db := some (D.fetchRow s).2,
                   log := a.log ++ [Event.fetchRow true] }) := by
        unfold DatabaseArchive.dbFetchRow
        rw [hdb]
        dsimp only
        rw [hrow]
      rw [hpend]
      cases hg : good (D.fetchRow s).2 with
      | true =>
        rw [hg] at hosome hoid
        cases o with
        | none => cases hosome
        | some x =>
          have hstep : operatorInc D (n + 1 + 1) it a =
              some (.ok ({ it1 with object := some x, count := it1.count + 1 }, a2)) := by
            rw [operatorInc]
            simp only [hreader, Bool.not_true, Bool.false_eq_true, if_false]
            rw [hfr]
            simp only [if_true]
            rw [hfetch]
          refine ⟨_, _, hstep, ?_, ?_⟩
          · intro r rest hdrop
            simp only [List.dropWhile_cons, hg, Bool.not_true, Bool.false_eq_true, if_false,
              List.cons.injEq] at hdrop
            obtain ⟨rfl, -⟩ := hdrop
            refine ⟨h2db, ?_, h1reader, ?_, ?_⟩
            · show (some x).map (fun x => x.id) = _
              rw [hoid, hobj]
              rfl
            · show it1.count + 1 = it.count + 1
              rw [h1count]
            · show a2.log = _
              rw [h2log]
              simp [List.takeWhile_cons, hg, hrow]
          · intro hdrop
            simp [List.dropWhile_cons, hg] at hdrop
      | false =>
        rw [hg] at hosome hoid
        cases o with
        | some x => cases hosome
        | none =>
          have hstep : operatorInc D (n + 1 + 1) it a =
              operatorInc D (n + 1) { it1 with object := none } a2 := by
            conv => lhs; rw [operatorInc]
            simp only [hreader, Bool.not_true, Bool.false_eq_true, if_false]
            rw [hfr]
            simp only [if_true]
            rw [hfetch]
          obtain ⟨it', a', hinc, hA, hB⟩ :=
            ih { it1 with object := none } a2 (D.fetchRow s).2 h1rtti h1reader h2db hrows'
              (fun r hr => hclean r (List.mem_cons_of_mem _ hr))
              (fun r hr => hcreate r (List.mem_cons_of_mem _ hr))
          refine ⟨it', a', hstep.trans hinc, ?_, ?_⟩
          · intro r rest hdrop
            simp only [List.dropWhile_cons, hg, Bool.not_false, if_true] at hdrop
            obtain ⟨q1, q2, q3, q4, q5⟩ := hA r rest hdrop
            refine ⟨q1, q2, q3, ?_, ?_⟩
            · rw [q4]
              show it1.count + 1 = it.count + 1
              rw [h1count]
            · rw [q5, h2log]
              simp [List.takeWhile_cons, hg, hrow, List.replicate_succ]
          · intro hdrop
            simp only [List.dropWhile_cons, hg, Bool.not_false, if_true] at hdrop
            obtain ⟨q1, q2, q3, q4, q5⟩ := hB hdrop
            refine ⟨q1, q2, ?_, q4, ?_⟩
            · rw [q3]
              exact h1count
            · rw [q5, h2log]
              simp [hrow, List.replicate_succ]
    · have hrow' : (D.fetchRow s).1 = false := by
        cases h : (D.fetchRow s).1
        · rfl
        · exact absurd h hrow
      have hpend : pendingRows D (n + 1) s = [] := by
        show (if (D.fetchRow s).1 then _ else _) = _
        rw [if_neg hrow]
      have hend : sEnd = (D.fetchRow s).2 := by
        have : rowsEnd D (n + 1) s = some (D.fetchRow s).2 := by
          show (if (D.fetchRow s).1 then _ else _) = _
          rw [if_neg hrow]
        rw [this] at hrows
        exact (Option.some.inj hrows).symm
      obtain ⟨it', a', h1, h2, h3, h4, h5, h6⟩ :=
        operatorInc_end D (n + 1) it a s hreader hdb hrow'
      refine ⟨it', a', h1, ?_, ?_⟩
      · intro r rest hdrop
        rw [hpend] at hdrop
        simp at hdrop
      · intro _
        rw [hpend, hend]
        refine ⟨h2, h3, h4, h5, ?_⟩
        rw [h6]
        simp

end DatabaseIterator

end DataModel
end Seiscomp

namespace Seiscomp
namespace DataModel

/-- The `serialize` of `testPickClass` succeeds exactly on the rows with a
phase. -/
theorem testPickClass_hydrates : DatabaseIterator.Hydrates testPickClass testPickGood := by
  intro b r hb hv
  refine ⟨b.setValidity (testDriver.getRowField r (testDriver.findColumn r "phase")).isSome,
    ?_, ?_, ?_, ?_⟩
  · show (match b.db with
      | none => Except.error Fault.nullPointer
      | some s => Except.ok (b.setValidity
          (testDriver.getRowField s (testDriver.findColumn s "phase")).isSome)) = _
    rw [hb]
  · unfold DatabaseArchive.setValidity
    split <;> exact hb
  · unfold DatabaseArchive.setValidity
    split <;> rfl
  · unfold DatabaseArchive.setValidity testPickGood
    cases hg : (testDriver.getRowField r (testDriver.findColumn r "phase")).isSome
    · rfl
    · exact hv

/-- C14: what the code does instead.  After the iterator's own `close()`,
which leaves it invalid, and after the `close()` of the archive a valid
iterator refers to, `next()` does not return false: `operator++` dereferences
the null `_reader`, or the null driver of the closed archive, without a
check. -/
theorem C14_next_after_close_faults {σ : Type} (D : DatabaseInterface σ)
    (it : DatabaseIterator σ) (a : DatabaseArchive σ) (fuel : Nat) :
    (∀ (it' : DatabaseIterator σ) (a' : DatabaseArchive σ),
      it.close D a = .ok (it', a') →
      it'.valid = false ∧ it'.next D (fuel + 1) a' = some (.error Fault.nullPointer)) ∧
    (it.valid = true → it.next D (fuel + 1) a.close = some (.error Fault.nullPointer)) := by
  constructor
  · intro it' a' h
    have hreader : it'.reader = false := by
      unfold DatabaseIterator.close at h
      split at h
      · split at h
        · cases h
        · cases h; rfl
      · rename_i hr
        cases h
        show it.reader = false
        cases hb : it.reader
        · rfl
        · exact absurd hb hr
    refine ⟨hreader, ?_⟩
    unfold DatabaseIterator.next
    rw [DatabaseIterator.operatorInc]
    simp only [hreader, Bool.not_false, if_true]
  · intro hv
    have hreader : it.reader = true := hv
    have hfr : a.close.dbFetchRow D = .error Fault.nullPointer := by
      unfold DatabaseArchive.dbFetchRow
      rw [DatabaseArchive.close_db]
    unfold DatabaseIterator.next
    rw [DatabaseIterator.operatorInc]
    simp only [hreader, Bool.not_true, Bool.false_eq_true, if_false]
    rw [hfr]

/-- C14 on the test archive with an open cursor: `next()` after the
iterator's `close()` and after the archive's `close()`. -/
theorem C14_next_after_close_faults_witness :
    (∃ (it' : DatabaseIterator TestDb) (a' : DatabaseArchive TestDb),
      testPickIterator.close testDriver testSparseArchive = .ok (it', a') ∧
      it'.valid = false ∧ it'.next testDriver 1 a' = some (.error Fault.nullPointer)) ∧
    testPickIterator.next testDriver 1 testSparseArchive.close =
      some (.error Fault.nullPointer) :=
  ⟨⟨_, _, rfl,
      (C14_next_after_close_faults testDriver testPickIterator testSparseArchive 0).1 _ _ rfl⟩,
    (C14_next_after_close_faults testDriver testPickIterator testSparseArchive 0).2 rfl⟩

/-- C15: what the code does instead.  An iteration over five rows that all
hydrate yields five objects and ends with `count()` 4, one over a single row
yields one object and ends with `count()` 0: the object the constructor reads
itself is not counted.  When the first row does not hydrate the constructor
goes through `operator++`, and the first object yielded is counted. -/
theorem C15_count_misses_first_object :
    (testPicksArchive testFivePicks).iterate testDriver 10 10 "evt" testPickClass =
      some (.ok ([1004, 1003, 1002, 1001, 1000], 4)) ∧
    (testPicksArchive [[some "11", some "7", some "P"]]).iterate testDriver 10 10 "evt"
      testPickClass = some (.ok ([1000], 0)) ∧
    (testPicksArchive [[some "11", some "7", none], [some "12", some "7", some "P"]]).iterate
      testDriver 10 10 "evt" testPickClass = some (.ok ([1000], 1)) := by
  refine ⟨by decide!, by decide!, by decide!⟩

/-- C16: `next()` on a valid iterator of a class the factory creates, on a
cursor that has finitely many readable rows left, where `good` tells the rows
the created object hydrates successfully from.  When there is a good row,
`next()` returns true with the iterator positioned on the object of the first
good row and counted once more; the driver has seen one `fetchRow` for every
skipped row and one for the good row, and no `endQuery`.  When there is none,
`next()` returns false with the iterator invalid and not positioned; the
driver has seen one `fetchRow` for every row, the `fetchRow` that found the
end, and `endQuery` exactly once. -/
theorem C16_next_positions_on_first_good_row {σ : Type} (D : DatabaseInterface σ)
    (rtti : RTTI σ) (good : σ → Bool) (n : Nat) (it : DatabaseIterator σ)
    (a : DatabaseArchive σ) (s sEnd : σ)
    (hrtti : it.rtti = some rtti) (hvalid : it.valid = true) (hdb : a.db = some s)
    (hrows : DatabaseIterator.rowsEnd D n s = some sEnd)
    (hclean : ∀ r ∈ DatabaseIterator.pendingRows D n s, DatabaseIterator.cleanRow D r = true)
    (hcreate : ∀ r ∈ DatabaseIterator.pendingRows D n s, (rtti.create r).isSome = true)
    (hhyd : DatabaseIterator.Hydrates rtti good) :
    (∀ r rest, (DatabaseIterator.pendingRows D n s).dropWhile (fun x => !good x) = r :: rest →
      ∃ (it' : DatabaseIterator σ) (a' : DatabaseArchive σ),
        it.next D (n + 1) a = some (.ok (true, it', a')) ∧
        a'.db = some r ∧ it'.get.map (fun x => x.id) = rtti.create r ∧
        it'.valid = true ∧ it'.count = it.count + 1 ∧
        a'.log = a.log ++
          List.replicate
            (((DatabaseIterator.pendingRows D n s).takeWhile (fun x => !good x)).length + 1)
            (Event.fetchRow true)) ∧
    ((DatabaseIterator.pendingRows D n s).dropWhile (fun x => !good x) = [] →
      ∃ (it' : DatabaseIterator σ) (a' : DatabaseArchive σ),
        it.next D (n + 1) a = some (.ok (false, it', a')) ∧
        it'.valid = false ∧ it'.get = none ∧ it'.count = it.count ∧
        a'.db = some (D.endQuery sEnd) ∧
        a'.log = a.log ++
          List.replicate (DatabaseIterator.pendingRows D n s).length (Event.fetchRow true) ++
          [Event.fetchRow false, Event.endQuery] ∧
        (List.replicate (DatabaseIterator.pendingRows D n s).length (Event.fetchRow true) ++
          [Event.fetchRow false, Event.endQuery]).count Event.endQuery = 1) := by
  obtain ⟨it', a', hinc, hA, hB⟩ :=
    DatabaseIterator.operatorInc_rows D rtti good hhyd sEnd n it a s hrtti hvalid hdb hrows
      hclean hcreate
  have hnext : it.next D (n + 1) a = some (.ok (it'.valid, it', a')) := by
    unfold DatabaseIterator.next
    rw [hinc]
  constructor
  · intro r rest hdrop
    obtain ⟨q1, q2, q3, q4, q5⟩ := hA r rest hdrop
    refine ⟨it', a', ?_, q1, q2, q3, q4, q5⟩
    rw [hnext]
    show some (Except.ok (it'.reader, it', a')) = _
    rw [q3]
  · intro hdrop
    obtain ⟨q1, q2, q3, q4, q5⟩ := hB hdrop
    refine ⟨it', a', ?_, q1, q2, q3, q4, q5, ?_⟩
    · rw [hnext]
      show some (Except.ok (it'.reader, it', a')) = _
      rw [q1]
    · rw [List.count_append, List.count_replicate]
      simp

/-- C16 on the test archive: of the four rows left the first two have no
phase; `next()` skips them and positions the iterator on the object of the
third. -/
theorem C16_next_positions_on_first_good_row_witness :
    ∃ (it' : DatabaseIterator TestDb) (a' : DatabaseArchive TestDb),
      testPickIterator.next testDriver (4 + 1) testSparseArchive = some (.ok (true, it', a')) ∧
      a'.db = some testSparseThird ∧
      it'.get.map (fun x => x.id) = testPickClass.create testSparseThird ∧
      it'.valid = true ∧ it'.count = testPickIterator.count + 1 ∧
      a'.log = testSparseArchive.log ++
        List.replicate
          (((DatabaseIterator.pendingRows testDriver 4 (testCursorDb testSparsePicks)).takeWhile
            (fun x => !testPickGood x)).length + 1)
          (Event.fetchRow true) :=
  (C16_next_positions_on_first_good_row testDriver testPickClass testPickGood 4
    testPickIterator testSparseArchive (testCursorDb testSparsePicks)
    (testDriver.fetchRow (testDriver.fetchRow testSparseThird).2).2
    rfl rfl rfl (by decide!) (by decide!) (by decide!) testPickClass_hydrates).1
    testSparseThird [(testDriver.fetchRow testSparseThird).2] (by decide!)

end DataModel
end Seiscomp

namespace Seiscomp
namespace DataModel

theorem strErase_append (s t : String) : strErase (s ++ t) s.length = s := by
  unfold strErase
  rcases s with ⟨d⟩
  simp [String.length]

theorem strErase_self (s : String) : strErase s s.length = s := by
  have := strErase_append s ""
  simpa using this

/-- C26: on a stack with fewer than 64 frames, `pushAttributePrefix(name)` for
any name (the null pointer and the empty string included) followed by
`popAttribPrefix()` returns, and the prefix string and the stack depth are the
ones before the push; `popAttribPrefix()` on the empty stack returns and
leaves the prefix string as it is and the depth 0. -/
theorem C26_push_then_pop_restores {σ : Type} (a : DatabaseArchive σ) (name : CStr) :
    (a.prefixPos < 64 →
      ∃ a1 a2 : DatabaseArchive σ,
        a.pushAttributePrefix name = .ok a1 ∧ a1.popAttribPrefix = .ok a2 ∧
        a2.currentAttributePrefix = a.currentAttributePrefix ∧
        a2.prefixPos = a.prefixPos) ∧
    (a.prefixPos = 0 →
      ∃ a2 : DatabaseArchive σ, a.popAttribPrefix = .ok a2 ∧
        a2.currentAttributePrefix = a.currentAttributePrefix ∧ a2.prefixPos = 0) := by
  constructor
  · intro hroom
    have hpush : a.pushAttributePrefix name = .ok (a.pushAttributePrefixState name) := by
      rw [DatabaseArchive.pushAttributePrefix_eq, if_neg (by omega)]
    have hpos : (a.pushAttributePrefixState name).prefixPos = a.prefixPos + 1 :=
      (DatabaseArchive.pushAttributePrefix_prefixPos a _ name hpush).2
    have hne : ¬((a.pushAttributePrefixState name).prefixPos = 0) := by omega
    have hidx : (a.pushAttributePrefixState name).prefixPos - 1 < 64 := by omega
    have hoff0 : (a.pushAttributePrefixState name).prefixOffset.get ⟨a.prefixPos, hroom⟩ =
        a.currentAttributePrefix.length := by
      unfold DatabaseArchive.pushAttributePrefixState
      rw [dif_neg (by omega)]
      cases name <;> simp [Mathlib.Vector.get_set_same]
    have hfin : (⟨(a.pushAttributePrefixState name).prefixPos - 1, hidx⟩ : Fin 64) =
        ⟨a.prefixPos, hroom⟩ := Fin.ext (by simp only [hpos]; omega)
    have hoff : (a.pushAttributePrefixState name).prefixOffset.get
        ⟨(a.pushAttributePrefixState name).prefixPos - 1, hidx⟩ =
        a.currentAttributePrefix.length := by
      rw [hfin]
      exact hoff0
    have hpre : ∃ t, (a.pushAttributePrefixState name).currentAttributePrefix =
        a.currentAttributePrefix ++ t := by
      unfold DatabaseArchive.pushAttributePrefixState
      rw [dif_neg (by omega)]
      cases name with
      | none => exact ⟨"", by simp⟩
      | some n =>
        dsimp only
        by_cases hp : a.currentAttributePrefix = ""
        · rw [if_pos hp, hp]
          exact ⟨n, by simp⟩
        · rw [if_neg hp]
          exact ⟨ATTRIBUTE_SEPERATOR ++ n, by simp [String.append_assoc]⟩
    obtain ⟨t, ht⟩ := hpre
    have hlen : ¬((a.pushAttributePrefixState name).currentAttributePrefix.length <
        (a.pushAttributePrefixState name).prefixOffset.get
          ⟨(a.pushAttributePrefixState name).prefixPos - 1, hidx⟩) := by
      rw [hoff, ht, String.length_append]
      omega
    have hpop : (a.pushAttributePrefixState name).popAttribPrefix =
        .ok { a.pushAttributePrefixState name with
              prefixPos := (a.pushAttributePrefixState name).prefixPos - 1
              currentAttributePrefix :=
                strErase (a.pushAttributePrefixState name).currentAttributePrefix
                  ((a.pushAttributePrefixState name).prefixOffset.get
                    ⟨(a.pushAttributePrefixState name).prefixPos - 1, hidx⟩) } := by
      unfold DatabaseArchive.popAttribPrefix
      rw [if_neg hne, dif_pos hidx, if_neg hlen]
    refine ⟨_, _, hpush, hpop, ?_, ?_⟩
    · show strErase _ _ = _
      rw [hoff, ht]
      exact strErase_append _ _
    · show (a.pushAttributePrefixState name).prefixPos - 1 = a.prefixPos
      omega
  · intro hzero
    refine ⟨{ a with prefixPos := 0 }, ?_, rfl, rfl⟩
    unfold DatabaseArchive.popAttribPrefix
    rw [if_pos hzero]

/-- C26 on the test archive in writer mode: the empty name pushed onto the
prefix `a` gives `a_`, and the pop gives back `a` at depth 1. -/
theorem C26_push_then_pop_restores_witness :
    ∃ a1 a2 : DatabaseArchive TestDb,
      { testWriter with currentAttributePrefix := "a", prefixPos := 1 }.pushAttributePrefix
        (some "") = .ok a1 ∧
      a1.popAttribPrefix = .ok a2 ∧
      a2.currentAttributePrefix =
        ({ testWriter with currentAttributePrefix := "a", prefixPos := 1 } :
          DatabaseArchive TestDb).currentAttributePrefix ∧
      a2.prefixPos =
        ({ testWriter with currentAttributePrefix := "a", prefixPos := 1 } :
          DatabaseArchive TestDb).prefixPos :=
  (C26_push_then_pop_restores
    { testWriter with currentAttributePrefix := "a", prefixPos := 1 } (some "")).1 (by decide)

end DataModel
end Seiscomp

namespace Seiscomp
namespace DataModel

namespace DatabaseArchive

variable {σ : Type}

theorem version_gt_zero (Major Minor : Nat) :
    Version.gt ⟨0, 0, 0⟩ ⟨Major, Minor, 0⟩ = false := by
  simp [Version.gt]

/-- What every return of `fetchVersion` has in common: a true result comes
with a version that is not newer than the supported one, the archive holds a
driver afterwards exactly when it did before, the permission to disconnect is
not touched, and with a driver the last call to it is `endQuery`. -/
theorem fetchVersion_spec (D : DatabaseInterface σ) (Major Minor : Nat)
    (a b : DatabaseArchive σ) (r : Bool) (h : fetchVersion D Major Minor a = .ok (r, b)) :
    (r = true → Version.gt b.version ⟨Major, Minor, 0⟩ = false) ∧
    b.db.isSome = a.db.isSome ∧
    b.allowDbClose = a.allowDbClose ∧
    (a.db.isSome = true → b.log.getLast? = some Event.endQuery) := by
  unfold fetchVersion at h
  cases hdb : a.db with
  | none =>
    rw [hdb] at h
    cases h
    simp [hdb]
  | some s =>
    simp only [hdb, dbBeginQuery, dbFetchRow, dbRowField, dbEndQuery, Except.map] at h
    repeat' split at h
    all_goals try cases h
    all_goals first
      | (rename_i hgt
         simp only [Bool.not_eq_true] at hgt
         simp [hgt])
      | simp [Version.gt]

end DatabaseArchive

theorem invalidVersionMsg_ne (f : String) :
    "Invalid schema version in database: " ++ f ≠ "" := by
  intro h
  have h1 := congrArg String.length h
  rw [String.length_append] at h1
  have h0 : 0 < "Invalid schema version in database: ".length := by decide
  have h2 : "".length = 0 := rfl
  omega

/-- C30: the outcomes of `fetchVersion()` on an archive with a driver.  When
`beginQuery` fails it returns true with version 0.0 and `errorMsg()` as it
was, which is empty inside `open()`, and `open()` on a driver that connects
returns true; when no row comes, or the value does not read as a version, it
returns false with a non-empty `errorMsg()`, and `open()` returns false; for a
value that reads as `v` the result is decided by `v.majorTag` and `v.minorTag`
alone and the version kept has patch 0; and every return leaves `endQuery` as
the last call to the driver. -/
theorem C30_fetchVersion_outcomes {σ : Type} (D : DatabaseInterface σ) (Major Minor : Nat)
    (a : DatabaseArchive σ) (s : σ) (hdb : a.db = some s) :
    ((D.beginQuery s DatabaseArchive.schemaVersionSql).1 = false →
      ∃ b : DatabaseArchive σ, a.fetchVersion D Major Minor = .ok (true, b) ∧
        b.version = ⟨0, 0, 0⟩ ∧ b.errorMsg = a.errorMsg ∧
        b.log = a.log ++ [Event.beginQuery DatabaseArchive.schemaVersionSql false,
          Event.endQuery]) ∧
    ((D.beginQuery s DatabaseArchive.schemaVersionSql).1 = true →
      (D.fetchRow (D.beginQuery s DatabaseArchive.schemaVersionSql).2).1 = false →
      ∃ b : DatabaseArchive σ, a.fetchVersion D Major Minor = .ok (false, b) ∧
        b.errorMsg = "Unable to read schema version from database (empty result set)" ∧
        b.errorMsg ≠ "" ∧
        b.log = a.log ++ [Event.beginQuery DatabaseArchive.schemaVersionSql true,
          Event.fetchRow false, Event.endQuery]) ∧
    (∀ f : String, (D.beginQuery s DatabaseArchive.schemaVersionSql).1 = true →
      (D.fetchRow (D.beginQuery s DatabaseArchive.schemaVersionSql).2).1 = true →
      D.getRowField (D.fetchRow (D.beginQuery s DatabaseArchive.schemaVersionSql).2).2 0
        = some f →
      (Version.fromString f = none →
        ∃ b : DatabaseArchive σ, a.fetchVersion D Major Minor = .ok (false, b) ∧
          b.errorMsg = "Invalid schema version in database: " ++ f ∧
          b.errorMsg ≠ "" ∧
          b.log = a.log ++ [Event.beginQuery DatabaseArchive.schemaVersionSql true,
            Event.fetchRow true, Event.endQuery]) ∧
      (∀ v : Version, Version.fromString f = some v →
        ∃ b : DatabaseArchive σ,
          a.fetchVersion D Major Minor =
            .ok (!(Version.gt ⟨v.majorTag, v.minorTag, 0⟩ ⟨Major, Minor, 0⟩), b) ∧
          b.version = ⟨v.majorTag, v.minorTag, 0⟩)) ∧
    (∀ (r : Bool) (b : DatabaseArchive σ), a.fetchVersion D Major Minor = .ok (r, b) →
      b.log.getLast? = some Event.endQuery) ∧
    (∀ dsn : String, D.isConnected s = false → (D.connect s dsn).1 = true →
      ((D.beginQuery (D.connect s dsn).2 DatabaseArchive.schemaVersionSql).1 = false →
        ∃ b : DatabaseArchive σ, a.open D Major Minor dsn = .ok (true, b) ∧
          b.version = ⟨0, 0, 0⟩ ∧ b.errorMsg = "" ∧ b.db.isSome = true) ∧
      ((D.beginQuery (D.connect s dsn).2 DatabaseArchive.schemaVersionSql).1 = true →
        ((D.fetchRow
            (D.beginQuery (D.connect s dsn).2 DatabaseArchive.schemaVersionSql).2).1 = false ∨
          ∃ f : String,
            (D.fetchRow
              (D.beginQuery (D.connect s dsn).2 DatabaseArchive.schemaVersionSql).2).1 = true ∧
            D.getRowField (D.fetchRow
              (D.beginQuery (D.connect s dsn).2 DatabaseArchive.schemaVersionSql).2).2 0
              = some f ∧ Version.fromString f = none) →
        ∃ b : DatabaseArchive σ, a.open D Major Minor dsn = .ok (false, b) ∧
          b.errorMsg ≠ "" ∧ b.db = none)) := by
  refine ⟨?_, ?_, ?_, ?_, ?_⟩
  · intro hb
    simp only [DatabaseArchive.fetchVersion, hdb, DatabaseArchive.dbBeginQuery,
      DatabaseArchive.dbEndQuery, hb, Bool.not_false, if_true, Except.map]
    exact ⟨_, rfl, rfl, rfl, by simp⟩
  · intro hb hr
    simp only [DatabaseArchive.fetchVersion, hdb, DatabaseArchive.dbBeginQuery,
      DatabaseArchive.dbFetchRow, DatabaseArchive.dbEndQuery, hb, hr, Bool.not_false,
      Bool.not_true, Bool.false_eq_true, if_false, if_true, Except.map]
    refine ⟨_, rfl, rfl, ?_, by simp⟩
    show "Unable to read schema version from database (empty result set)" ≠ ""
    decide
  · intro f hb hr hf
    constructor
    · intro hp
      simp only [DatabaseArchive.fetchVersion, hdb, DatabaseArchive.dbBeginQuery,
        DatabaseArchive.dbFetchRow, DatabaseArchive.dbRowField, DatabaseArchive.dbEndQuery,
        hb, hr, hf, hp, Bool.not_true, Bool.false_eq_true, if_false, Except.map]
      refine ⟨_, rfl, rfl, ?_, by simp⟩
      exact invalidVersionMsg_ne f
    · intro v hp
      simp only [DatabaseArchive.fetchVersion, hdb, DatabaseArchive.dbBeginQuery,
        DatabaseArchive.dbFetchRow, DatabaseArchive.dbRowField, DatabaseArchive.dbEndQuery,
        hb, hr, hf, hp, Bool.not_true, Bool.false_eq_true, if_false, Except.map]
      cases hgt : Version.gt ⟨v.majorTag, v.minorTag, 0⟩ ⟨Major, Minor, 0⟩
      · simp only [Bool.false_eq_true, if_false, Bool.not_false]
        exact ⟨_, rfl, rfl⟩
      · simp only [if_true, Bool.not_true]
        exact ⟨_, rfl, rfl⟩
  · intro r b h
    exact (DatabaseArchive.fetchVersion_spec D Major Minor a b r h).2.2.2 (by simp [hdb])
  · intro dsn hnc hconn
    constructor
    · intro hb
      simp only [DatabaseArchive.open, hdb, hnc, hconn, Bool.false_eq_true, if_false, if_true,
        DatabaseArchive.fetchVersion, DatabaseArchive.dbBeginQuery, DatabaseArchive.dbEndQuery,
        hb, Bool.not_false, Except.map]
      exact ⟨_, rfl, rfl, rfl, rfl⟩
    · intro hb hrow
      rcases hrow with hr | ⟨f, hr, hf, hp⟩
      · simp only [DatabaseArchive.open, hdb, hnc, hconn, Bool.false_eq_true, if_false, if_true,
          DatabaseArchive.fetchVersion, DatabaseArchive.dbBeginQuery,
          DatabaseArchive.dbFetchRow, DatabaseArchive.dbEndQuery, hb, hr, Bool.not_false,
          Bool.not_true, Except.map]
        refine ⟨_, rfl, ?_, DatabaseArchive.close_db _⟩
        have hne : "Unable to read schema version from database (empty result set)" ≠ "" := by
          decide
        simp only [DatabaseArchive.close]
        split <;> exact hne
      · simp only [DatabaseArchive.open, hdb, hnc, hconn, Bool.false_eq_true, if_false, if_true,
          DatabaseArchive.fetchVersion, DatabaseArchive.dbBeginQuery,
          DatabaseArchive.dbFetchRow, DatabaseArchive.dbRowField, DatabaseArchive.dbEndQuery,
          hb, hr, hf, hp, Bool.not_false, Bool.not_true, Except.map]
        refine ⟨_, rfl, ?_, DatabaseArchive.close_db _⟩
        have hne : "Invalid schema version in database: " ++ f ≠ "" := invalidVersionMsg_ne f
        simp only [DatabaseArchive.close]
        split <;> exact hne

end DataModel
end Seiscomp

namespace Seiscomp
namespace DataModel

/-- C30 on the test driver: `open` on a database that answers no query
returns true with version 0.0 and an empty `errorMsg()`; and the stored value
`0.12.7` is accepted by the client for v0.12 and kept as 0.12 with patch 0. -/
theorem C30_fetchVersion_outcomes_witness :
    (∃ b : DatabaseArchive TestDb,
      (DatabaseArchive.initial (some testOldDb) []).open testDriver 0 12 "dsn" = .ok (true, b) ∧
        b.version = ⟨0, 0, 0⟩ ∧ b.errorMsg = "" ∧ b.db.isSome = true) ∧
    (∃ b : DatabaseArchive TestDb,
      (DatabaseArchive.initial (some (testDb true "0.12.7")) []).fetchVersion testDriver 0 12 =
        .ok (!(Version.gt ⟨0, 12, 0⟩ ⟨0, 12, 0⟩), b) ∧
      b.version = ⟨0, 12, 0⟩) :=
  ⟨((C30_fetchVersion_outcomes testDriver 0 12 (DatabaseArchive.initial (some testOldDb) [])
      testOldDb rfl).2.2.2.2 "dsn" rfl rfl).1 rfl,
   ((C30_fetchVersion_outcomes testDriver 0 12
      (DatabaseArchive.initial (some (testDb true "0.12.7")) [])
      (testDb true "0.12.7") rfl).2.2.1 "0.12.7" rfl rfl rfl).2 ⟨0, 12, 7⟩ (by decide!)⟩

namespace DatabaseArchive

variable {σ : Type}

theorem afterFetchVersion_bounded (D : DatabaseInterface σ) (Major Minor : Nat)
    (r : Bool × DatabaseArchive σ)
    (h : r.1 = true → Version.gt r.2.version ⟨Major, Minor, 0⟩ = false)
    (hdb : (afterFetchVersion D r).db.isSome = true) :
    Version.gt (afterFetchVersion D r).version ⟨Major, Minor, 0⟩ = false := by
  obtain ⟨ok, b⟩ := r
  cases ok
  · exfalso
    have hnone : (afterFetchVersion D (false, b)).db = none := by
      unfold afterFetchVersion
      simp only [Bool.false_eq_true, if_false, close_db]
      exact close_db b
    rw [hnone] at hdb
    cases hdb
  · have hv := h rfl
    revert hdb
    unfold afterFetchVersion
    simp only [if_true]
    split
    · intro _
      exact hv
    · intro _
      exact hv

end DatabaseArchive

/-- C22 fails as stated: the constructor on a connected driver whose database
reports the schema version `99.0.0` leaves an archive, reached by the
constructor alone, whose `version()` is 99.0, which is greater than the 0.12
the client supports; the archive holds no driver then. -/
theorem C22_refused_version_is_kept :
    Reachable testDriver 0 12 (testConstructed (testDb true "99.0.0")) ∧
    (testConstructed (testDb true "99.0.0")).version = ⟨99, 0, 0⟩ ∧
    Version.gt (testConstructed (testDb true "99.0.0")).version ⟨0, 12, 0⟩ = true ∧
    (testConstructed (testDb true "99.0.0")).db = none :=
  ⟨Reachable.byConstruct (some (testDb true "99.0.0")) [] _ rfl, by decide!, by decide!,
    by decide!⟩

/-- C22, amended: with a driver whose failed `connect` leaves it answering no
query, every state the archive reaches by the constructor, `setDriver`,
`open` and `close` in which it holds a driver has a `version()` that is not
greater than `Version(Major, Minor)`. -/
theorem C22_version_bounded_while_driver_held {σ : Type} (D : DatabaseInterface σ)
    (Major Minor : Nat)
    (hdrv : ∀ (s : σ) (ds : String), (D.connect s ds).1 = false →
      (D.beginQuery (D.connect s ds).2 DatabaseArchive.schemaVersionSql).1 = false)
    (a : DatabaseArchive σ) (hr : Reachable D Major Minor a) (hdb : a.db.isSome = true) :
    Version.gt a.version ⟨Major, Minor, 0⟩ = false := by
  induction hr with
  | byConstruct i log a h =>
    unfold DatabaseArchive.construct at h
    cases hfv : DatabaseArchive.fetchVersion D Major Minor (DatabaseArchive.initial i log) with
    | error e => rw [hfv] at h; cases h
    | ok r =>
      rw [hfv] at h
      cases h
      exact DatabaseArchive.afterFetchVersion_bounded D Major Minor r
        (DatabaseArchive.fetchVersion_spec D Major Minor _ r.2 r.1 hfv).1 hdb
  | bySetDriver a db b _ h _ =>
    unfold DatabaseArchive.setDriver at h
    cases hfv : DatabaseArchive.fetchVersion D Major Minor
        { a with objectIdCache := [], db := db, errorMsg := "" } with
    | error e => rw [hfv] at h; cases h
    | ok r =>
      rw [hfv] at h
      cases h
      exact DatabaseArchive.afterFetchVersion_bounded D Major Minor r
        (DatabaseArchive.fetchVersion_spec D Major Minor _ r.2 r.1 hfv).1 hdb
  | byOpen a ds r b _ h ih =>
    unfold DatabaseArchive.open at h
    cases hs : a.db with
    | none =>
      rw [hs] at h
      cases h
      simp [hs] at hdb
    | some s =>
      rw [hs] at h
      simp only at h
      by_cases hc : D.isConnected s = true
      · rw [if_pos hc] at h
        cases h
        exact ih (by simp [hs])
      · rw [if_neg hc] at h
        by_cases hconn : (D.connect s ds).1 = true
        · rw [if_pos hconn] at h
          split at h
          · cases h
          · rename_i ok a1 hfv
            have hspec := DatabaseArchive.fetchVersion_spec D Major Minor _ a1 ok hfv
            cases ok
            · simp only [Bool.not_false, if_true] at h
              cases h
              rw [DatabaseArchive.close_db] at hdb
              cases hdb
            · simp only [Bool.not_true, Bool.false_eq_true, if_false] at h
              cases h
              exact hspec.1 rfl
        · rw [if_neg hconn] at h
          have hbegin := hdrv s ds (by simpa using hconn)
          simp only [DatabaseArchive.fetchVersion, DatabaseArchive.dbBeginQuery,
            DatabaseArchive.dbEndQuery, hbegin, Bool.not_false, if_true, Except.map] at h
          cases h
          simp [Version.gt]
  | byClose a _ _ =>
    rw [DatabaseArchive.close_db] at hdb
    cases hdb

/-- C22 on the test driver, whose `connect` never fails: the archive the
constructor makes of a connected driver on a database of schema 0.12.7 holds
the driver and has a version that is not greater than 0.12. -/
theorem C22_version_bounded_while_driver_held_witness :
    Reachable testDriver 0 12 (testConstructed (testDb true "0.12.7")) ∧
    (testConstructed (testDb true "0.12.7")).db.isSome = true ∧
    Version.gt (testConstructed (testDb true "0.12.7")).version ⟨0, 12, 0⟩ = false :=
  ⟨Reachable.byConstruct (some (testDb true "0.12.7")) [] _ rfl, by decide!,
    C22_version_bounded_while_driver_held testDriver 0 12
      (fun _ _ h => Bool.noConfusion h)
      (testConstructed (testDb true "0.12.7"))
      (Reachable.byConstruct (some (testDb true "0.12.7")) [] _ rfl) (by decide!)⟩

/-- C21 at two failing inputs on the test driver.  A fresh archive whose
`open("dsn")` connects and then refuses the schema `99.0.0` returns false
holding no driver, and no `disconnect` was sent for the connection it had
opened itself.  And after one successful `open` and `close`, a connected
driver handed over by `setDriver` is sent `disconnect` by the next `close`,
whereas the same driver handed to a fresh archive is not. -/
theorem C21_close_disconnects_by_stale_flag :
    ((DatabaseArchive.initial (some (testDb false "99.0.0")) []).open testDriver 0 12 "dsn").map
        (fun r => (r.1, r.2.db.isSome, r.2.log)) =
      .ok (false, false,
        [Event.connect "dsn" true,
         Event.beginQuery "select value from Meta where name='Schema-Version'" true,
         Event.fetchRow true,
         Event.endQuery,
         Event.endQuery]) ∧
    (testDrivenFrom (testOpenedFrom (testConstructed (testDb false "0.12.0"))).close
        (testDb true "0.12.0")).log =
      [Event.beginQuery "select value from Meta where name='Schema-Version'" true,
       Event.fetchRow true,
       Event.endQuery,
       Event.connect "dsn" true,
       Event.beginQuery "select value from Meta where name='Schema-Version'" true,
       Event.fetchRow true,
       Event.endQuery,
       Event.disconnect,
       Event.beginQuery "select value from Meta where name='Schema-Version'" true,
       Event.fetchRow true,
       Event.endQuery] ∧
    (testDrivenFrom (testOpenedFrom (testConstructed (testDb false "0.12.0"))).close
        (testDb true "0.12.0")).close.log =
      (testDrivenFrom (testOpenedFrom (testConstructed (testDb false "0.12.0"))).close
        (testDb true "0.12.0")).log ++ [Event.disconnect] ∧
    (testConstructed (testDb true "0.12.0")).close.log =
      (testConstructed (testDb true "0.12.0")).log := by
  refine ⟨by decide!, by decide!, by decide!, by decide!⟩

end DataModel
end Seiscomp

namespace Seiscomp
namespace DataModel
namespace DatabaseArchive

variable {σ : Type}

/-! ## The archive keeps telling index attributes apart -/

theorem keepsIndexMode_refl (a : DatabaseArchive σ) : KeepsIndexMode a a := fun h => h

theorem keepsIndexMode_trans {a b c : DatabaseArchive σ} (h1 : KeepsIndexMode a b)
    (h2 : KeepsIndexMode b c) : KeepsIndexMode a c := fun h => h2 (h1 h)

theorem dbExecute_keepsMode (D : DatabaseInterface σ) (a b : DatabaseArchive σ) (sql : String)
    (r : Bool) (h : a.dbExecute D sql = .ok (r, b)) : KeepsIndexMode a b := by
  unfold dbExecute at h
  split at h
  · cases h
  · cases h
    exact fun hh => hh

theorem insertRow_keepsMode (D : DatabaseInterface σ) (a b : DatabaseArchive σ) (table : String)
    (attribs : AttributeMap) (parentId : String) (r : Bool)
    (h : a.insertRow D table attribs parentId = .ok (r, b)) : KeepsIndexMode a b :=
  dbExecute_keepsMode D a b _ r h

theorem writeAttrib_keepsMode (D : DatabaseInterface σ) (a b : DatabaseArchive σ)
    (value : Option String) (h : a.writeAttrib D value = .ok b) : KeepsIndexMode a b := by
  unfold writeAttrib at h
  split at h
  · cases h; exact keepsIndexMode_refl _
  · split at h
    · cases h
    · split at h
      · cases h; exact (fun hh => hh)
      · split at h
        · cases h
        · cases h; exact (fun hh => hh)
        · split at h
          · cases h
          · cases h; exact (fun hh => hh)

theorem writeValue_keepsMode (D : DatabaseInterface σ) (a b : DatabaseArchive σ)
    (v : Value) (h : a.writeValue D v = .ok b) : KeepsIndexMode a b := by
  cases v with
  | int v => exact writeAttrib_keepsMode D a b _ h
  | real r => exact writeAttrib_keepsMode D a b _ h
  | quoted r => exact writeAttrib_keepsMode D a b _ h
  | bool v => exact writeAttrib_keepsMode D a b _ h
  | text t =>
    simp only [writeValue] at h
    split at h
    · cases h
    · exact writeAttrib_keepsMode D a b _ h
  | time t =>
    simp only [writeValue] at h
    split at h
    · cases h
    · split at h
      · cases h
      · rename_i a1 h1
        have q1 := writeAttrib_keepsMode D a a1 _ h1
        split at h
        · split at h
          · cases h
          · rename_i a2 h2
            have q2 := writeAttrib_keepsMode D _ a2 _ h2
            cases h
            exact (fun hh => q2 (q1 hh))
        · cases h; exact q1

theorem pushAttributePrefix_keepsMode (a b : DatabaseArchive σ) (name : CStr)
    (h : a.pushAttributePrefix name = .ok b) : KeepsIndexMode a b := by
  unfold pushAttributePrefix at h
  split at h
  · cases h
  · split at h <;> (cases h; exact (fun hh => hh))

theorem popAttribPrefix_keepsMode (a b : DatabaseArchive σ)
    (h : a.popAttribPrefix = .ok b) : KeepsIndexMode a b := by
  unfold popAttribPrefix at h
  split at h
  · cases h; exact (fun hh => hh)
  · split at h
    · split at h
      · cases h
      · cases h; exact (fun hh => hh)
    · cases h

theorem readAttrib_keepsMode (D : DatabaseInterface σ) (a b : DatabaseArchive σ)
    (h : a.readAttrib D = .ok b) : KeepsIndexMode a b := by
  unfold readAttrib at h
  split at h
  · cases h
  · split at h <;> (cases h; exact (fun hh => hh))

theorem map_pop_keepsMode (a b : DatabaseArchive σ) (r : Bool)
    (h : (a.popAttribPrefix).map (fun a3 => (false, a3)) = .ok (r, b)) : KeepsIndexMode a b := by
  cases hp : a.popAttribPrefix with
  | error e => simp [hp, Except.map] at h
  | ok a3 =>
    simp only [hp, Except.map, Except.ok.injEq, Prod.mk.injEq] at h
    obtain ⟨-, rfl⟩ := h
    exact popAttribPrefix_keepsMode a a3 hp

theorem locateObjectByName_keepsMode (D : DatabaseInterface σ) (a b : DatabaseArchive σ)
    (name targetClass : CStr) (nullable r : Bool)
    (h : a.locateObjectByName D name targetClass nullable = .ok (r, b)) : KeepsIndexMode a b := by
  unfold locateObjectByName at h
  split at h
  · split at h
    · split at h
      · cases h
      · rename_i a1 h1
        have q1 : KeepsIndexMode a a1 := by
          split at h1
          · exact pushAttributePrefix_keepsMode a a1 name h1
          · cases h1; exact keepsIndexMode_refl _
        split at h
        · cases h; exact (fun hh => q1 hh)
        · split at h
          · split at h
            · cases h
            · rename_i a2 h2
              have q2 := writeValue_keepsMode D _ a2 _ h2
              cases h
              exact (fun hh => q2 (q1 hh))
          · cases h; exact q1
    · cases h; exact (fun hh => hh)
  · split at h
    · split at h
      · cases h
      · rename_i a1 h1
        have q1 : KeepsIndexMode a a1 := by
          split at h1
          · cases hp : a.pushAttributePrefix name with
            | error e => simp [hp, Except.map] at h1
            | ok a0 =>
              simp only [hp, Except.map, Except.ok.injEq] at h1
              subst h1
              have q0 := pushAttributePrefix_keepsMode a a0 name hp
              exact (fun hh => q0 hh)
          · cases h1; exact keepsIndexMode_refl _
        split at h
        · split at h
          · split at h
            · cases h
            · rename_i a2 h2
              have q2 := readAttrib_keepsMode D _ a2 h2
              have q12 : KeepsIndexMode a a2 := (fun hh => q2 (q1 hh))
              split at h
              · cases h; exact q12
              · exact keepsIndexMode_trans q12 (map_pop_keepsMode a2 b r h)
          · cases h; exact q1
        · split at h
          · cases h
          · rename_i a2 h2
            have q2 := readAttrib_keepsMode D _ a2 h2
            have q12 : KeepsIndexMode a a2 := (fun hh => q2 (q1 hh))
            split at h
            · exact keepsIndexMode_trans q12 (map_pop_keepsMode a2 b r h)
            · cases h; exact q12
    · split at h
      · cases h
      · split at h
        · cases h
        · rename_i a2 h2
          have q2 := readAttrib_keepsMode D _ a2 h2
          have q12 : KeepsIndexMode a a2 := (fun hh => q2 hh)
          split at h
          · split at h
            · exact keepsIndexMode_trans q12 (map_pop_keepsMode a2 b r h)
            · cases h; exact q12
          · cases h; exact q12

theorem locateNullObjectByName_keepsMode (D : DatabaseInterface σ) (a b : DatabaseArchive σ)
    (name targetClass : CStr) (first : Bool)
    (h : a.locateNullObjectByName D name targetClass first = .ok b) : KeepsIndexMode a b := by
  unfold locateNullObjectByName at h
  split at h
  · split at h
    · split at h
      · have q := writeValue_keepsMode D _ b _ h
        exact (fun hh => q hh)
      · cases h; exact keepsIndexMode_refl _
    · have q := writeAttrib_keepsMode D _ b _ h
      exact (fun hh => q hh)
  · split at h
    · have q := writeAttrib_keepsMode D _ b _ h
      exact (fun hh => q hh)
    · have q := writeAttrib_keepsMode D _ b _ h
      exact (fun hh => q hh)

mutual
theorem serializeOp_keepsMode (D : DatabaseInterface σ) :
    ∀ (op : SerOp) (a b : DatabaseArchive σ), serializeOp D op a = .ok b → KeepsIndexMode a b
  | .setHint _, a, b, h => by
    simp only [serializeOp] at h
    cases h; exact (fun hh => hh)
  | .setValidity v, a, b, h => by
    simp only [serializeOp, setValidity] at h
    cases h
    split <;> exact (fun hh => hh)
  | .locateObjectByName name targetClass nullable, a, b, h => by
    simp only [serializeOp] at h
    cases hl : a.locateObjectByName D name targetClass nullable with
    | error e => simp [hl, Except.map] at h
    | ok r =>
      simp only [hl, Except.map, Except.ok.injEq] at h
      subst h
      exact locateObjectByName_keepsMode D a r.2 name targetClass nullable r.1 hl
  | .locateNullObjectByName name targetClass first, a, b, h => by
    simp only [serializeOp] at h
    exact locateNullObjectByName_keepsMode D a b name targetClass first h
  | .write v, a, b, h => by
    simp only [serializeOp] at h
    exact writeValue_keepsMode D a b v h
  | .serializeRoot object, a, b, h => by
    simp only [serializeOp] at h
    split at h
    · cases h
    · rename_i a1 h1
      exact keepsIndexMode_trans (serialize_keepsMode D object a a1 h1) (popAttribPrefix_keepsMode a1 b h)
  | .serializeDispatcher disp, a, b, h => by
    simp only [serializeOp] at h
    split at h
    · split at h
      · split at h
        · cases h
        · rename_i a1 h1
          have q1 := serialize_keepsMode D disp _ a1 h1
          have q1' : KeepsIndexMode a a1 := (fun hh => q1 hh)
          split at h
          · cases h
          · rename_i a2 h2
            have q2 : KeepsIndexMode a a2 := by
              split at h2
              · cases h2; exact (fun hh => q1' hh)
              · split at h2
                · cases h2
                · cases h2; exact (fun hh => q1' hh)
            split at h
            · cases h
            · split at h
              · cases h
              · rename_i ok a3 h3
                have q3 := keepsIndexMode_trans q2 (insertRow_keepsMode D a2 a3 _ _ _ ok h3)
                split at h
                · cases h; exact q3
                · split at h
                  · cases h
                  · split at h
                    · cases h
                    · rename_i a4 h4
                      have q4 := keepsIndexMode_trans q3 (writeAttrib_keepsMode D a3 a4 _ h4)
                      split at h
                      · exact keepsIndexMode_trans q4 (popAttribPrefix_keepsMode a4 b h)
                      · cases h; exact q4
      · split at h
        · exact popAttribPrefix_keepsMode a b h
        · cases h; exact keepsIndexMode_refl _
    · split at h
      · cases h
      · rename_i a1 h1
        have q1 := serialize_keepsMode D disp a a1 h1
        split at h
        · exact keepsIndexMode_trans q1 (popAttribPrefix_keepsMode a1 b h)
        · cases h; exact q1
theorem serialize_keepsMode (D : DatabaseInterface σ) :
    ∀ (script : SerScript) (a b : DatabaseArchive σ), serialize D script a = .ok b → KeepsIndexMode a b
  | .done, a, b, h => by
    simp only [serialize] at h
    cases h; exact keepsIndexMode_refl _
  | .seq op rest, a, b, h => by
    simp only [serialize] at h
    split at h
    · cases h
    · rename_i a1 h1
      exact keepsIndexMode_trans (serializeOp_keepsMode D op a a1 h1) (serialize_keepsMode D rest a1 b h)
end


end DatabaseArchive
end DataModel
end Seiscomp

namespace Seiscomp
namespace DataModel

namespace DatabaseArchive

variable {σ : Type}

end DatabaseArchive

end DataModel
end Seiscomp

namespace Seiscomp
namespace DataModel

end DataModel
end Seiscomp

namespace Seiscomp
namespace DataModel

/-- C29 at a failing input: the publicID `a'b` on a driver whose `escape`
doubles the single quote, so that `escape` gives `a''b`.  The queries of both
`getObjectCount` overloads and of `getObject` carry the publicID as it was
handed in, `='a'b'`, whereas the queries of `publicObjectId` and
`parentPublicID` and the statement of `insertPublicObject` carry the escaped
`a''b`. -/
theorem C29_getObject_queries_skip_escape :
    testEscapingDriver.escape "a'b" = some "a''b" ∧
    (testArchive.getObjectCount testEscapingDriver "a'b" testPickClass).map
        (fun r => r.2.log) =
      .ok [Event.beginQuery
        ("select count(*) from Pick,PublicObject where PublicObject._oid=Pick._parent_oid " ++
          "and PublicObject.publicID='a'b'") false] ∧
    (testArchive.getObjectCountOf testEscapingDriver (some ⟨1, "a'b"⟩) testPickClass).map
        (fun r => r.2.log) =
      .ok [Event.beginQuery
        ("select count(*) from Pick,PublicObject where PublicObject._oid=Pick._parent_oid " ++
          "and PublicObject.publicID='a'b'") false] ∧
    (testArchive.getObject testEscapingDriver testEventClass "a'b").map (fun r => r.2.log) =
      .ok [Event.beginQuery
        ("select PublicObject.publicID,Event.* from PublicObject,Event " ++
          "where PublicObject._oid=Event._oid and PublicObject.publicID='a'b'") false] ∧
    (testArchive.publicObjectId testEscapingDriver "a'b").map (fun r => r.2.log) =
      .ok [Event.beginQuery "select _oid from PublicObject where publicID='a''b'" false] ∧
    (testArchive.parentPublicID testEscapingDriver "Event" "a'b").map (fun r => r.2.log) =
      .ok [Event.beginQuery
        ("select Parent.publicID from PublicObject as Parent, PublicObject as Child, Event " ++
          "where Child._oid=Event._oid and Parent._oid=Event._parent_oid " ++
          "and Child.publicID='a''b'") false] ∧
    testArchive.insertPublicObjectSql testEscapingDriver 8 "a'b" =
      "insert into PublicObject(_oid,publicID) values(8,'a''b')" := by
  refine ⟨by decide!, by decide!, by decide!, by decide!, by decide!, by decide!, by decide!⟩

end DataModel
end Seiscomp

namespace Seiscomp
namespace RecordStream

open DataModel (Time Fault)

theorem time_lt_irrefl (t : Time) : t.lt t = false := by
  simp [DataModel.Time.lt]

theorem time_ge_refl (t : Time) : t.ge t = true := by
  simp [DataModel.Time.ge, time_lt_irrefl]

namespace File

/-- The tests of the loop of `next()` drop a record exactly when the
specification has it dropped. -/
theorem skips_iff_dropped (valid : Time → Bool) (f : File) (rec : Record) :
    skips valid f rec = true ↔ dropped valid f rec := by
  unfold skips dropped startBound endBound
  by_cases hf : f.filter = []
  · simp only [hf, ne_eq, not_true_eq_false, if_false, List.lookup, false_and, false_or]
    cases valid f.startTime <;> cases valid f.endTime <;> simp
  · simp only [ne_eq, hf, not_false_eq_true, if_true, true_and]
    cases f.filter.lookup rec.streamID with
    | none => simp
    | some w =>
      simp only [false_or]
      cases valid w.start <;> cases valid w.end <;> cases valid f.startTime <;>
        cases valid f.endTime <;> simp

/-- The loop of `next()` passes over records that are dropped and returns the
first one that is not. -/
theorem nextLoop_first_kept (valid : Time → Bool) (f : File) (hfac : f.factory = some true)
    (rec : Record) (rest : List ReadResult) (hkeep : skips valid f rec = false) :
    ∀ pre : List Record, (∀ p ∈ pre, skips valid f p = true) →
      nextLoop valid f (pre.map ReadResult.record ++ ReadResult.record rec :: rest) =
        .ok (some rec, rest)
  | [], _ => by
    simp [nextLoop, hfac, hkeep]
  | p :: pre, h => by
    have hp : skips valid f p = true := h p (List.mem_cons_self _ _)
    simp only [List.map_cons, List.cons_append, nextLoop, hfac, hp, if_true]
    exact nextLoop_first_kept valid f hfac rec rest hkeep pre
      (fun q hq => h q (List.mem_cons_of_mem _ hq))

end File

/-- C23: `next()` on a file that is not asked to close, whose stream is good
and whose factory yields records, with a source that holds the records `pre`,
all dropped, then the record `rec`, not dropped, returns `rec` and leaves the
reads after it.  The loop drops a record exactly when the stream filter is
non-empty and the stream of the record is not registered, or a start bound is
in force and `endTime` is before it, or an end bound is in force and
`startTime` is not before it, the bound in force being the window bound of the
stream if that time is valid and else the global one if that is valid, for
start and end separately.  A record whose `endTime` is the start bound is not
dropped for the start bound; a record whose `startTime` is the end bound is
dropped. -/
theorem C23_next_returns_first_kept_record (valid : Time → Bool) (f : File)
    (pre : List Record) (rec : Record) (rest : List ReadResult)
    (hopen : f.closeRequested = false) (hgood : f.good = true)
    (hfac : f.factory = some true)
    (hinput : f.input = pre.map ReadResult.record ++ ReadResult.record rec :: rest)
    (hpre : ∀ p ∈ pre, File.dropped valid f p) (hrec : ¬File.dropped valid f rec) :
    f.next valid = .ok (some rec, { f with input := rest }) ∧
    (∀ r : Record, File.skips valid f r = true ↔
      ((f.filter ≠ [] ∧ f.filter.lookup r.streamID = none) ∨
       (∃ b, File.startBound valid f r = some b ∧ r.endTime.lt b = true) ∨
       (∃ b, File.endBound valid f r = some b ∧ r.startTime.ge b = true))) ∧
    (∀ (r : Record) (b : Time), File.startBound valid f r = some b → r.endTime = b →
      ¬∃ b1, File.startBound valid f r = some b1 ∧ r.endTime.lt b1 = true) ∧
    (∀ (r : Record) (b : Time), File.endBound valid f r = some b → r.startTime = b →
      File.skips valid f r = true) := by
  refine ⟨?_, fun r => File.skips_iff_dropped valid f r, ?_, ?_⟩
  · have hkeep : File.skips valid f rec = false := by
      cases h : File.skips valid f rec with
      | false => rfl
      | true => exact absurd ((File.skips_iff_dropped valid f rec).mp h) hrec
    have hloop := File.nextLoop_first_kept valid f hfac rec rest hkeep pre
      (fun p hp => (File.skips_iff_dropped valid f p).mpr (hpre p hp))
    unfold File.next
    rw [hopen, hgood, hinput, hloop]
    rfl
  · rintro r b hb hr ⟨b1, hb1, hlt⟩
    rw [hb] at hb1
    cases hb1
    rw [hr, time_lt_irrefl] at hlt
    cases hlt
  · intro r b hb hr
    exact (File.skips_iff_dropped valid f r).mpr
      (Or.inr (Or.inr ⟨b, hb, by rw [hr]; exact time_ge_refl b⟩))

/-- C23 on the test file: the record of the unregistered stream, the record
that ends before the global start, and the record that starts at the end of
the window of its stream are passed over; the record that ends at the start of
the window of its stream is returned. -/
theorem C23_next_returns_first_kept_record_witness :
    testFile.next testValid =
      .ok (some ⟨"GE.UGM..BHZ", ⟨90, 0⟩, ⟨100, 0⟩⟩,
        { testFile with input := [ReadResult.record ⟨"GE.APE..BHZ", ⟨60, 0⟩, ⟨70, 0⟩⟩] }) :=
  (C23_next_returns_first_kept_record testValid testFile
    [⟨"GE.XXX..BHZ", ⟨60, 0⟩, ⟨70, 0⟩⟩, ⟨"GE.APE..BHZ", ⟨30, 0⟩, ⟨49, 999999⟩⟩,
     ⟨"GE.UGM..BHZ", ⟨200, 0⟩, ⟨210, 0⟩⟩]
    ⟨"GE.UGM..BHZ", ⟨90, 0⟩, ⟨100, 0⟩⟩
    [ReadResult.record ⟨"GE.APE..BHZ", ⟨60, 0⟩, ⟨70, 0⟩⟩]
    rfl rfl rfl rfl
    (fun p hp => (File.skips_iff_dropped testValid testFile p).mp (by
      simp only [List.mem_cons, List.mem_singleton, List.not_mem_nil, or_false] at hp
      rcases hp with rfl | rfl | rfl <;> decide))
    (fun h => absurd ((File.skips_iff_dropped testValid testFile _).mpr h) (by decide))).1

end RecordStream
end Seiscomp

namespace Seiscomp
namespace Math
namespace Filtering
namespace IIR

section

variable {R : Type} [LinearOrderedField R]

theorem makepoles_eq (L : Libm R) (n : Nat) :
    makepoles L (n : Int) =
      ((List.range (n / 2)).map (fun (k : Nat) =>
        (⟨L.cos (L.pi * (1 / 2 + ((k : R) + 1 / 2) / (n : R))),
          L.sin (L.pi * (1 / 2 + ((k : R) + 1 / 2) / (n : R)))⟩ : Complex R))) ++
      (if n % 2 = 1 then [⟨-1, 0⟩] else []) := by
  unfold makepoles
  have h1 : (Int.tdiv (n : Int) 2).toNat = n / 2 := rfl
  have h2 : ((n : Int) % 2 = 1) ↔ (n % 2 = 1) := by omega
  rw [h1]
  simp only [Int.cast_natCast, h2]

theorem makepoles_length (L : Libm R) (n : Nat) :
    (makepoles L (n : Int)).length = n / 2 + n % 2 := by
  rw [makepoles_eq]
  rw [List.length_append, List.length_map, List.length_range]
  split
  · rename_i h
    rw [h]
    rfl
  · rename_i h
    have : n % 2 = 0 := by omega
    rw [this]
    rfl

theorem poles2lp_length (L : Libm R) (poles : List (Complex R)) (fmax : R) :
    (poles2lp L poles fmax).length = poles.length := by
  unfold poles2lp
  induction poles with
  | nil => rfl
  | cons p ps ih =>
    simp only [List.flatMap_cons, List.length_append, List.length_cons] at ih ⊢
    rw [ih]
    split <;> simp <;> omega

theorem poles2hp_length (L : Libm R) (poles : List (Complex R)) (fmin : R) :
    (poles2hp L poles fmin).length = poles.length := by
  unfold poles2hp
  induction poles with
  | nil => rfl
  | cons p ps ih =>
    simp only [List.flatMap_cons, List.length_append, List.length_cons] at ih ⊢
    rw [ih]
    split <;> simp <;> omega

theorem poles2bp_length_of_ne (L : Libm R) (fmin fmax : R) :
    ∀ poles : List (Complex R), (∀ p ∈ poles, p ≠ ⟨-1, 0⟩) →
      (poles2bp L poles fmin fmax).length = 2 * poles.length := by
  intro poles
  unfold poles2bp
  induction poles with
  | nil => intro _; rfl
  | cons p ps ih =>
    intro h
    have hp : p ≠ ⟨-1, 0⟩ := h p (List.mem_cons_self _ _)
    have ih1 := ih (fun q hq => h q (List.mem_cons_of_mem _ hq))
    simp only [List.flatMap_cons, List.length_append, List.length_cons] at ih1 ⊢
    rw [ih1, if_pos hp]
    simp only [List.length_cons, List.length_nil]
    omega

theorem poles2bs_length_of_ne (L : Libm R) (fmin fmax : R) :
    ∀ poles : List (Complex R), (∀ p ∈ poles, p ≠ ⟨-1, 0⟩) →
      (poles2bs L poles fmin fmax).length = 2 * poles.length := by
  intro poles
  unfold poles2bs
  induction poles with
  | nil => intro _; rfl
  | cons p ps ih =>
    intro h
    have hp : p ≠ ⟨-1, 0⟩ := h p (List.mem_cons_self _ _)
    have ih1 := ih (fun q hq => h q (List.mem_cons_of_mem _ hq))
    simp only [List.flatMap_cons, List.length_append, List.length_cons] at ih1 ⊢
    rw [ih1, if_pos hp]
    simp only [List.length_cons, List.length_nil]
    omega

theorem poles2bp_append (L : Libm R) (fmin fmax : R) (l1 l2 : List (Complex R)) :
    poles2bp L (l1 ++ l2) fmin fmax = poles2bp L l1 fmin fmax ++ poles2bp L l2 fmin fmax := by
  unfold poles2bp
  simp only [List.flatMap_append]

theorem poles2bs_append (L : Libm R) (fmin fmax : R) (l1 l2 : List (Complex R)) :
    poles2bs L (l1 ++ l2) fmin fmax = poles2bs L l1 fmin fmax ++ poles2bs L l2 fmin fmax := by
  unfold poles2bs
  simp only [List.flatMap_append]

/-- The band cascades of the poles of `makepoles` have two sections for every
pole of a conjugate pair and one for the real pole, as long as no pole of a
pair is computed as `-1`. -/
theorem band_length (L : Libm R) (n : Nat) (fmin fmax : R)
    (hpoles : ∀ k : Nat, k < n / 2 →
      (⟨L.cos (L.pi * (1 / 2 + ((k : R) + 1 / 2) / (n : R))),
        L.sin (L.pi * (1 / 2 + ((k : R) + 1 / 2) / (n : R)))⟩ : Complex R) ≠ ⟨-1, 0⟩) :
    (poles2bp L (makepoles L (n : Int)) fmin fmax).length = n ∧
    (poles2bs L (makepoles L (n : Int)) fmin fmax).length = n := by
  have hall : ∀ p ∈ (List.range (n / 2)).map (fun (k : Nat) =>
      (⟨L.cos (L.pi * (1 / 2 + ((k : R) + 1 / 2) / (n : R))),
        L.sin (L.pi * (1 / 2 + ((k : R) + 1 / 2) / (n : R)))⟩ : Complex R)),
      p ≠ ⟨-1, 0⟩ := by
    intro p hp
    obtain ⟨k, hk, rfl⟩ := List.mem_map.mp hp
    exact hpoles k (List.mem_range.mp hk)
  rw [makepoles_eq, poles2bp_append, poles2bs_append, List.length_append, List.length_append,
    poles2bp_length_of_ne L fmin fmax _ hall, poles2bs_length_of_ne L fmin fmax _ hall,
    List.length_map, List.length_range]
  by_cases hodd : n % 2 = 1
  · rw [if_pos hodd]
    have h1 : (poles2bp L [(⟨-1, 0⟩ : Complex R)] fmin fmax).length = 1 := by
      simp [poles2bp]
    have h2 : (poles2bs L [(⟨-1, 0⟩ : Complex R)] fmin fmax).length = 1 := by
      simp [poles2bs]
    rw [h1, h2]
    omega
  · rw [if_neg hodd]
    have h1 : (poles2bp L ([] : List (Complex R)) fmin fmax).length = 0 := rfl
    have h2 : (poles2bs L ([] : List (Complex R)) fmin fmax).length = 0 := rfl
    rw [h1, h2]
    omega

theorem init_bw_biquads_eq (L : Libm R) (order : Nat) (fmin fmax fsamp : R) (type : Int)
    (htype : type ≠ BUTTERWORTH_HIGHLOWPASS) :
    init_bw_biquads L order fmin fmax fsamp type =
      match validate order fmin fmax fsamp type with
      | some msg => .error msg
      | none => generate L order fmin fmax fsamp type := by
  unfold init_bw_biquads init_bw_biquads_inplace init_bw_biquads_single
  rw [if_neg htype]

theorem validate_lowpass (order : Nat) (fmin fmax fsamp : R) :
    validate order fmin fmax fsamp BUTTERWORTH_LOWPASS = none ↔
      ¬(order > 20 ∨ fsamp ≤ 0 ∨ fmax ≤ 0 ∨ fmin ≥ fsamp / 2) := by
  have hny : (1 / 2 : R) * fsamp = fsamp / 2 := by ring
  unfold validate
  rw [hny]
  simp only [BUTTERWORTH_LOWPASS, BUTTERWORTH_BANDPASS, BUTTERWORTH_BANDSTOP,
    BUTTERWORTH_HIGHPASS]
  split_ifs <;> simp_all

theorem validate_highpass (order : Nat) (fmin fmax fsamp : R) :
    validate order fmin fmax fsamp BUTTERWORTH_HIGHPASS = none ↔
      ¬(order > 20 ∨ fsamp ≤ 0 ∨ fmin ≤ 0 ∨ fmin ≥ fsamp / 2) := by
  have hny : (1 / 2 : R) * fsamp = fsamp / 2 := by ring
  unfold validate
  rw [hny]
  simp only [BUTTERWORTH_LOWPASS, BUTTERWORTH_BANDPASS, BUTTERWORTH_BANDSTOP,
    BUTTERWORTH_HIGHPASS]
  split_ifs <;> simp_all

theorem validate_band (order : Nat) (fmin fmax fsamp : R) (type : Int)
    (htype : type = BUTTERWORTH_BANDPASS ∨ type = BUTTERWORTH_BANDSTOP) :
    validate order fmin fmax fsamp type = none ↔
      ¬(order > 20 ∨ fsamp ≤ 0 ∨ fmax < fmin ∨ fmin ≤ 0 ∨ fmax ≤ 0 ∨ fmin ≥ fsamp / 2) := by
  have hny : (1 / 2 : R) * fsamp = fsamp / 2 := by ring
  unfold validate
  rw [hny, if_pos htype]
  split_ifs <;> simp_all

theorem error_iff_validate (L : Libm R) (order : Nat) (fmin fmax fsamp : R) (type : Int)
    (htype : type = BUTTERWORTH_HIGHPASS ∨ type = BUTTERWORTH_LOWPASS ∨
      type = BUTTERWORTH_BANDPASS ∨ type = BUTTERWORTH_BANDSTOP) :
    (∃ msg, init_bw_biquads L order fmin fmax fsamp type = .error msg) ↔
      validate order fmin fmax fsamp type ≠ none := by
  have hne : type ≠ BUTTERWORTH_HIGHLOWPASS := by
    rcases htype with h | h | h | h <;> rw [h] <;> decide
  rw [init_bw_biquads_eq L order fmin fmax fsamp type hne]
  cases hv : validate order fmin fmax fsamp type with
  | some msg => simp
  | none =>
    simp only [ne_eq, not_true_eq_false, iff_false, not_exists]
    intro msg
    unfold generate
    rcases htype with h | h | h | h <;> rw [h] <;>
      simp [BUTTERWORTH_LOWPASS, BUTTERWORTH_BANDPASS, BUTTERWORTH_BANDSTOP,
        BUTTERWORTH_HIGHPASS]

end

end IIR
end Filtering
end Math
end Seiscomp

namespace Seiscomp
namespace Math
namespace Filtering
namespace IIR

/-- C24 fails as stated, in both directions.  A highpass with `fmax = 0`, for
which the stated conditions hold (`fmax ≤ 0`), is designed without an error,
and so is a lowpass with `fmin = -1` (`fmin < 0`); a bandpass with `fmin = 0`,
for which none of the stated conditions holds, raises `Low frequency cutoff
must be greater than zero`. -/
theorem C24_stated_conditions_fail :
    (specRaises 3 (1 : ℚ) 0 10 BUTTERWORTH_HIGHPASS ∧
      ∃ c, init_bw_biquads testLibm 3 1 0 10 BUTTERWORTH_HIGHPASS = .ok c) ∧
    (specRaises 3 (-1 : ℚ) 2 10 BUTTERWORTH_LOWPASS ∧
      ∃ c, init_bw_biquads testLibm 3 (-1) 2 10 BUTTERWORTH_LOWPASS = .ok c) ∧
    (¬specRaises 3 (0 : ℚ) 2 10 BUTTERWORTH_BANDPASS ∧
      init_bw_biquads testLibm 3 0 2 10 BUTTERWORTH_BANDPASS =
        .error "Low frequency cutoff must be greater than zero") := by
  refine ⟨⟨?_, ?_⟩, ⟨?_, ?_⟩, ⟨?_, ?_⟩⟩
  · unfold specRaises
    decide!
  · exact ⟨testHighpass, by decide!⟩
  · unfold specRaises
    decide!
  · have hs : (init_bw_biquads testLibm 3 (-1) 2 10 BUTTERWORTH_LOWPASS).toOption.isSome
        = true := by decide!
    cases h : init_bw_biquads testLibm 3 (-1) 2 10 BUTTERWORTH_LOWPASS with
    | ok c => exact ⟨c, rfl⟩
    | error m =>
      rw [h] at hs
      cases hs
  · unfold specRaises
    decide!
  · decide!

/-- C24, amended: the conditions under which `init_bw_biquads` raises an
error depend on the type.  For every type `order > 20`, `fsamp ≤ 0` and
`fmin ≥ fsamp/2`; for the lowpass in addition `fmax ≤ 0`; for the highpass
`fmin ≤ 0`; for the bandpass and the bandstop `fmax < fmin`, `fmin ≤ 0` and
`fmax ≤ 0`. -/
theorem C24_validation_by_type {R : Type} [LinearOrderedField R] (L : Libm R) (order : Nat)
    (fmin fmax fsamp : R) :
    ((∃ msg, init_bw_biquads L order fmin fmax fsamp BUTTERWORTH_LOWPASS = .error msg) ↔
      (order > 20 ∨ fsamp ≤ 0 ∨ fmax ≤ 0 ∨ fmin ≥ fsamp / 2)) ∧
    ((∃ msg, init_bw_biquads L order fmin fmax fsamp BUTTERWORTH_HIGHPASS = .error msg) ↔
      (order > 20 ∨ fsamp ≤ 0 ∨ fmin ≤ 0 ∨ fmin ≥ fsamp / 2)) ∧
    ((∃ msg, init_bw_biquads L order fmin fmax fsamp BUTTERWORTH_BANDPASS = .error msg) ↔
      (order > 20 ∨ fsamp ≤ 0 ∨ fmax < fmin ∨ fmin ≤ 0 ∨ fmax ≤ 0 ∨ fmin ≥ fsamp / 2)) ∧
    ((∃ msg, init_bw_biquads L order fmin fmax fsamp BUTTERWORTH_BANDSTOP = .error msg) ↔
      (order > 20 ∨ fsamp ≤ 0 ∨ fmax < fmin ∨ fmin ≤ 0 ∨ fmax ≤ 0 ∨ fmin ≥ fsamp / 2)) := by
  refine ⟨?_, ?_, ?_, ?_⟩
  · rw [error_iff_validate L order fmin fmax fsamp _ (Or.inr (Or.inl rfl)), ne_eq,
      validate_lowpass, not_not]
  · rw [error_iff_validate L order fmin fmax fsamp _ (Or.inl rfl), ne_eq,
      validate_highpass, not_not]
  · rw [error_iff_validate L order fmin fmax fsamp _ (Or.inr (Or.inr (Or.inl rfl))), ne_eq,
      validate_band order fmin fmax fsamp _ (Or.inl rfl), not_not]
  · rw [error_iff_validate L order fmin fmax fsamp _ (Or.inr (Or.inr (Or.inr rfl))), ne_eq,
      validate_band order fmin fmax fsamp _ (Or.inr rfl), not_not]

/-- C24 in the test arithmetic: the highpass of order 3 with the corner 0
raises an error. -/
theorem C24_validation_by_type_witness :
    ∃ msg, init_bw_biquads testLibm 3 0 2 10 BUTTERWORTH_HIGHPASS = .error msg :=
  (C24_validation_by_type testLibm 3 0 2 10).2.1.mpr (Or.inr (Or.inr (Or.inl (le_refl 0))))

/-- C25 fails on the code: when the highpass call and the lowpass call of the
`BUTTERWORTH_HIGHLOWPASS` case both return, the cascade designed is the
lowpass cascade alone, since the assignment in the lowpass call replaces the
highpass cascade.  It has as many sections as the highpass cascade, half the
order rounded up, and for a positive order it is not the highpass cascade
followed by the lowpass cascade. -/
theorem C25_highlowpass_is_lowpass_alone {R : Type} [LinearOrderedField R] (L : Libm R)
    (order : Nat) (fmin fmax fsamp : R) (hp lp : Biquads R)
    (hhp : init_bw_biquads L order fmin 0 fsamp BUTTERWORTH_HIGHPASS = .ok hp)
    (hlp : init_bw_biquads L order 0 fmax fsamp BUTTERWORTH_LOWPASS = .ok lp) :
    init_bw_biquads L order fmin fmax fsamp BUTTERWORTH_HIGHLOWPASS = .ok lp ∧
    lp.length = (order + 1) / 2 ∧ hp.length = (order + 1) / 2 ∧
    (0 < order →
      init_bw_biquads L order fmin fmax fsamp BUTTERWORTH_HIGHLOWPASS ≠ .ok (hp ++ lp)) := by
  have hhp1 : init_bw_biquads_single L [] order fmin 0 fsamp BUTTERWORTH_HIGHPASS = .ok hp := by
    unfold init_bw_biquads init_bw_biquads_inplace at hhp
    rw [if_neg (by decide)] at hhp
    exact hhp
  have hlp1 : ∀ b : Biquads R,
      init_bw_biquads_single L b order 0 fmax fsamp BUTTERWORTH_LOWPASS = .ok lp := by
    intro b
    unfold init_bw_biquads init_bw_biquads_inplace at hlp
    rw [if_neg (by decide)] at hlp
    exact hlp
  have hrun : init_bw_biquads L order fmin fmax fsamp BUTTERWORTH_HIGHLOWPASS = .ok lp := by
    unfold init_bw_biquads init_bw_biquads_inplace
    rw [if_pos rfl, hhp1]
    exact hlp1 hp
  have hlplen : lp.length = (order + 1) / 2 := by
    unfold init_bw_biquads_single at hlp1
    have h := hlp1 []
    split at h
    · cases h
    · unfold generate at h
      simp only [BUTTERWORTH_LOWPASS, BUTTERWORTH_BANDPASS, BUTTERWORTH_BANDSTOP] at h
      rw [if_pos trivial] at h
      cases h
      unfold analog2digital
      rw [List.length_map, poles2lp_length, makepoles_length]
      omega
  have hhplen : hp.length = (order + 1) / 2 := by
    unfold init_bw_biquads_single at hhp1
    split at hhp1
    · cases hhp1
    · unfold generate at hhp1
      simp only [BUTTERWORTH_LOWPASS, BUTTERWORTH_BANDPASS, BUTTERWORTH_BANDSTOP,
        BUTTERWORTH_HIGHPASS] at hhp1
      rw [if_pos trivial] at hhp1
      cases hhp1
      unfold analog2digital
      rw [List.length_map, poles2hp_length, makepoles_length]
      omega
  refine ⟨hrun, hlplen, hhplen, ?_⟩
  intro hpos h
  rw [hrun] at h
  have hlen := congrArg (fun r => (Except.toOption r).map List.length) h
  simp only [Except.toOption, Option.map, List.length_append] at hlen
  have hlen1 : lp.length = hp.length + lp.length := by
    injection hlen
  omega

/-- C25 in the test arithmetic: the design of order 3 with the corners 1 and
2 at the sample rate 10 is the lowpass cascade, of 2 sections. -/
theorem C25_highlowpass_is_lowpass_alone_witness :
    init_bw_biquads testLibm 3 1 2 10 BUTTERWORTH_HIGHLOWPASS = .ok testLowpass ∧
    testLowpass.length = (3 + 1) / 2 ∧ testHighpass.length = (3 + 1) / 2 ∧
    (0 < 3 →
      init_bw_biquads testLibm 3 1 2 10 BUTTERWORTH_HIGHLOWPASS ≠
        .ok (testHighpass ++ testLowpass)) :=
  C25_highlowpass_is_lowpass_alone testLibm 3 1 2 10 testHighpass testLowpass
    (by decide!) (by decide!)

end IIR
end Filtering
end Math
end Seiscomp

namespace Seiscomp
namespace Math
namespace Filtering
namespace IIR

/-- C28: for `0 ≤ n ≤ 20`, `makepoles(n)` gives the `⌊n/2⌋` poles `(cos φ, sin
φ)` with `φ = π (1/2 + (k + 1/2)/n)` for `k < ⌊n/2⌋`, followed by the real pole
`-1` exactly when `n` is odd.  With parameters that pass the checks, the
lowpass and the highpass cascade have `⌈n/2⌉` sections, and the bandpass and
the bandstop cascade have exactly `n` sections, as long as none of the poles
`(cos φ, sin φ)` is computed as `-1`. -/
theorem C28_pole_and_section_counts {R : Type} [LinearOrderedField R] (L : Libm R) (n : Nat)
    (hn : n ≤ 20) :
    makepoles L (n : Int) =
      ((List.range (n / 2)).map (fun (k : Nat) =>
        (⟨L.cos (L.pi * (1 / 2 + ((k : R) + 1 / 2) / (n : R))),
          L.sin (L.pi * (1 / 2 + ((k : R) + 1 / 2) / (n : R)))⟩ : Complex R))) ++
      (if n % 2 = 1 then [⟨-1, 0⟩] else []) ∧
    (makepoles L (n : Int)).length = n / 2 + n % 2 ∧
    (∀ fmin fmax fsamp : R, 0 < fsamp → 0 < fmax → fmin < fsamp / 2 →
      ∃ c, init_bw_biquads L n fmin fmax fsamp BUTTERWORTH_LOWPASS = .ok c ∧
        c.length = (n + 1) / 2) ∧
    (∀ fmin fmax fsamp : R, 0 < fsamp → 0 < fmin → fmin < fsamp / 2 →
      ∃ c, init_bw_biquads L n fmin fmax fsamp BUTTERWORTH_HIGHPASS = .ok c ∧
        c.length = (n + 1) / 2) ∧
    ((∀ k : Nat, k < n / 2 →
        (⟨L.cos (L.pi * (1 / 2 + ((k : R) + 1 / 2) / (n : R))),
          L.sin (L.pi * (1 / 2 + ((k : R) + 1 / 2) / (n : R)))⟩ : Complex R) ≠ ⟨-1, 0⟩) →
      ∀ fmin fmax fsamp : R, 0 < fsamp → 0 < fmin → fmin ≤ fmax → fmin < fsamp / 2 →
        (∃ c, init_bw_biquads L n fmin fmax fsamp BUTTERWORTH_BANDPASS = .ok c ∧
          c.length = n) ∧
        (∃ c, init_bw_biquads L n fmin fmax fsamp BUTTERWORTH_BANDSTOP = .ok c ∧
          c.length = n)) := by
  have hord : ¬(n > 20) := by omega
  refine ⟨makepoles_eq L n, makepoles_length L n, ?_, ?_, ?_⟩
  · intro fmin fmax fsamp hs hmax hmin
    have hv : validate n fmin fmax fsamp BUTTERWORTH_LOWPASS = none := by
      rw [validate_lowpass]
      rintro (h | h | h | h)
      · exact hord h
      · exact absurd hs (not_lt.mpr h)
      · exact absurd hmax (not_lt.mpr h)
      · exact absurd hmin (not_lt.mpr h)
    rw [init_bw_biquads_eq L n fmin fmax fsamp _ (by decide), hv]
    refine ⟨_, rfl, ?_⟩
    unfold analog2digital
    rw [List.length_map, poles2lp_length, makepoles_length]
    omega
  · intro fmin fmax fsamp hs hmin hny
    have hv : validate n fmin fmax fsamp BUTTERWORTH_HIGHPASS = none := by
      rw [validate_highpass]
      rintro (h | h | h | h)
      · exact hord h
      · exact absurd hs (not_lt.mpr h)
      · exact absurd hmin (not_lt.mpr h)
      · exact absurd hny (not_lt.mpr h)
    rw [init_bw_biquads_eq L n fmin fmax fsamp _ (by decide), hv]
    refine ⟨_, rfl, ?_⟩
    unfold analog2digital
    rw [List.length_map, poles2hp_length, makepoles_length]
    omega
  · intro hpoles fmin fmax fsamp hs hmin hle hny
    have hmax : 0 < fmax := lt_of_lt_of_le hmin hle
    have hv : ∀ type : Int, type = BUTTERWORTH_BANDPASS ∨ type = BUTTERWORTH_BANDSTOP →
        validate n fmin fmax fsamp type = none := by
      intro type htype
      rw [validate_band n fmin fmax fsamp type htype]
      rintro (h | h | h | h | h | h)
      · exact hord h
      · exact absurd hs (not_lt.mpr h)
      · exact absurd h (not_lt.mpr hle)
      · exact absurd hmin (not_lt.mpr h)
      · exact absurd hmax (not_lt.mpr h)
      · exact absurd hny (not_lt.mpr h)
    constructor
    · rw [init_bw_biquads_eq L n fmin fmax fsamp _ (by decide), hv _ (Or.inl rfl)]
      refine ⟨_, rfl, ?_⟩
      unfold analog2digital
      rw [List.length_map]
      exact (band_length L n _ _ hpoles).1
    · rw [init_bw_biquads_eq L n fmin fmax fsamp _ (by decide), hv _ (Or.inr rfl)]
      refine ⟨_, rfl, ?_⟩
      unfold analog2digital
      rw [List.length_map]
      exact (band_length L n _ _ hpoles).2

/-- C28 in the test arithmetic for the order 3: two poles, the second the real
pole `-1`; the lowpass has 2 sections and the bandpass has 3. -/
theorem C28_pole_and_section_counts_witness :
    (makepoles testLibm (3 : Nat)).length = 3 / 2 + 3 % 2 ∧
    (∃ c, init_bw_biquads testLibm 3 0 2 10 BUTTERWORTH_LOWPASS = .ok c ∧
      c.length = (3 + 1) / 2) ∧
    (∃ c, init_bw_biquads testLibm 3 1 2 10 BUTTERWORTH_BANDPASS = .ok c ∧ c.length = 3) :=
  ⟨(C28_pole_and_section_counts testLibm 3 (by decide)).2.1,
   (C28_pole_and_section_counts testLibm 3 (by decide)).2.2.1 0 2 10
     (by decide) (by decide) (by decide!),
   ((C28_pole_and_section_counts testLibm 3 (by decide)).2.2.2.2
     (fun k hk => by
       have hk0 : k = 0 := by omega
       subst hk0
       decide!)
     1 2 10 (by decide) (by decide) (by decide) (by decide!)).1⟩

end IIR
end Filtering
end Math
end Seiscomp
